import Mathlib

/-! # SciPipe demo workflows

A shallow embedding of the three workflow programs of the repository
(`cawpre`, `rnaseqpre`, `mm`) and of the parts of the flow-based substrate
they drive: generators, the fan-in aggregator, path rules, the workflow
graph and the run-to-pattern selection.

Workflow construction is explicit state passing over `Workflow`: every
constructor call of the source appends a process object, every
`Connect`/`From` call appends a connection.
-/

set_option autoImplicit false

namespace SciPipe

/-! ## Packets and channels -/

/-- Unit of data travelling on a port. -/
inductive IP where
  | file (path : String)
  | param (value : String)
  | batch (items : List IP)

/-- Modelled from the spec: the sending side of a port (`Send` appends in
emission order, `Close` marks the port closed; a send after the close is the
Go runtime failure of sending on a closed channel). The port type itself is
declared in the scipipe library, outside src/. -/
structure Chan where
  sent : List IP
  closed : Bool

namespace Chan

def empty : Chan := ⟨[], false⟩

def Send (c : Chan) (ip : IP) : Except String Chan :=
  if c.closed then .error "send on closed channel"
  else .ok { c with sent := c.sent ++ [ip] }

def Close (c : Chan) : Chan := { c with closed := true }

end Chan

/-- Ports of a process by name, in declaration order. -/
abbrev PortMap := List (String × Chan)

def PortMap.sendOn (ports : PortMap) (name : String) (ip : IP) : Except String PortMap :=
  match ports with
  | [] => .error ("no such port: " ++ name)
  | (n, c) :: rest =>
    if n = name then
      match c.Send ip with
      | .ok c2 => .ok ((n, c2) :: rest)
      | .error e => .error e
    else
      match PortMap.sendOn rest name ip with
      | .ok rest2 => .ok ((n, c) :: rest2)
      | .error e => .error e

/-- Modelled from the spec: the base of a hand-written process
(`sp.BaseProcess`, scipipe library, outside src/): a name and the out-ports
and parameter out-ports initialised on it. -/
structure BaseProcess where
  name : String
  outPorts : PortMap
  paramOutPorts : PortMap

namespace BaseProcess

def NewBaseProcess (name : String) : BaseProcess := ⟨name, [], []⟩

def InitOutPort (p : BaseProcess) (portName : String) : BaseProcess :=
  { p with outPorts := p.outPorts ++ [(portName, Chan.empty)] }

def InitParamOutPort (p : BaseProcess) (portName : String) : BaseProcess :=
  { p with paramOutPorts := p.paramOutPorts ++ [(portName, Chan.empty)] }

def CloseAllOutPorts (p : BaseProcess) : BaseProcess :=
  { p with
    outPorts := p.outPorts.map (fun nc => (nc.1, nc.2.Close))
    paramOutPorts := p.paramOutPorts.map (fun nc => (nc.1, nc.2.Close)) }

end BaseProcess

/-! ## Generators of `cawpre.go` -/

/-- ParamSource will feed parameters on an out-port. -/
structure ParamSource where
  base : BaseProcess
  params : List String

/-- `NewParamSource` of cawpre.go (the process side; registration in the
workflow is `Cawpre.NewParamSource`). -/
def ParamSource.new (name : String) (params : List String) : ParamSource :=
  { base := (BaseProcess.NewBaseProcess name).InitParamOutPort "out", params := params }

/-- `ParamSource.Run`: the loop sends on `p.Out()`, which is the parameter
out-port "out"; the deferred `CloseAllOutPorts` runs last. -/
def ParamSource.Run (p : ParamSource) : Except String BaseProcess :=
  match p.params.foldlM
      (fun (bp : BaseProcess) param =>
        match bp.paramOutPorts.sendOn "out" (IP.param param) with
        | .ok ports => Except.ok { bp with paramOutPorts := ports }
        | .error e => Except.error e)
      p.base with
  | .ok bp => .ok bp.CloseAllOutPorts
  | .error e => .error e

structure IPSource where
  base : BaseProcess
  filePaths : List String

/-- `NewIPSource` of cawpre.go (the process side). -/
def IPSource.new (name : String) (filePaths : List String) : IPSource :=
  { base := (BaseProcess.NewBaseProcess name).InitOutPort "out", filePaths := filePaths }

/-- `IPSource.Run`: each path is wrapped by `sp.NewFileIP` and sent on the
out-port "out"; the deferred `CloseAllOutPorts` runs last. -/
def IPSource.Run (p : IPSource) : Except String BaseProcess :=
  match p.filePaths.foldlM
      (fun (bp : BaseProcess) filePath =>
        match bp.outPorts.sendOn "out" (IP.file filePath) with
        | .ok ports => Except.ok { bp with outPorts := ports }
        | .error e => Except.error e)
      p.base with
  | .ok bp => .ok bp.CloseAllOutPorts
  | .error e => .error e

/-! ## The fan-in aggregator -/

/-- Modelled from the spec: `StreamToSubStream` (scipipe components library,
outside src/). It receives until its in-port reports closed, appending every
packet to an ordered buffer; then it emits one batch packet wrapping the
buffer on its out-port and closes that port. `input` is the sequence of
packets delivered on the in-port before its closure. -/
def StreamToSubStream.collect (buffer : List IP) : List IP → List IP
  | [] => buffer
  | ip :: rest => StreamToSubStream.collect (buffer ++ [ip]) rest

/-- Modelled from the spec: the run of a `StreamToSubStream` on the packets of
its in-port (see `StreamToSubStream.collect`): the state of its out-port when
the run ends. -/
def StreamToSubStream.Run (input : List IP) : Except String Chan :=
  match Chan.empty.Send (IP.batch (StreamToSubStream.collect [] input)) with
  | .ok c => .ok c.Close
  | .error e => .error e

/-! ## String formatting -/

/-- A float64 value as the decimal literal that denotes it in the source:
`mantissa / 10 ^ scale`. -/
structure Float64 where
  mantissa : Int
  scale : Nat
  deriving DecidableEq, Repr

/-- `n` as decimal digits, left-padded with zeros to `width`. -/
def padDigits (width n : Nat) : List Char :=
  let ds := (Nat.toDigits 10 n)
  List.replicate (width - ds.length) '0' ++ ds

/-- The verb `%f` of Go's fmt: six decimals. Exact for a literal of at most
six decimals (it is padded with zeros); a longer literal is cut to six
decimals, rounding half up. -/
def Float64.fmtF (x : Float64) : List Char :=
  let m := x.mantissa.natAbs
  let micro :=
    if x.scale ≤ 6 then m * 10 ^ (6 - x.scale)
    else (m + 10 ^ (x.scale - 6) / 2) / 10 ^ (x.scale - 6)
  (if x.mantissa < 0 then ['-'] else []) ++
    Nat.toDigits 10 (micro / 1000000) ++ ['.'] ++ padDigits 6 (micro % 1000000)

/-- An operand of `fmt.Sprintf`. -/
inductive FmtArg where
  | str (s : String)
  | int (n : Int)
  | float (x : Float64)

/-- One operand as its verb prints it: the programs pair `%s` with a string,
`%d` with an int and `%f` with a float64, so the operand decides. -/
def FmtArg.render : FmtArg → List Char
  | .str s => s.data
  | .int n => (toString n).data
  | .float x => x.fmtF

/-- The part of `fmt.Sprintf` the programs use: each `%` with its verb
letter consumes the next operand. -/
def sprintf : List Char → List FmtArg → List Char
  | [], _ => []
  | '%' :: _ :: cs, a :: rest => a.render ++ sprintf cs rest
  | c :: cs, args => c :: sprintf cs args

/-- The helper `fs` of rnaseqpre.go and of package mm: a short-hand for
`fmt.Sprintf`. -/
def fs (fmtString : String) (v : List FmtArg) : String :=
  ⟨sprintf fmtString.data v⟩

/-! ## Processes, connections, workflows -/

/-- How a process object was made. -/
inductive ProcKind where
  | shell (cmd : String)                 -- wf.NewProc(name, cmd)
  | paramSource (params : List String)   -- NewParamSource (cawpre.go)
  | ipSource (filePaths : List String)   -- NewIPSource (cawpre.go)
  | fileSource (filePaths : List String) -- spcomp.NewFileSource
  | streamToSubStream                    -- spcomp.NewStreamToSubStream
  | component (ctor : String)            -- a component constructor of package mm
  deriving DecidableEq, Repr

/-- Whether the process is a `StreamToSubStream` aggregator. -/
def ProcKind.isAggregator : ProcKind → Bool
  | .streamToSubStream => true
  | _ => false

/-- A process object. `id` is its position in the creation order of its
workflow and stands for the Go pointer. -/
structure Proc where
  id : Nat
  name : String
  kind : ProcKind
  deriving DecidableEq, Repr

/-- A constant fed to a parameter port. -/
inductive Const where
  | str (s : String)      -- FromStr
  | float (x : Float64)   -- FromFloat
  deriving DecidableEq, Repr

/-- The sending end of a connection. -/
inductive Source where
  | out (p : Proc) (port : String)     -- an out-port of a process
  | feeder (values : List Const)       -- the constant feeder made by FromStr / FromFloat
  deriving DecidableEq, Repr

/-- The id of the process that owns the sending port, when there is one. -/
def Source.procId : Source → Option Nat
  | .out p _ => some p.id
  | .feeder _ => none

/-- One `Connect` / `From` call: the receiving in-port and what feeds it. -/
structure Conn where
  src : Source
  dst : Proc
  dstPort : String
  isParam : Bool
  deriving DecidableEq, Repr

/-- What a path function may read of its task. -/
structure Task where
  InPath : String → String
  Param : String → String

/-- Modelled from the spec: the workflow as client code builds it, "the
graph accumulates purely as data": the process objects in creation order, the
connections in the order of the `Connect` / `From` calls, and the path
functions set on out-ports. The type is declared in the scipipe library,
outside src/. -/
structure Workflow where
  name : String
  maxTasks : Int
  procs : List Proc
  conns : List Conn
  /-- Path functions by process id and out-port name, newest first. -/
  pathFuncs : List ((Nat × String) × (Task → String))

/-- What stands for the placeholder with the text `body` between its braces. -/
def placeholder (t : Task) (body : List Char) : List Char :=
  match body with
  | 'i' :: ':' :: name => (t.InPath ⟨name⟩).data
  | 'p' :: ':' :: name => (t.Param ⟨name⟩).data
  | _ => Char.ofNat 123 :: body ++ [Char.ofNat 125]

/-- Substitution of the placeholders of a path pattern; `inside` holds, in
reverse, the characters read since an opening brace. -/
def expandPattern (t : Task) : Option (List Char) → List Char → List Char
  | none, [] => []
  | some inside, [] => Char.ofNat 123 :: inside.reverse
  | none, c :: cs =>
    if c = Char.ofNat 123 then expandPattern t (some []) cs else c :: expandPattern t none cs
  | some inside, c :: cs =>
    if c = Char.ofNat 125 then placeholder t inside.reverse ++ expandPattern t none cs
    else expandPattern t (some (c :: inside)) cs

/-- The scan of Go's `strings.Replace(s, old, new, -1)` for a non-empty
`old`, over characters: `skip` counts the characters of a match still to be
dropped. -/
def replaceGo (old new : List Char) : Nat → List Char → List Char
  | _, [] => []
  | skip + 1, _ :: cs => replaceGo old new skip cs
  | 0, c :: cs =>
    if old.isPrefixOf (c :: cs) then new ++ replaceGo old new (old.length - 1) cs
    else c :: replaceGo old new 0 cs

/-- Go's `strings.Replace(s, old, new, -1)`: every occurrence of `old`, left
to right and without overlap, becomes `new`; an empty `old` matches before
every character and at the end. -/
def strReplace (s old new : String) : String :=
  if old.data = [] then ⟨new.data ++ s.data.flatMap (fun c => c :: new.data)⟩
  else ⟨replaceGo old.data new.data 0 s.data⟩

namespace Workflow

def NewWorkflow (name : String) (maxTasks : Int) : Workflow :=
  ⟨name, maxTasks, [], [], []⟩

/-- Modelled from the spec: a constructor call creates one process object
under the given name and adds it to the workflow; nothing is executed. -/
def addProc (wf : Workflow) (name : String) (kind : ProcKind) : Proc × Workflow :=
  let p : Proc := ⟨wf.procs.length, name, kind⟩
  (p, { wf with procs := wf.procs ++ [p] })

/-- `wf.NewProc(name, cmd)`. -/
def NewProc (wf : Workflow) (name cmd : String) : Proc × Workflow :=
  wf.addProc name (.shell cmd)

/-- `spcomp.NewFileSource(wf, name, filePaths...)`. -/
def NewFileSource (wf : Workflow) (name : String) (filePaths : List String) : Proc × Workflow :=
  wf.addProc name (.fileSource filePaths)

/-- `spcomp.NewStreamToSubStream(wf, name)`. -/
def NewStreamToSubStream (wf : Workflow) (name : String) : Proc × Workflow :=
  wf.addProc name .streamToSubStream

/-- Modelled from the spec: `dst.In(dstPort).Connect(src.Out(srcPort))`, also
written `dst.In(dstPort).From(src.Out(srcPort))`: one directed edge from the
out-port to the in-port is added. The calls of the programs never fail, so
the refusal the spec gives `Connect` is not part of the model. -/
def Connect (wf : Workflow) (dst : Proc) (dstPort : String) (src : Proc) (srcPort : String) :
    Workflow :=
  { wf with conns := wf.conns ++ [⟨.out src srcPort, dst, dstPort, false⟩] }

/-- `dst.ParamInPort(dstPort).Connect(src.Out())`. -/
def ConnectParam (wf : Workflow) (dst : Proc) (dstPort : String) (src : Proc)
    (srcPort : String) : Workflow :=
  { wf with conns := wf.conns ++ [⟨.out src srcPort, dst, dstPort, true⟩] }

/-- `dst.InParam(dstPort).FromStr(v)`: the parameter in-port is fed by a
constant feeder, which is no process of the workflow. -/
def FromStr (wf : Workflow) (dst : Proc) (dstPort : String) (v : String) : Workflow :=
  { wf with conns := wf.conns ++ [⟨.feeder [.str v], dst, dstPort, true⟩] }

/-- `dst.InParam(dstPort).FromFloat(v)`. -/
def FromFloat (wf : Workflow) (dst : Proc) (dstPort : String) (v : Float64) : Workflow :=
  { wf with conns := wf.conns ++ [⟨.feeder [.float v], dst, dstPort, true⟩] }

def setPathFunc (wf : Workflow) (p : Proc) (port : String) (f : Task → String) : Workflow :=
  { wf with pathFuncs := ((p.id, port), f) :: wf.pathFuncs }

/-- `p.SetPathStatic(port, path)`. -/
def SetPathStatic (wf : Workflow) (p : Proc) (port path : String) : Workflow :=
  wf.setPathFunc p port (fun _ => path)

/-- Modelled from the spec: `p.SetPathReplace(inPort, outPort, old, new)`
(scipipe library, outside src/): the out-port path is the string
substitution of the path received on `inPort`, every occurrence of `old`
replaced by `new`. -/
def SetPathReplace (wf : Workflow) (p : Proc) (inPort outPort old new : String) : Workflow :=
  wf.setPathFunc p outPort (fun t => strReplace (t.InPath inPort) old new)

/-- `p.SetPathCustom(port, f)`. -/
def SetPathCustom (wf : Workflow) (p : Proc) (port : String) (f : Task → String) : Workflow :=
  wf.setPathFunc p port f

/-- `p.SetOutFunc(port, f)`, the name of `SetPathCustom` in the later API. -/
def SetOutFunc (wf : Workflow) (p : Proc) (port : String) (f : Task → String) : Workflow :=
  wf.setPathFunc p port f

/-- Modelled from the spec: `p.SetOut(port, pattern)` (scipipe library,
outside src/): the out-port path is the pattern with its placeholders
`{i:portName}` and `{p:paramName}` substituted by the path received on the
in-port and by the parameter value; a pattern without placeholder is a static
path. -/
def SetOut (wf : Workflow) (p : Proc) (port pattern : String) : Workflow :=
  wf.setPathFunc p port (fun t => ⟨expandPattern t none pattern.data⟩)

/-- The path function in force for an out-port: the one set last. -/
def pathFunc (wf : Workflow) (p : Proc) (port : String) : Option (Task → String) :=
  (wf.pathFuncs.find? (fun e => e.1 = (p.id, port))).map (fun e => e.2)

/-- The process object registered under a name (the first, in creation order). -/
def proc (wf : Workflow) (name : String) : Option Proc :=
  wf.procs.find? (fun p => p.name = name)

/-- The in-port a connection ends in: process id, port name, and whether it
is a parameter port. -/
def key (c : Conn) : Nat × String × Bool := (c.dst.id, c.dstPort, c.isParam)

/-- The sources connected to an in-port, in connection order. -/
def upstream (wf : Workflow) (pid : Nat) (port : String) (isParam : Bool) : List Source :=
  (wf.conns.filter (fun c => key c = (pid, port, isParam))).map (fun c => c.src)

/-- Number of upstream connections of an in-port. -/
def fanIn (wf : Workflow) (pid : Nat) (port : String) (isParam : Bool) : Nat :=
  wf.conns.countP (fun c => key c = (pid, port, isParam))

/-- Producer-process to consumer-process edge of the graph. -/
def edge (wf : Workflow) (p q : Proc) : Prop :=
  ∃ c ∈ wf.conns, ∃ port, c.src = .out p port ∧ c.dst = q

/-- Whether every connection between two processes goes up in the rank `r`
of the process ids. -/
def ranksUp (r : Nat → Nat) (edges : List (Option Nat × Nat)) : Bool :=
  edges.all (fun x => match x.1 with
    | some i => decide (r i < r x.2)
    | none => true)

/-- No directed cycle among the processes. -/
def Acyclic (wf : Workflow) : Prop :=
  ∀ p, ¬ Relation.TransGen wf.edge p p

end Workflow

/-- Go map from strings, as an association list (newest entry first). -/
structure GoMap (α : Type) where
  entries : List (String × α)

def GoMap.empty {α : Type} : GoMap α := ⟨[]⟩

def GoMap.get {α : Type} (m : GoMap α) (k : String) : Option α :=
  (m.entries.find? (fun e => e.1 = k)).map (fun e => e.2)

def GoMap.set {α : Type} (m : GoMap α) (k : String) (v : α) : GoMap α :=
  ⟨(k, v) :: m.entries⟩

end SciPipe

open SciPipe

/-! ## cawpre.go -/

namespace Cawpre

/-- `NewParamSource(wf, name, params...)` of cawpre.go, as seen by the workflow. -/
def NewParamSource (wf : Workflow) (name : String) (params : List String) : Proc × Workflow :=
  wf.addProc name (.paramSource params)

/-- `NewIPSource(wf, name, filePaths...)` of cawpre.go, as seen by the workflow. -/
def NewIPSource (wf : Workflow) (name : String) (filePaths : List String) : Proc × Workflow :=
  wf.addProc name (.ipSource filePaths)

def tmpDir : String := "tmp"
def appsDir : String := "data/apps"
def refDir : String := appsDir ++ "/pipeline_test/ref"
def origDataDir : String := appsDir ++ "/pipeline_test/data"
def dataDir : String := "data"
def refFasta : String := refDir ++ "/human_g1k_v37_decoy.fasta"
def refIndex : String := refDir ++ "/human_g1k_v37_decoy.fasta.fai"

def indexes : GoMap (List String) :=
  ((GoMap.empty : GoMap (List String)).set "normal" ["1", "2", "4", "7", "8"]).set
    "tumor" ["1", "2", "3", "5", "6", "7"]

/-- The variables of `main` that the first loop reads and writes. -/
structure LoopState where
  wf : Workflow
  fastqPaths1 : GoMap (List String)
  fastqPaths2 : GoMap (List String)
  markDuplicatesProcs : GoMap Proc
  streamToSubstream : GoMap Proc

/-- The inner loop `for _, idx := range indexes[sampleType]`. -/
def appendFastqPaths (sampleType : String) (st : LoopState) : LoopState :=
  (((indexes.get sampleType).getD []).foldl
    (fun (st : LoopState) idx =>
      { st with
        fastqPaths1 := st.fastqPaths1.set sampleType
          (((st.fastqPaths1.get sampleType).getD []) ++
            [origDataDir ++ "/tiny_" ++ sampleType ++ "_L00" ++ idx ++ "_R1.fastq.gz"])
        fastqPaths2 := st.fastqPaths2.set sampleType
          (((st.fastqPaths2.get sampleType).getD []) ++
            [origDataDir ++ "/tiny_" ++ sampleType ++ "_L00" ++ idx ++ "_R2.fastq.gz"]) })
    st)

/-- Body of `for i, sampleType := range []string{"normal", "tumor"}`. -/
def sampleBody (unTarApps : Proc) (st : LoopState) (i : Nat) (sampleType : String) : LoopState :=
  let si := toString i
  let (indexSource, wf) :=
    NewParamSource st.wf ("index_src_" ++ sampleType) ((indexes.get sampleType).getD [])
  let st := appendFastqPaths sampleType { st with wf := wf }
  let (readsFastQ1, wf) :=
    NewIPSource st.wf ("reads_fastq1_" ++ sampleType) ((st.fastqPaths1.get sampleType).getD [])
  let (readsFastQ2, wf) :=
    NewIPSource wf ("reads_fastq2_" ++ sampleType) ((st.fastqPaths2.get sampleType).getD [])
  let (alignSamples, wf) := wf.NewProc ("align_samples_" ++ sampleType)
    ("bwa mem -R \"@RG\tID:" ++ sampleType ++ "_{p:index}\tSM:" ++ sampleType ++ "\tLB:" ++
      sampleType ++ "\tPL:illumina\" -B 3 -t 4 -M " ++ refFasta ++ " {i:reads1} {i:reads2}" ++
      "| samtools view -bS -t " ++ refIndex ++ " - " ++
      "| samtools sort - > {o:bam} # {i:appsdir}")
  let wf := wf.Connect alignSamples "reads1" readsFastQ1 "out"
  let wf := wf.Connect alignSamples "reads2" readsFastQ2 "out"
  let wf := wf.Connect alignSamples "appsdir" unTarApps "outdir"
  let wf := wf.ConnectParam alignSamples "index" indexSource "out"
  let wf := wf.SetPathCustom alignSamples "bam"
    (fun t => tmpDir ++ "/" ++ sampleType ++ "_" ++ t.Param "index" ++ ".bam")
  let (sts, wf) := wf.NewStreamToSubStream ("stream_to_substream_" ++ sampleType)
  let streamToSubstream := st.streamToSubstream.set sampleType sts
  let wf := wf.Connect sts "in" alignSamples "bam"
  let (mergeBams, wf) := wf.NewProc ("merge_bams_" ++ sampleType)
    "samtools merge -f {o:mergedbam} {i:bams:r: }"
  let wf := wf.Connect mergeBams "bams" sts "substream"
  let wf := wf.SetPathStatic mergeBams "mergedbam" (tmpDir ++ "/" ++ sampleType ++ ".bam")
  let (markDuplicates, wf) := wf.NewProc ("mark_dupes_" ++ sampleType)
    ("java -Xmx15g -jar " ++ appsDir ++
      "/picard-tools-1.118/MarkDuplicates.jar \\\n\t\t\t\tINPUT={i:bam} \\\n\t\t\t\tMETRICS_FILE=" ++
      tmpDir ++ "/" ++ sampleType ++ "_" ++ si ++ ".md.bam \\\n\t\t\t\tTMP_DIR=" ++ tmpDir ++
      " \\\n\t\t\t\tASSUME_SORTED=true \\\n\t\t\t\tVALIDATION_STRINGENCY=LENIENT \\\n\t\t\t\tCREATE_INDEX=TRUE \\\n\t\t\t\tOUTPUT={o:bam}; \\\n\t\t\t\tmv " ++
      tmpDir ++ "/" ++ sampleType ++ "_" ++ si ++ ".md{.bam.tmp,}.bai;")
  let wf := wf.SetPathStatic markDuplicates "bam"
    (tmpDir ++ "/" ++ sampleType ++ "_" ++ si ++ ".md.bam")
  let wf := wf.Connect markDuplicates "bam" mergeBams "mergedbam"
  { st with
    wf := wf
    markDuplicatesProcs := st.markDuplicatesProcs.set sampleType markDuplicates
    streamToSubstream := streamToSubstream }

/-- Body of the second loop, `for _, sampleType := range []string{"normal", "tumor"}`. -/
def recalBody (realignIndels : Proc) (wf : Workflow) (sampleType : String) : Workflow :=
  let (reCalibrate, wf) := wf.NewProc ("recalibrate_" ++ sampleType)
    ("java -Xmx3g -Djava.io.tmpdir=" ++ tmpDir ++ " -jar " ++ appsDir ++
      "/gatk/GenomeAnalysisTK.jar -T BaseRecalibrator \\\n\t\t\t\t-R " ++ refDir ++
      "/human_g1k_v37_decoy.fasta \\\n\t\t\t\t-I {i:realbam} \\\n\t\t\t\t-knownSites " ++ refDir ++
      "/dbsnp_138.b37.vcf \\\n\t\t\t\t-knownSites " ++ refDir ++
      "/1000G_phase1.indels.b37.vcf \\\n\t\t\t\t-knownSites " ++ refDir ++
      "/Mills_and_1000G_gold_standard.indels.b37.vcf \\\n\t\t\t\t-nct 4 \\\n\t\t\t\t-XL hs37d5 \\\n\t\t\t\t-XL NC_007605 \\\n\t\t\t\t-l INFO \\\n\t\t\t\t-o {o:recaltable}")
  let wf := wf.SetPathStatic reCalibrate "recaltable" (tmpDir ++ "/" ++ sampleType ++ ".recal.table")
  let wf := wf.Connect reCalibrate "realbam" realignIndels ("realbam" ++ sampleType)
  let (printReads, wf) := wf.NewProc ("print_reads_" ++ sampleType)
    ("java -Xmx3g -jar " ++ appsDir ++ "/gatk/GenomeAnalysisTK.jar -T PrintReads \\\n\t\t\t\t-R " ++
      refDir ++
      "/human_g1k_v37_decoy.fasta \\\n\t\t\t\t-nct 4 \\\n\t\t\t\t-I {i:realbam} \\\n\t\t\t\t-XL hs37d5 \\\n\t\t\t\t-XL NC_007605 \\\n\t\t\t\t--BQSR {i:recaltable} \\\n\t\t\t\t-o {o:recalbam};\n\t\t\t\tfname={o:recalbam};\n\t\t\t\tmv $fname ${fname%.bam.tmp.bai}.bai;")
  let wf := wf.SetPathStatic printReads "recalbam" (sampleType ++ ".recal.bam")
  let wf := wf.Connect printReads "realbam" realignIndels ("realbam" ++ sampleType)
  let wf := wf.Connect printReads "recaltable" reCalibrate "recaltable"
  wf

/-- The workflow that `main` of cawpre.go has built when it reaches
`wf.Run()`; `none` when a lookup in `markDuplicatesProcs` finds no process
(a nil pointer in the source). -/
def main : Option Workflow :=
  let wf := Workflow.NewWorkflow "caw-preprocessing" 4
  let (downloadApps, wf) := wf.NewProc "download_apps" "wget http://uppnex.se/apps.tar.gz -O {o:apps}"
  let wf := wf.SetPathStatic downloadApps "apps" (dataDir ++ "/uppnex_apps.tar.gz")
  let (unzipApps, wf) := wf.NewProc "unzip_apps" "zcat {i:targz} > {o:tar}"
  let wf := wf.SetPathReplace unzipApps "targz" "tar" ".gz" ""
  let wf := wf.Connect unzipApps "targz" downloadApps "apps"
  let (unTarApps, wf) := wf.NewProc "untar_apps" ("tar -xvf {i:tar} -C " ++ dataDir ++ " # {o:outdir}")
  let wf := wf.SetPathStatic unTarApps "outdir" (dataDir ++ "/apps")
  let wf := wf.Connect unTarApps "tar" unzipApps "tar"
  let st : LoopState := ⟨wf, GoMap.empty, GoMap.empty, GoMap.empty, GoMap.empty⟩
  let st := (["normal", "tumor"].enum).foldl (fun st is => sampleBody unTarApps st is.1 is.2) st
  let wf := st.wf
  let (realignCreateTargets, wf) := wf.NewProc "realign_create_targets"
    ("java -Xmx3g -jar " ++ appsDir ++
      "/gatk/GenomeAnalysisTK.jar -T RealignerTargetCreator  \\\n\t\t\t\t-I {i:bamnormal} \\\n\t\t\t\t-I {i:bamtumor} \\\n\t\t\t\t-R " ++
      refDir ++ "/human_g1k_v37_decoy.fasta \\\n\t\t\t\t-known " ++ refDir ++
      "/1000G_phase1.indels.b37.vcf \\\n\t\t\t\t-known " ++ refDir ++
      "/Mills_and_1000G_gold_standard.indels.b37.vcf \\\n\t\t\t\t-nt 4 \\\n\t\t\t\t-XL hs37d5 \\\n\t\t\t\t-XL NC_007605 \\\n\t\t\t\t-o {o:intervals}")
  let wf := wf.SetPathStatic realignCreateTargets "intervals" (tmpDir ++ "/tiny.intervals")
  match st.markDuplicatesProcs.get "normal", st.markDuplicatesProcs.get "tumor" with
  | some mdNormal, some mdTumor =>
    let wf := wf.Connect realignCreateTargets "bamnormal" mdNormal "bam"
    let wf := wf.Connect realignCreateTargets "bamtumor" mdTumor "bam"
    let (realignIndels, wf) := wf.NewProc "realign_indels"
      ("java -Xmx3g -jar " ++ appsDir ++
        "/gatk/GenomeAnalysisTK.jar -T IndelRealigner \\\n\t\t\t-I {i:bamnormal} \\\n\t\t\t-I {i:bamtumor} \\\n\t\t\t-R " ++
        refDir ++ "/human_g1k_v37_decoy.fasta \\\n\t\t\t-targetIntervals {i:intervals} \\\n\t\t\t-known " ++
        refDir ++ "/1000G_phase1.indels.b37.vcf \\\n\t\t\t-known " ++ refDir ++
        "/Mills_and_1000G_gold_standard.indels.b37.vcf \\\n\t\t\t-XL hs37d5 \\\n\t\t\t-XL NC_007605 \\\n\t\t\t-nWayOut '.real.bam' # {o:realbamnormal} {o:realbamtumor}")
    let wf := wf.SetPathReplace realignIndels "bamnormal" "realbamnormal" ".bam" ".real.bam"
    let wf := wf.SetPathReplace realignIndels "bamtumor" "realbamtumor" ".bam" ".real.bam"
    let wf := wf.Connect realignIndels "intervals" realignCreateTargets "intervals"
    let wf := wf.Connect realignIndels "bamnormal" mdNormal "bam"
    let wf := wf.Connect realignIndels "bamtumor" mdTumor "bam"
    some (["normal", "tumor"].foldl (recalBody realignIndels) wf)
  | _, _ => none

end Cawpre


/-! ## rnaseqpre.go -/

namespace Rnaseqpre

def tmpDir : String := "tmp"
def appsDir : String := "data/apps"
def refDir : String := appsDir ++ "/ref"
def origDataDir : String := appsDir ++ "/data"
def dataDir : String := "data"
def samplePrefixes : List String := ["SRR3222409"]
def starIndex : String := refDir ++ "/star"

/-- The variables of `main` that the sample loop reads and writes. -/
structure LoopState where
  wf : Workflow
  strToSubstrs : GoMap Proc
  starProcs : GoMap Proc

/-- Body of `for j := 1; j <= 2; j++`. -/
def fastqcBody (unTgzApps collect : Proc) (samplePrefix : String) (wf : Workflow) (j : Nat) :
    Workflow :=
  let sj := toString j
  let readsSourceFastQPath := origDataDir ++ "/" ++ samplePrefix ++ "_" ++ sj ++ ".chr11.fq.gz"
  let (readsSourceFastQ, wf) :=
    wf.NewFileSource ("fastqFile_fastqc_" ++ samplePrefix ++ "_" ++ sj) [readsSourceFastQPath]
  let (fastQSamples, wf) := wf.NewProc ("fastqc_sample_" ++ samplePrefix ++ "_" ++ sj)
    ("../" ++ appsDir ++ "/FastQC-0.11.5/fastqc {i:reads} -o " ++ tmpDir ++
      "/rnaseqpre/fastqc && echo fastqc_done > {o:done} # {i:untardone}")
  let wf := wf.Connect fastQSamples "reads" readsSourceFastQ "out"
  let wf := wf.Connect fastQSamples "untardone" unTgzApps "done"
  let wf := wf.SetOutFunc fastQSamples "done" (fun _ => tmpDir ++ "/rnaseqpre/fastqc/done.flag")
  let wf := wf.Connect collect "in" fastQSamples "done"
  wf

/-- Body of `for _, samplePrefix := range samplePrefixes`. -/
def sampleBody (maxTasks : Int) (unTgzApps : Proc) (st : LoopState) (samplePrefix : String) :
    LoopState :=
  let (collect, wf) := st.wf.NewStreamToSubStream ("collect_substream_" ++ samplePrefix)
  let strToSubstrs := st.strToSubstrs.set samplePrefix collect
  let wf := [1, 2].foldl (fastqcBody unTgzApps collect samplePrefix) wf
  let fastqPath1 := origDataDir ++ "/" ++ samplePrefix ++ "_1.chr11.fq.gz"
  let fastqPath2 := origDataDir ++ "/" ++ samplePrefix ++ "_2.chr11.fq.gz"
  let (readsSourceFastQ1, wf) :=
    wf.NewFileSource ("fastqFile_align_" ++ samplePrefix ++ "_1.chr11.fq.gz") [fastqPath1]
  let (readsSourceFastQ2, wf) :=
    wf.NewFileSource ("fastqFile_align_" ++ samplePrefix ++ "_2.chr11.fq.gz") [fastqPath2]
  let (alignSamples, wf) := wf.NewProc ("align_samples_" ++ samplePrefix)
    ("../" ++ appsDir ++ "/STAR-2.5.3a/STAR \\\n" ++
      " --genomeDir ../" ++ starIndex ++
      " --readFilesIn {i:reads1} {i:reads2} \\\n" ++
      fs " --runThreadN %d \\\n" [.int maxTasks] ++
      " --readFilesCommand zcat \\\n" ++
      " --outFileNamePrefix $(s={o:bam_aligned}; echo ${s%.bam}) \\\n" ++
      " --outSAMtype BAM SortedByCoordinate && echo done > {o:bam_aligned}.done # {i:fastqc|join: } ")
  let wf := wf.Connect alignSamples "reads1" readsSourceFastQ1 "out"
  let wf := wf.Connect alignSamples "reads2" readsSourceFastQ2 "out"
  let wf := wf.Connect alignSamples "fastqc" collect "substream"
  let wf := wf.SetOut alignSamples "bam_aligned"
    (tmpDir ++ "/rnaseqpre/star/" ++ samplePrefix ++ ".chr11.bam")
  { wf := wf, strToSubstrs := strToSubstrs, starProcs := st.starProcs.set samplePrefix alignSamples }

/-- The workflow `main` of rnaseqpre.go has built when it reaches
"Handle missing flags". -/
def build (maxTasks : Int) : Workflow :=
  let wf := Workflow.NewWorkflow "rnaseqpre" maxTasks
  let (downloadApps, wf) := wf.NewProc "download_apps" "wget http://uppnex.se/apps.tar.gz -O {o:apps}"
  let wf := wf.SetOut downloadApps "apps" (dataDir ++ "/apps.tar.gz")
  let (unTgzApps, wf) := wf.NewProc "untgz_apps"
    ("tar -zxvf {i:tgz} -C " ++ dataDir ++ " && echo untar_done > {o:done}")
  let wf := wf.SetOut unTgzApps "done" (dataDir ++ "/apps/done.flag")
  let wf := wf.Connect unTgzApps "tgz" downloadApps "apps"
  let st : LoopState := ⟨wf, GoMap.empty, GoMap.empty⟩
  (samplePrefixes.foldl (sampleBody maxTasks unTgzApps) st).wf

/-- What `main` does with the workflow once it is built. -/
inductive Effect where
  | errorPrintln (msg : String)    -- sp.Error.Println(msg)
  | printDefaults                  -- flag.PrintDefaults()
  | exit (code : Int)              -- os.Exit(code)
  | plotGraph (file : String)      -- wf.PlotGraph(file)
  | runToRegex (pattern : String)  -- wf.RunToRegex(pattern)
  deriving DecidableEq, Repr

/-- Lexicographic order of strings by character code, the order of Go's
`sort.Strings`. -/
def leChars : List Char → List Char → Bool
  | [], _ => true
  | _ :: _, [] => false
  | a :: as, b :: bs => a.toNat < b.toNat || (a.toNat = b.toNat && leChars as bs)

/-- Insertion into a list of strings sorted in increasing order. -/
def insertSorted (x : String) : List String → List String
  | [] => [x]
  | y :: ys => if leChars x.data y.data then x :: y :: ys else y :: insertSorted x ys

/-- `sort.Strings`. -/
def sortStrings (xs : List String) : List String :=
  xs.foldr insertSorted []

/-- `main` of rnaseqpre.go for the values of the flags `--plot`,
`--maxtasks` and `--procs`: the effects, in order, that follow the build of
the workflow. `os.Exit` ends the program. -/
def main (plot : Bool) (maxTasks : Int) (procsRegex : String) : List Effect :=
  let wf := build maxTasks
  let procNames := sortStrings (wf.procs.map (fun p => p.name))
  let procNamesStr := "\n".intercalate procNames
  if procsRegex = "" then
    [.errorPrintln ("You must specify a process name pattern. You can specify one of:" ++
        procNamesStr),
      .printDefaults,
      .exit 1]
  else if plot then
    [.plotGraph "rnaseqpre.dot"]
  else
    [.runToRegex procsRegex]

end Rnaseqpre


/-! ## mm/wffindcost.go -/

namespace Mm

def dataDir : String := "data/"

/-- The run modes of package mm (declared outside src/). -/
inductive RunMode where
  | RunModeLocal
  | RunModeOther (n : Nat)
  deriving DecidableEq, Repr

/-- CrossValidateWorkflowParams is a container for parameters to
CrossValidateWorkflow workflows. -/
structure CrossValidateWorkflowParams where
  DatasetName : String
  RunID : String
  ReplicateID : String
  ReplicateIDs : List String
  FoldsCount : Int
  MinHeight : Int
  MaxHeight : Int
  TestSize : Int
  TrainSizes : List Int
  CostVals : List Float64
  SolverType : Int
  RandomDataSizeMB : Int
  Runmode : RunMode
  SlurmProject : String

/-- Modelled from the spec: a component constructor of package mm,
`New<ctor>(wf, name, conf)`. The constructors are declared outside src/; each
is taken to create one process object of the workflow under the given name
(a Process is `{id (unique name), commandTemplate, ports, pathRules}`), and
each accessor of the component (`InData()`, `OutShuffled()`, ...) to return a
port of its own, named here after the accessor. -/
def NewComponent (wf : Workflow) (ctor name : String) : Proc × Workflow :=
  wf.addProc name (.component ctor)

/-- Body of `for foldIdx := 1; foldIdx <= params.FoldsCount; foldIdx++`. -/
def foldBody (shufTrain cntTrainData costSubStream : Proc) (uniq_rtc : String)
    (wf : Workflow) (foldIdx : Int) : Workflow :=
  let uniq_rtcf := uniq_rtc ++ fs "_fld%d" [.int foldIdx]
  let (createFolds, wf) := NewComponent wf "CreateFolds" ("createfolds_" ++ uniq_rtcf)
  let wf := wf.Connect createFolds "InData" shufTrain "OutShuffled"
  let wf := wf.Connect createFolds "InLineCnt" cntTrainData "OutLineCount"
  let (trainLibLin, wf) := NewComponent wf "TrainLibLinear" ("trainlin" ++ uniq_rtcf)
  let wf := wf.Connect trainLibLin "InTrainData" createFolds "OutTrainData"
  let (predLibLin, wf) := NewComponent wf "PredictLibLinear" ("predlin" ++ uniq_rtcf)
  let wf := wf.Connect predLibLin "InModel" trainLibLin "OutModel"
  let wf := wf.Connect predLibLin "InTestData" createFolds "OutTestData"
  let (assessLibLin, wf) := NewComponent wf "AssessLibLinear" ("assess" ++ uniq_rtcf)
  let wf := wf.Connect assessLibLin "InTestData" createFolds "OutTestData"
  let wf := wf.Connect assessLibLin "InPrediction" predLibLin "OutPrediction"
  let wf := wf.Connect costSubStream "in" assessLibLin "OutRMSDCost"
  wf

/-- The values `foldIdx` takes in `for foldIdx := 1; foldIdx <= n; foldIdx++`. -/
def foldIdxs (n : Int) : List Int :=
  (List.range n.toNat).map (fun (k : Nat) => Int.ofNat k + 1)

/-- Body of `for _, cost := range params.CostVals`. -/
def costBody (params : CrossValidateWorkflowParams) (shufTrain cntTrainData : Proc)
    (uniq_rt : String) (wf : Workflow) (cost : Float64) : Workflow :=
  let uniq_rtc := uniq_rt ++ fs "_c%f" [.float cost]
  let (costSubStream, wf) := wf.NewStreamToSubStream ("cost_substr" ++ uniq_rtc)
  let wf := (foldIdxs params.FoldsCount).foldl
    (foldBody shufTrain cntTrainData costSubStream uniq_rtc) wf
  let (avgRMSD, wf) := wf.NewProc ("avg_rmsd" ++ uniq_rtc)
    "cat {i:rmsdcost|join: } | awk '{ c += $1; n++ } END { print c / n }' > {o:avgrmsd}"
  let wf := wf.SetOut avgRMSD "avgrmsd" "data/avg_rmsd/avg_rmsd_cost{p:cost}.txt"
  let wf := wf.FromFloat avgRMSD "cost" cost
  let wf := wf.Connect avgRMSD "rmsdcost" costSubStream "substream"
  wf

/-- Body of `for _, trainSize := range params.TrainSizes`. -/
def trainSizeBody (params : CrossValidateWorkflowParams) (createReplCopy : Proc)
    (replID uniq_r : String) (wf : Workflow) (trainSize : Int) : Workflow :=
  let uniq_rt := uniq_r ++ fs "_tr%d" [.int trainSize]
  let (sampleTrainTest, wf) := NewComponent wf "SampleTrainAndTest" ("sample_train_test" ++ uniq_rt)
  let wf := wf.Connect sampleTrainTest "InSignatures" createReplCopy "copy"
  let (sparseTrain, wf) := NewComponent wf "CreateSparseTrain" ("sparsetrain" ++ uniq_rt)
  let wf := wf.Connect sparseTrain "InTraindata" sampleTrainTest "OutTraindata"
  let (gunzipSparseTrain, wf) := wf.NewProc ("gunzip_sparsetrain" ++ uniq_rt)
    "zcat {i:orig} > {o:ungzipped}"
  let wf := wf.Connect gunzipSparseTrain "orig" sparseTrain "OutSparseTraindata"
  let wf := wf.SetOut gunzipSparseTrain "ungzipped" "{i:orig}.ungz"
  let (cntTrainData, wf) := NewComponent wf "CountLines" ("cnttrain" ++ uniq_rt)
  let wf := wf.Connect cntTrainData "InFile" gunzipSparseTrain "ungzipped"
  let (genRandBytes, wf) := NewComponent wf "GenRandBytes" ("genrand" ++ uniq_rt)
  let wf := wf.Connect genRandBytes "InBasePath" gunzipSparseTrain "ungzipped"
  let (shufTrain, wf) := NewComponent wf "ShuffleLines"
    (fs "shuftrain_%d_%s" [.int trainSize, .str replID])
  let wf := wf.Connect shufTrain "InData" gunzipSparseTrain "ungzipped"
  let wf := wf.Connect shufTrain "InRandBytes" genRandBytes "OutRandBytes"
  params.CostVals.foldl (costBody params shufTrain cntTrainData uniq_rt) wf

/-- `filepath.Dir` and `filepath.Base` of the Go standard library, kept as
parameters of the path functions that call them. -/
structure FilePath where
  Dir : String → String
  Base : String → String

/-- Body of `for _, replID := range replicateIds`. -/
def replBody (fp : FilePath) (params : CrossValidateWorkflowParams) (mmTestData : Proc)
    (wf : Workflow) (replID : String) : Workflow :=
  let uniq_r := fs "_%s" [.str replID]
  let (genSign, wf) := NewComponent wf "GenSignFilterSubst" ("gensign" ++ uniq_r)
  let wf := wf.Connect genSign "InSmiles" mmTestData "out"
  let (createRunCopy, wf) := wf.NewProc ("create_runcopy" ++ uniq_r)
    "cp {i:orig} {o:copy} # {p:runid}"
  let wf := wf.SetOut createRunCopy "copy" (fs "%s/{i:orig}" [.str params.RunID])
  let wf := wf.SetOutFunc createRunCopy "copy"
    (fun t => fp.Dir (t.InPath "orig") ++ "/" ++ t.Param "runid" ++ "/" ++
      fp.Base (t.InPath "orig"))
  let wf := wf.FromStr createRunCopy "runid" params.RunID
  let wf := wf.Connect createRunCopy "orig" genSign "OutSignatures"
  let (createReplCopy, wf) := wf.NewProc ("create_replcopy_" ++ uniq_r)
    "cp {i:orig} {o:copy} # {p:replid}"
  let wf := wf.SetOutFunc createReplCopy "copy"
    (fun t => fp.Dir (t.InPath "orig") ++ "/" ++ t.Param "replid" ++ "/" ++
      fp.Base (t.InPath "orig"))
  let wf := wf.FromStr createReplCopy "replid" replID
  let wf := wf.Connect createReplCopy "orig" genSign "OutSignatures"
  params.TrainSizes.foldl (trainSizeBody params createReplCopy replID uniq_r) wf

/-- NewCrossValidateWorkflow returns an initialized CrossValidateWorkflow. -/
def NewCrossValidateWorkflow (fp : FilePath) (maxTasks : Int)
    (params : CrossValidateWorkflowParams) : Workflow :=
  let wf := Workflow.NewWorkflow "cross_validate" maxTasks
  let (mmTestData, wf) := wf.NewFileSource "mmTestData"
    [fs "data/%s.smi" [.str params.DatasetName]]
  let replicateIds :=
    if params.ReplicateID ≠ "" then [params.ReplicateID] else params.ReplicateIDs
  replicateIds.foldl (replBody fp params mmTestData) wf

/-- The workflow `download_jars` that `main` builds and runs first. -/
def dlWf : Workflow :=
  let dlWf := Workflow.NewWorkflow "download_jars" 2
  let (downloadJars, dlWf) := dlWf.NewProc "download_jars"
    "wget https://ndownloader.figshare.com/files/6330402 -O {o:tarball}"
  let dlWf := dlWf.SetOut downloadJars "tarball" "jars.tar.gz"
  let (unpackJars, dlWf) := dlWf.NewProc "unpack_jars"
    "mkdir {o:unpackdir} && tar -zxf {i:tarball} -C {o:unpackdir}"
  let dlWf := dlWf.SetOut unpackJars "unpackdir" "bin"
  let dlWf := dlWf.Connect unpackJars "tarball" downloadJars "tarball"
  let (downloadRawData, dlWf) := dlWf.NewProc "download_rawdata"
    "wget https://raw.githubusercontent.com/pharmbio/bioimg-sciluigi-casestudy/master/roles/sciluigi_usecase/files/proj/largescale_svm/data/testrun_dataset.smi -O {o:dataset}"
  let dlWf := dlWf.SetOut downloadRawData "dataset" (dataDir ++ "testdataset.smi")
  dlWf

/-- The parameters `main` passes to `NewCrossValidateWorkflow`. -/
def mainParams : CrossValidateWorkflowParams where
  DatasetName := "testdataset"
  RunID := "testrun"
  ReplicateID := "r1"
  ReplicateIDs := []
  FoldsCount := 10
  MinHeight := 1
  MaxHeight := 3
  TestSize := 1000
  TrainSizes := [500, 1000, 2000, 4000, 8000]
  CostVals := [⟨1, 4⟩, ⟨5, 4⟩, ⟨1, 3⟩, ⟨5, 3⟩, ⟨1, 2⟩, ⟨5, 2⟩, ⟨1, 1⟩, ⟨25, 2⟩, ⟨5, 1⟩, ⟨75, 2⟩,
    ⟨1, 0⟩, ⟨2, 0⟩, ⟨3, 0⟩, ⟨4, 0⟩, ⟨5, 0⟩]
  SolverType := 12
  RandomDataSizeMB := 10
  Runmode := .RunModeLocal
  SlurmProject := "N/A"

/-- The workflow `crossValWF` of `main`. -/
def crossValWF (fp : FilePath) : Workflow :=
  NewCrossValidateWorkflow fp 4 mainParams

end Mm


/-! ## Invariants of graph construction -/

namespace SciPipe

/-- Wiring invariant kept by every construction step of the programs:
connections end in registered process ids, aggregator in-ports are the ports
named "in", no in-port other than an aggregator's is the end of two
connections, and every connection goes up in `rank`. -/
structure Wired (rank : Proc → Nat) (wf : Workflow) : Prop where
  dstBound : ∀ c ∈ wf.conns, c.dst.id < wf.procs.length
  idBound : ∀ p ∈ wf.procs, p.id < wf.procs.length
  aggPort : ∀ c ∈ wf.conns, (c.dst.kind.isAggregator = true ↔ c.dstPort = "in")
  nodup : ((wf.conns.filter (fun c => !c.dst.kind.isAggregator)).map Workflow.key).Nodup
  ranked : ∀ c ∈ wf.conns, ∀ s port, c.src = .out s port → rank s < rank c.dst

/-- The workflow `wf2` continues `wf`: it is wired, the aggregator
in-ports of `wf` keep their fan-in, and every aggregator added since has a
fan-in of `F`. -/
structure Ext (rank : Proc → Nat) (F : Nat) (wf wf2 : Workflow) : Prop where
  wired : Wired rank wf2
  len : wf.procs.length ≤ wf2.procs.length
  old : ∀ pid, pid < wf.procs.length → wf2.fanIn pid "in" false = wf.fanIn pid "in" false
  new : ∀ p ∈ wf2.procs, p.kind.isAggregator = true →
    p ∈ wf.procs ∨ wf2.fanIn p.id "in" false = F

/-- Passes of a loop that feeds the aggregator with id `cur`: as `Ext`, but
the fan-in of `cur` grows by `k` and no aggregator is added. -/
structure Feed (rank : Proc → Nat) (cur k : Nat) (wf wf2 : Workflow) : Prop where
  wired : Wired rank wf2
  len : wf.procs.length ≤ wf2.procs.length
  old : ∀ pid, pid < wf.procs.length → pid ≠ cur →
    wf2.fanIn pid "in" false = wf.fanIn pid "in" false
  fed : wf2.fanIn cur "in" false = wf.fanIn cur "in" false + k
  new : ∀ p ∈ wf2.procs, p.kind.isAggregator = true → p ∈ wf.procs

end SciPipe

namespace Mm

/-- Stage of a process of the cross-validation workflow, by how it was made:
every connection of `NewCrossValidateWorkflow` leads to a later stage. -/
def rank (p : Proc) : Nat :=
  match p.kind with
  | .component ctor =>
    if ctor = "GenSignFilterSubst" then 1
    else if ctor = "SampleTrainAndTest" then 3
    else if ctor = "CreateSparseTrain" then 4
    else if ctor = "CountLines" then 6
    else if ctor = "GenRandBytes" then 6
    else if ctor = "ShuffleLines" then 7
    else if ctor = "CreateFolds" then 8
    else if ctor = "TrainLibLinear" then 9
    else if ctor = "PredictLibLinear" then 10
    else if ctor = "AssessLibLinear" then 11
    else 0
  | .streamToSubStream => 12
  | .shell cmd =>
    if cmd = "zcat {i:orig} > {o:ungzipped}" then 5
    else if cmd = "cp {i:orig} {o:copy} # {p:runid}" then 2
    else if cmd = "cp {i:orig} {o:copy} # {p:replid}" then 2
    else 13
  | _ => 0

/-- The names given to the four processes of one fold. -/
def foldNames (u : String) (foldIdx : Int) : List String :=
  [ "createfolds_" ++ (u ++ fs "_fld%d" [.int foldIdx]),
    "trainlin" ++ (u ++ fs "_fld%d" [.int foldIdx]),
    "predlin" ++ (u ++ fs "_fld%d" [.int foldIdx]),
    "assess" ++ (u ++ fs "_fld%d" [.int foldIdx]) ]

/-- The names given to the processes of one cost value, in creation order. -/
def costNames (params : CrossValidateWorkflowParams) (u : String) (cost : Float64) :
    List String :=
  ["cost_substr" ++ (u ++ fs "_c%f" [.float cost])] ++
    (foldIdxs params.FoldsCount).flatMap (foldNames (u ++ fs "_c%f" [.float cost])) ++
    ["avg_rmsd" ++ (u ++ fs "_c%f" [.float cost])]

/-- The names given to the processes of one train size, in creation order. -/
def trainSizeNames (params : CrossValidateWorkflowParams) (replID u : String)
    (trainSize : Int) : List String :=
  [ "sample_train_test" ++ (u ++ fs "_tr%d" [.int trainSize]),
    "sparsetrain" ++ (u ++ fs "_tr%d" [.int trainSize]),
    "gunzip_sparsetrain" ++ (u ++ fs "_tr%d" [.int trainSize]),
    "cnttrain" ++ (u ++ fs "_tr%d" [.int trainSize]),
    "genrand" ++ (u ++ fs "_tr%d" [.int trainSize]),
    fs "shuftrain_%d_%s" [.int trainSize, .str replID] ] ++
    params.CostVals.flatMap (costNames params (u ++ fs "_tr%d" [.int trainSize]))

/-- The names given to the processes of one replicate, in creation order. -/
def replNames (params : CrossValidateWorkflowParams) (replID : String) : List String :=
  [ "gensign" ++ fs "_%s" [.str replID], "create_runcopy" ++ fs "_%s" [.str replID],
    "create_replcopy_" ++ fs "_%s" [.str replID] ] ++
    params.TrainSizes.flatMap (trainSizeNames params replID (fs "_%s" [.str replID]))

/-- The names `NewCrossValidateWorkflow` gives to its processes, in creation
order. -/
def crossValNames (params : CrossValidateWorkflowParams) : List String :=
  "mmTestData" ::
    (if params.ReplicateID ≠ "" then [params.ReplicateID] else params.ReplicateIDs).flatMap
      (replNames params)

/-- Maximal runs of decimal digits of a string, as numbers, in order. -/
def digitRuns : Option Nat → List Char → List Nat
  | none, [] => []
  | some n, [] => [n]
  | acc, c :: cs =>
    if 48 ≤ c.toNat ∧ c.toNat ≤ 57 then digitRuns (some (acc.getD 0 * 10 + (c.toNat - 48))) cs
    else match acc with
      | none => digitRuns none cs
      | some n => n :: digitRuns none cs

/-- A number read off a process name of the cross-validation workflow (its
stage, train size, cost and fold): it grows along the creation order of the
workflow of `main`. -/
def orderKey (name : String) : Nat :=
  let cs := name.data
  match cs, digitRuns none cs with
  | 'm' :: _, _ => 0
  | 'g' :: 'e' :: 'n' :: 's' :: _, _ => 1
  | 'c' :: 'r' :: 'e' :: 'a' :: 't' :: 'e' :: '_' :: 'r' :: 'u' :: _, _ => 2
  | 'c' :: 'r' :: 'e' :: 'a' :: 't' :: 'e' :: '_' :: 'r' :: 'e' :: _, _ => 3
  | 's' :: 'a' :: _, [_, t] => t * 1000000000
  | 's' :: 'p' :: _, [_, t] => t * 1000000000 + 1
  | 'g' :: 'u' :: _, [_, t] => t * 1000000000 + 2
  | 'c' :: 'n' :: _, [_, t] => t * 1000000000 + 3
  | 'g' :: 'e' :: 'n' :: 'r' :: _, [_, t] => t * 1000000000 + 4
  | 's' :: 'h' :: _, [t, _] => t * 1000000000 + 5
  | 'c' :: 'o' :: _, [_, t, ci, cf] => t * 1000000000 + 6 + (ci * 1000000 + cf) * 100
  | 'c' :: 'r' :: 'e' :: 'a' :: 't' :: 'e' :: 'f' :: _, [_, t, ci, cf, f] =>
    t * 1000000000 + 6 + (ci * 1000000 + cf) * 100 + f * 4
  | 't' :: _, [_, t, ci, cf, f] => t * 1000000000 + 6 + (ci * 1000000 + cf) * 100 + f * 4 + 1
  | 'p' :: _, [_, t, ci, cf, f] => t * 1000000000 + 6 + (ci * 1000000 + cf) * 100 + f * 4 + 2
  | 'a' :: 's' :: _, [_, t, ci, cf, f] => t * 1000000000 + 6 + (ci * 1000000 + cf) * 100 + f * 4 + 3
  | 'a' :: 'v' :: _, [_, t, ci, cf] => t * 1000000000 + 6 + (ci * 1000000 + cf) * 100 + 99
  | _, _ => 0

/-- Strictly increasing, checked on neighbours. -/
def increasing : List Nat → Bool
  | a :: b :: rest => a < b && increasing (b :: rest)
  | _ => true



end Mm

/-! ## Running up to a pattern -/

namespace SciPipe

/-- One item of a process-name pattern: a single character (`none` stands
for `.`, any character), alone or under a postfix `*`. -/
inductive RxItem where
  | one (c : Option Char)
  | star (c : Option Char)
  deriving DecidableEq, Repr

/-- The characters with a meaning of their own in Go regular expressions. -/
def rxMeta : List Char :=
  ['\\', '[', ']', '(', ')', '|', '+', '?', '^', '$', '{', '}', '*']

/-- Reading of a pattern, with the single character `pending` read but not
yet known to stand alone or under a `*`. -/
def parseItems (pending : Option (Option Char)) : List Char → Option (List RxItem)
  | [] =>
    match pending with
    | some a => some [.one a]
    | none => some []
  | c :: cs =>
    if c = '*' then
      match pending with
      | some a => (parseItems none cs).map (fun items => .star a :: items)
      | none => none
    else if c ∈ rxMeta then none
    else
      (parseItems (some (if c = '.' then none else some c)) cs).map (fun items =>
        match pending with
        | some a => .one a :: items
        | none => items)

/-- The patterns read here: literal characters, `.`, and `*` after one of
them. A pattern that uses anything else of the regular-expression syntax is
not read (`none`). -/
def parsePattern (pattern : List Char) : Option (List RxItem) :=
  parseItems none pattern

def atomOk (a : Option Char) (c : Char) : Bool :=
  match a with
  | none => true
  | some x => x = c

/-- Zero or more characters accepted by `a`, then `k` on the rest. -/
def starLoop (a : Option Char) (k : List Char → Bool) : List Char → Bool
  | [] => k []
  | c :: cs => k (c :: cs) || (atomOk a c && starLoop a k cs)

/-- The items match a beginning of the text and `k` accepts what follows. -/
def matchItems : List RxItem → (List Char → Bool) → List Char → Bool
  | [], k, text => k text
  | .one a :: rest, k, text =>
    match text with
    | c :: cs => atomOk a c && matchItems rest k cs
    | [] => false
  | .star a :: rest, k, text => starLoop a (matchItems rest k) text

/-- The two readings of "the name matches the pattern": the pattern matches
the whole name, or (Go's `regexp.MatchString`) some part of it. -/
inductive Matching where
  | whole
  | search
  deriving DecidableEq, Repr

def nameMatches (mode : Matching) (items : List RxItem) (name : String) : Bool :=
  match mode with
  | .whole => matchItems items (fun rest => rest.isEmpty) name.data
  | .search => name.data.tails.any (matchItems items (fun _ => true))

namespace Workflow

/-- The ids in `ids` and the ids of the processes that feed them directly. -/
def upstreamStep (wf : Workflow) (ids : List Nat) : List Nat :=
  (ids ++ (wf.conns.filter (fun c => c.dst.id ∈ ids)).filterMap (fun c => c.src.procId)).dedup

/-- The dependency closure of the processes `ids`: they and everything
upstream of them. One step per process of the workflow suffices. -/
def closure (wf : Workflow) (ids : List Nat) : List Nat :=
  Nat.iterate wf.upstreamStep wf.procs.length ids

/-- Modelled from the spec: `RunToPattern(pattern)`, in the library
`RunToRegex` (scipipe, outside src/): "executes the full dependency closure
of every process whose name matches `pattern`, and nothing downstream of
them"; no matching process name is a configuration error. The result lists
the processes that are executed, in creation order. -/
def RunToRegex (mode : Matching) (wf : Workflow) (pattern : String) :
    Except String (List Proc) :=
  match parsePattern pattern.data with
  | none => .error "pattern outside the fragment read here"
  | some items =>
    let targets := (wf.procs.filter (fun p => nameMatches mode items p.name)).map (fun p => p.id)
    if targets = [] then .error "no process name matches the pattern"
    else .ok (wf.procs.filter (fun p => p.id ∈ wf.closure targets))

/-- The names of the processes a run up to `pattern` executes, in creation
order; `none` when the run is refused. -/
def runNames (mode : Matching) (wf : Workflow) (pattern : String) : Option (List String) :=
  match wf.RunToRegex mode pattern with
  | .ok run => some (run.map (fun p => p.name))
  | .error _ => none

/-- The names of the processes in the dependency closure of the process
named `procName`, in creation order. -/
def closureNames (wf : Workflow) (procName : String) : List String :=
  match wf.proc procName with
  | some p => (wf.procs.filter (fun q => q.id ∈ wf.closure [p.id])).map (fun q => q.name)
  | none => []

/-- The path an out-port of the process named `procName` resolves to for the
task `t`. -/
def outPath (wf : Workflow) (procName port : String) (t : Task) : Option String :=
  match wf.proc procName with
  | none => none
  | some p => (wf.pathFunc p port).map (fun f => f t)

/-- Modelled from the spec: the packets a process sends on an out-port for
the tasks it runs, in order: "it emits one Token per out-port (the resolved
path)", per task, at the path its path function gives. -/
def emits (wf : Workflow) (q : Proc) (port : String) (tasks : List Task) : List IP :=
  match wf.pathFunc q port with
  | some f => tasks.map (fun t => IP.file (f t))
  | none => []

end Workflow

end SciPipe

namespace Cawpre

/-- The workflow of `main` (the empty workflow, should `main` meet a nil
process). -/
def graph : Workflow :=
  main.getD (Workflow.NewWorkflow "caw-preprocessing" 4)

/-- The values the generator named `name` holds. -/
def paramsOf (wf : Workflow) (name : String) : List String :=
  match wf.proc name with
  | some ⟨_, _, .paramSource params⟩ => params
  | _ => []

end Cawpre

/-! ## Placeholders of command templates -/

namespace SciPipe

/-- The placeholder that the text `body` between two braces stands for:
`i:NAME`, `o:NAME` or `p:NAME`, the name ending at a modifier (`:r: `,
`|join: `); any other text between braces is no placeholder. -/
def holderOf (body : List Char) : List (Char × String) :=
  match body with
  | k :: ':' :: rest =>
    if k = 'i' ∨ k = 'o' ∨ k = 'p' then
      [(k, ⟨rest.takeWhile (fun c => decide (c ≠ ':' ∧ c ≠ '|'))⟩)]
    else []
  | _ => []

/-- The scan of a command template for placeholders; `inside` holds, in
reverse, the characters read since the last opening brace. -/
def scanHolders : Option (List Char) → List Char → List (Char × String)
  | _, [] => []
  | none, c :: cs =>
    if c = Char.ofNat 123 then scanHolders (some []) cs else scanHolders none cs
  | some inside, c :: cs =>
    if c = Char.ofNat 125 then holderOf inside.reverse ++ scanHolders none cs
    else if c = Char.ofNat 123 then scanHolders (some []) cs
    else scanHolders (some (c :: inside)) cs

/-- Modelled from the spec: the placeholders of a command template, "a
string containing `{i:portName}`, `{o:portName}`, `{p:paramName}`, with an
optional `:r:` join-modifier", in order, each with its kind letter. The scan
is the library's (scipipe, outside src/). -/
def placeholders (cmd : String) : List (Char × String) :=
  scanHolders none cmd.data

/-- Whether the process with id `pid` and placeholders `holders` is fully
wired, given the out-ports that have a path rule (`ruleKeys`) and the
in-ports that a connection ends in (`inKeys`): each `o` placeholder has a
path rule, each `i` placeholder a connection on the data in-port of its
name, each `p` placeholder a connection on the parameter in-port of its
name, and each path rule of the process names one of its `o` placeholders. -/
def resolvedWith (ruleKeys : List (Nat × String)) (inKeys : List (Nat × String × Bool))
    (pid : Nat) (holders : List (Char × String)) : Bool :=
  holders.all (fun h =>
      if h.1 = 'o' then decide ((pid, h.2) ∈ ruleKeys)
      else if h.1 = 'i' then decide ((pid, h.2, false) ∈ inKeys)
      else decide ((pid, h.2, true) ∈ inKeys))
    && ruleKeys.all (fun k => decide (k.1 = pid → ('o', k.2) ∈ holders))

namespace Workflow

/-- The out-ports a path rule was set for, by process id. -/
def ruleKeys (wf : Workflow) : List (Nat × String) :=
  wf.pathFuncs.map (fun e => e.1)

/-- Whether a process made by `NewProc` has no unresolved placeholder (see
`resolvedWith`); other processes have no command template. -/
def resolvedProc (wf : Workflow) (p : Proc) : Bool :=
  match p.kind with
  | .shell cmd => resolvedWith wf.ruleKeys (wf.conns.map key) p.id (placeholders cmd)
  | _ => true

end Workflow

end SciPipe

namespace Cawpre

/-- The paths the file generator named `name` holds. -/
def filePathsOf (wf : Workflow) (name : String) : List String :=
  match wf.proc name with
  | some ⟨_, _, .ipSource filePaths⟩ => filePaths
  | _ => []

end Cawpre

namespace SciPipe

/-- Invariant kept by every construction step of `NewCrossValidateWorkflow`:
path rules and connections belong to registered process ids, no process made
by `NewProc` has an unresolved placeholder, and the path rule in force for
an out-port is the one `expect` gives, where it gives one. -/
structure Ruled (expect : Proc → String → Option (Task → String)) (wf : Workflow) : Prop where
  ruleBound : ∀ k ∈ wf.ruleKeys, k.1 < wf.procs.length
  dstBound : ∀ c ∈ wf.conns, c.dst.id < wf.procs.length
  idBound : ∀ p ∈ wf.procs, p.id < wf.procs.length
  resolved : ∀ p ∈ wf.procs, wf.resolvedProc p = true
  rules : ∀ p ∈ wf.procs, ∀ port f, expect p port = some f → wf.pathFunc p port = some f

/-- The workflow `wf2` continues `wf`: it keeps the invariant `Ruled` and
all the processes of `wf`. -/
structure RuledExt (expect : Proc → String → Option (Task → String)) (wf wf2 : Workflow) :
    Prop where
  ruled : Ruled expect wf2
  len : wf.procs.length ≤ wf2.procs.length
  keep : ∀ p ∈ wf.procs, p ∈ wf2.procs

end SciPipe

namespace Mm

/-- The path of a unique copy: `filepath.Dir(orig) + "/" + id + "/" +
filepath.Base(orig)`, with `orig` the path received on in-port "orig" and
`id` the value of the parameter `idParam`. -/
def copyPath (fp : FilePath) (idParam : String) (t : Task) : String :=
  fp.Dir (t.InPath "orig") ++ "/" ++ t.Param idParam ++ "/" ++ fp.Base (t.InPath "orig")

/-- The path rule expected for out-port "copy" of the processes made with
the command of `create_runcopy` and of `create_replcopy`. -/
def copyRule (fp : FilePath) (p : Proc) (port : String) : Option (Task → String) :=
  match p.kind with
  | .shell cmd =>
    if port = "copy" then
      if cmd = "cp {i:orig} {o:copy} # {p:runid}" then some (copyPath fp "runid")
      else if cmd = "cp {i:orig} {o:copy} # {p:replid}" then some (copyPath fp "replid")
      else none
    else none
  | _ => none

end Mm

/-! ## Running a workflow -/

namespace SciPipe

/-- The path of a file packet, the value of a parameter packet; a batch has
no single path. -/
def IP.text : IP → String
  | .file path => path
  | .param value => value
  | .batch _ => ""

/-- The packet a constant feeder sends for a value (a float64 as `%f`). -/
def Const.ip : Const → IP
  | .str s => .param s
  | .float x => .param ⟨x.fmtF⟩

/-- The packets sent during a run, by process id and out-port name. -/
abbrev Sent := List ((Nat × String) × List IP)

/-- The packets sent on an out-port (none when the process has not run). -/
def Sent.on (s : Sent) (pid : Nat) (port : String) : List IP :=
  match s.find? (fun e => e.1 = (pid, port)) with
  | some e => e.2
  | none => []

/-- Modelled from the spec: a process takes one packet from every in-port
and parameter port per task ("for every declared in-port, blocks on
`Receive()`", "looping receive, invoke, send until its in-ports close"), so
it runs as many tasks as the shortest of the sequences its ports receive; a
process without any such port runs one task. -/
def taskCount : List (List IP) → Nat
  | [] => 1
  | feed :: feeds => feeds.foldl (fun n f => min n f.length) feed.length

/-- The `k`-th task of a process: the `k`-th packet of every in-port and of
every parameter port, by port name. -/
def taskAt (ins params : List (String × List IP)) (k : Nat) : Task :=
  ⟨fun name =>
      match ins.find? (fun e => e.1 = name) with
      | some e =>
        match e.2.get? k with
        | some ip => ip.text
        | none => ""
      | none => "",
    fun name =>
      match params.find? (fun e => e.1 = name) with
      | some e =>
        match e.2.get? k with
        | some ip => ip.text
        | none => ""
      | none => ""⟩

/-- The tasks of a process, given what each in-port and each parameter port
receives. -/
def tasksOf (ins params : List (String × List IP)) : List Task :=
  (List.range (taskCount ((ins ++ params).map (fun e => e.2)))).map (taskAt ins params)

namespace Workflow

/-- Modelled from the spec: the packets that arrive on an in-port (data or
parameter), given what has been sent: those of the connected out-ports
("within a single In-port's queue, tokens are observed in
producer-emission order"), producer after producer in connection order. -/
def delivered (wf : Workflow) (s : Sent) (pid : Nat) (port : String) (isParam : Bool) :
    List IP :=
  (wf.upstream pid port isParam).flatMap (fun src =>
    match src with
    | .out q qport => s.on q.id qport
    | .feeder values => values.map Const.ip)

/-- The tasks a process made by `NewProc` with the command `cmd` runs: its
in-ports and parameter ports are those the command names. -/
def tasks (wf : Workflow) (s : Sent) (p : Proc) (cmd : String) : List Task :=
  tasksOf
    (((placeholders cmd).filter (fun h => h.1 = 'i')).map
      (fun h => (h.2, wf.delivered s p.id h.2 false)))
    (((placeholders cmd).filter (fun h => h.1 = 'p')).map
      (fun h => (h.2, wf.delivered s p.id h.2 true)))

/-- Modelled from the spec: the run of one process, given what the processes
before it have sent. A generator sends its sequence (`ParamSource.Run`,
`IPSource.Run`), an aggregator its one batch (`StreamToSubStream.Run`), a
process made by `NewProc` one packet per task on every out-port its command
names (`emits`). The components of package mm are declared outside src/ and
send nothing here. -/
def step (wf : Workflow) (s : Sent) (p : Proc) : Sent :=
  match p.kind with
  | .paramSource params =>
    match (ParamSource.new p.name params).Run with
    | .ok bp => s ++ bp.paramOutPorts.map (fun nc => ((p.id, nc.1), nc.2.sent))
    | .error _ => s
  | .ipSource filePaths =>
    match (IPSource.new p.name filePaths).Run with
    | .ok bp => s ++ bp.outPorts.map (fun nc => ((p.id, nc.1), nc.2.sent))
    | .error _ => s
  | .fileSource filePaths => s ++ [((p.id, "out"), filePaths.map IP.file)]
  | .streamToSubStream =>
    match StreamToSubStream.Run (wf.delivered s p.id "in" false) with
    | .ok chan => s ++ [((p.id, "substream"), chan.sent)]
    | .error _ => s
  | .shell cmd =>
    s ++ ((placeholders cmd).filter (fun h => h.1 = 'o')).map
      (fun h => ((p.id, h.2), wf.emits p h.2 (wf.tasks s p cmd)))
  | .component _ => s

/-- The packets sent in a run of the whole workflow, the processes taken in
creation order (every connection of the programs leads from a process to one
created later). -/
def run (wf : Workflow) : Sent :=
  wf.procs.foldl wf.step []

end Workflow

end SciPipe

namespace Cawpre

/-- The packets `merge_bams_<sampleType>` receives on its in-port "bams" in
a run of the workflow. -/
def mergeReceives (wf : Workflow) (sampleType : String) : Option (List IP) :=
  match wf.proc ("merge_bams_" ++ sampleType) with
  | none => none
  | some mergeBams => some (wf.delivered wf.run mergeBams.id "bams" false)

/-- The packets `align_samples_<sampleType>` sends on its out-port "bam" in
a run of the workflow. -/
def alignSends (wf : Workflow) (sampleType : String) : List IP :=
  match wf.proc ("align_samples_" ++ sampleType) with
  | none => []
  | some alignSamples => wf.run.on alignSamples.id "bam"

/-- The packets `align_samples_<sampleType>` receives on an in-port in a run
of the workflow. -/
def alignReceives (wf : Workflow) (sampleType port : String) (isParam : Bool) : List IP :=
  match wf.proc ("align_samples_" ++ sampleType) with
  | none => []
  | some alignSamples => wf.delivered wf.run alignSamples.id port isParam

end Cawpre

/-! ## The in-ports of a process -/

namespace Mm

/-- The in-ports of a component of package mm, by constructor: those whose
accessor `NewCrossValidateWorkflow` calls (`InSmiles()`, `InData()`, ...),
each named after its accessor. The components are declared outside src/. -/
def componentInPorts (ctor : String) : List String :=
  if ctor = "GenSignFilterSubst" then ["InSmiles"]
  else if ctor = "SampleTrainAndTest" then ["InSignatures"]
  else if ctor = "CreateSparseTrain" then ["InTraindata"]
  else if ctor = "CountLines" then ["InFile"]
  else if ctor = "GenRandBytes" then ["InBasePath"]
  else if ctor = "ShuffleLines" then ["InData", "InRandBytes"]
  else if ctor = "CreateFolds" then ["InData", "InLineCnt"]
  else if ctor = "TrainLibLinear" then ["InTrainData"]
  else if ctor = "PredictLibLinear" then ["InModel", "InTestData"]
  else if ctor = "AssessLibLinear" then ["InTestData", "InPrediction"]
  else []

end Mm

namespace SciPipe

/-- The in-ports of a process, each with whether it is a parameter port: for
a process made by `NewProc` those its command template names (`i`
placeholders are data in-ports, `p` placeholders parameter in-ports), for a
`StreamToSubStream` its one in-port "in", for a component of package mm
those of `Mm.componentInPorts`; a generator has none. -/
def Proc.inPorts (p : Proc) : List (String × Bool) :=
  match p.kind with
  | .shell cmd =>
    (placeholders cmd).filterMap (fun h =>
      if h.1 = 'i' then some (h.2, false)
      else if h.1 = 'p' then some (h.2, true)
      else none)
  | .streamToSubStream => [("in", false)]
  | .component ctor => (Mm.componentInPorts ctor).map (fun n => (n, false))
  | _ => []

/-- The single-producer invariant: every in-port of every process has
exactly one upstream connection, and so has every in-port that a connection
ends in. -/
def Workflow.SingleProducer (wf : Workflow) : Prop :=
  (∀ p ∈ wf.procs, ∀ port ∈ p.inPorts, wf.fanIn p.id port.1 port.2 = 1)
    ∧ ∀ c ∈ wf.conns, wf.fanIn c.dst.id c.dstPort c.isParam = 1

/-- Every in-port of every process that is no aggregator is the end of a
connection, and is not named "in". -/
def Fed (wf : Workflow) : Prop :=
  ∀ p ∈ wf.procs, p.kind.isAggregator = false → ∀ port ∈ p.inPorts,
    port.1 ≠ "in" ∧ (p.id, port.1, port.2) ∈ wf.conns.map Workflow.key

end SciPipe

/-! # Properties of the programs -/

/-! ## Generators send their sequence and close -/

namespace SciPipe

theorem foldlM_sendParam (name : String) (params : List String) (sent : List IP) :
    params.foldlM
      (fun (bp : BaseProcess) param =>
        match bp.paramOutPorts.sendOn "out" (IP.param param) with
        | .ok ports => Except.ok { bp with paramOutPorts := ports }
        | .error e => Except.error e)
      (⟨name, [], [("out", ⟨sent, false⟩)]⟩ : BaseProcess)
    = .ok ⟨name, [], [("out", ⟨sent ++ params.map IP.param, false⟩)]⟩ := by
  induction params generalizing sent with
  | nil => simp [pure, Except.pure]
  | cons x xs ih =>
    simp only [List.foldlM, PortMap.sendOn, Chan.Send, bind, Except.bind, if_true,
      Bool.false_eq_true, if_false]
    rw [ih]
    simp

theorem foldlM_sendFile (name : String) (paths : List String) (sent : List IP) :
    paths.foldlM
      (fun (bp : BaseProcess) filePath =>
        match bp.outPorts.sendOn "out" (IP.file filePath) with
        | .ok ports => Except.ok { bp with outPorts := ports }
        | .error e => Except.error e)
      (⟨name, [("out", ⟨sent, false⟩)], []⟩ : BaseProcess)
    = .ok ⟨name, [("out", ⟨sent ++ paths.map IP.file, false⟩)], []⟩ := by
  induction paths generalizing sent with
  | nil => simp [pure, Except.pure]
  | cons x xs ih =>
    simp only [List.foldlM, PortMap.sendOn, Chan.Send, bind, Except.bind, if_true,
      Bool.false_eq_true, if_false]
    rw [ih]
    simp

/-- C2: for every sequence given at construction, `ParamSource.Run` and
`IPSource.Run` end without error with the single out-port "out" holding
exactly the elements of the sequence, once each and in construction order
(each path wrapped as a file packet), and closed; for the empty sequence
nothing is sent and the port is closed all the same. -/
theorem generators_send_all_then_close (name : String) (values : List String) :
    (ParamSource.new name values).Run
        = .ok ⟨name, [], [("out", ⟨values.map IP.param, true⟩)]⟩
      ∧ (IPSource.new name values).Run
        = .ok ⟨name, [("out", ⟨values.map IP.file, true⟩)], []⟩
      ∧ (ParamSource.new name []).Run = .ok ⟨name, [], [("out", ⟨[], true⟩)]⟩
      ∧ (IPSource.new name []).Run = .ok ⟨name, [("out", ⟨[], true⟩)], []⟩ := by
  have hp : ∀ vs : List String, (ParamSource.new name vs).Run
      = .ok ⟨name, [], [("out", ⟨vs.map IP.param, true⟩)]⟩ := by
    intro vs
    have h := foldlM_sendParam name vs []
    simp only [ParamSource.Run, ParamSource.new, BaseProcess.NewBaseProcess,
      BaseProcess.InitParamOutPort, Chan.empty, List.nil_append] at h ⊢
    rw [h]
    simp [BaseProcess.CloseAllOutPorts, Chan.Close]
  have hf : ∀ vs : List String, (IPSource.new name vs).Run
      = .ok ⟨name, [("out", ⟨vs.map IP.file, true⟩)], []⟩ := by
    intro vs
    have h := foldlM_sendFile name vs []
    simp only [IPSource.Run, IPSource.new, BaseProcess.NewBaseProcess,
      BaseProcess.InitOutPort, Chan.empty, List.nil_append] at h ⊢
    rw [h]
    simp [BaseProcess.CloseAllOutPorts, Chan.Close]
  exact ⟨hp values, hf values, hp [], hf []⟩

end SciPipe

/-! ## Wiring invariants -/

namespace SciPipe

theorem Wired.empty (rank : Proc → Nat) (name : String) (maxTasks : Int) :
    Wired rank (Workflow.NewWorkflow name maxTasks) := by
  constructor <;> simp [Workflow.NewWorkflow]

/-- Appending a block of fresh processes and of connections keeps the
wiring invariant, when the connections of the block that do not feed an
aggregator end in distinct in-ports of the fresh processes. -/
theorem Wired.extend {rank : Proc → Nat} {wf : Workflow} (h : Wired rank wf)
    (ps : List Proc) (cs : List Conn) (pf : List ((Nat × String) × (Task → String)))
    (hps : ∀ p ∈ ps, p.id < wf.procs.length + ps.length)
    (hdst : ∀ c ∈ cs, c.dst.id < wf.procs.length + ps.length)
    (hagg : ∀ c ∈ cs, (c.dst.kind.isAggregator = true ↔ c.dstPort = "in"))
    (hfresh : ∀ c ∈ cs, c.dst.kind.isAggregator = false → wf.procs.length ≤ c.dst.id)
    (hnd : ((cs.filter (fun c => !c.dst.kind.isAggregator)).map Workflow.key).Nodup)
    (hrank : ∀ c ∈ cs, ∀ s port, c.src = .out s port → rank s < rank c.dst) :
    Wired rank ⟨wf.name, wf.maxTasks, wf.procs ++ ps, wf.conns ++ cs, pf⟩ := by
  constructor
  · intro c hc
    simp only [List.mem_append, List.length_append] at hc ⊢
    rcases hc with hc | hc
    · have := h.dstBound c hc; omega
    · exact hdst c hc
  · intro p hp
    simp only [List.mem_append, List.length_append] at hp ⊢
    rcases hp with hp | hp
    · have := h.idBound p hp; omega
    · exact hps p hp
  · intro c hc
    simp only [List.mem_append] at hc
    rcases hc with hc | hc
    · exact h.aggPort c hc
    · exact hagg c hc
  · simp only [List.filter_append, List.map_append]
    refine List.Nodup.append h.nodup hnd ?_
    intro κ h1 h2
    simp only [List.mem_map, List.mem_filter] at h1 h2
    obtain ⟨c1, ⟨hc1, _⟩, rfl⟩ := h1
    obtain ⟨c2, ⟨hc2, hk2⟩, hkey⟩ := h2
    have hb := h.dstBound c1 hc1
    have hf := hfresh c2 hc2 (by simpa using hk2)
    have : c2.dst.id = c1.dst.id := by
      have := congrArg Prod.fst hkey
      simpa [Workflow.key] using this
    omega
  · intro c hc
    simp only [List.mem_append] at hc
    rcases hc with hc | hc
    · exact h.ranked c hc
    · exact hrank c hc

theorem fanIn_append (wf : Workflow) (ps : List Proc) (cs : List Conn)
    (pf : List ((Nat × String) × (Task → String))) (pid : Nat) (port : String) (b : Bool) :
    Workflow.fanIn ⟨wf.name, wf.maxTasks, wf.procs ++ ps, wf.conns ++ cs, pf⟩ pid port b
      = wf.fanIn pid port b + cs.countP (fun c => Workflow.key c = (pid, port, b)) := by
  simp [Workflow.fanIn, List.countP_append]

/-- No connection ends in a process id that is not registered yet. -/
theorem Wired.fanIn_fresh {rank : Proc → Nat} {wf : Workflow} (h : Wired rank wf)
    (pid : Nat) (hpid : wf.procs.length ≤ pid) (port : String) (b : Bool) :
    wf.fanIn pid port b = 0 := by
  simp only [Workflow.fanIn, List.countP_eq_zero, decide_eq_true_eq]
  intro c hc hkey
  have := h.dstBound c hc
  have h2 : c.dst.id = pid := by
    have := congrArg Prod.fst hkey
    simpa [Workflow.key] using this
  omega

/-- A block of fresh processes, none an aggregator, whose connections end in
the fresh processes or feed the aggregator with id `cur`. -/
theorem Feed.of_block {rank : Proc → Nat} {wf : Workflow} (h : Wired rank wf) (cur : Nat)
    (ps : List Proc) (cs : List Conn) (pf : List ((Nat × String) × (Task → String)))
    (hps : ∀ p ∈ ps, p.id < wf.procs.length + ps.length)
    (hpsAgg : ∀ p ∈ ps, p.kind.isAggregator = false)
    (hdst : ∀ c ∈ cs, c.dst.id < wf.procs.length + ps.length)
    (hagg : ∀ c ∈ cs, (c.dst.kind.isAggregator = true ↔ c.dstPort = "in"))
    (hfresh : ∀ c ∈ cs, c.dst.kind.isAggregator = false → wf.procs.length ≤ c.dst.id)
    (hcur : ∀ c ∈ cs, c.dst.kind.isAggregator = true → c.dst.id = cur)
    (hnd : ((cs.filter (fun c => !c.dst.kind.isAggregator)).map Workflow.key).Nodup)
    (hrank : ∀ c ∈ cs, ∀ s port, c.src = .out s port → rank s < rank c.dst) :
    Feed rank cur (cs.countP (fun c => Workflow.key c = (cur, "in", false))) wf
      ⟨wf.name, wf.maxTasks, wf.procs ++ ps, wf.conns ++ cs, pf⟩ := by
  refine ⟨h.extend ps cs pf hps hdst hagg hfresh hnd hrank, by simp, ?_, fanIn_append _ _ _ _ _ _ _,
    ?_⟩
  · intro pid _ hne
    rw [fanIn_append]
    have : cs.countP (fun c => Workflow.key c = (pid, "in", false)) = 0 := by
      simp only [List.countP_eq_zero, decide_eq_true_eq]
      intro c hc hkey
      simp only [Workflow.key, Prod.mk.injEq] at hkey
      exact hne (hkey.1 ▸ hcur c hc ((hagg c hc).2 hkey.2.1))
    omega
  · intro p hp hk
    simp only [List.mem_append] at hp
    rcases hp with hp | hp
    · exact hp
    · rw [hpsAgg p hp] at hk; cases hk

theorem Feed.feedRefl {rank : Proc → Nat} {wf : Workflow} (h : Wired rank wf) (cur : Nat) :
    Feed rank cur 0 wf wf :=
  ⟨h, le_refl _, fun _ _ _ => rfl, rfl, fun _ hp _ => hp⟩

theorem Feed.feedTrans {rank : Proc → Nat} {wf wf1 wf2 : Workflow} {cur k1 k2 : Nat}
    (h1 : Feed rank cur k1 wf wf1) (h2 : Feed rank cur k2 wf1 wf2) :
    Feed rank cur (k1 + k2) wf wf2 := by
  refine ⟨h2.wired, le_trans h1.len h2.len, ?_, ?_, ?_⟩
  · intro pid hpid hne
    rw [h2.old pid (lt_of_lt_of_le hpid h1.len) hne, h1.old pid hpid hne]
  · rw [h2.fed, h1.fed]; omega
  · intro p hp hk
    exact h1.new p (h2.new p hp hk) hk

/-- A loop whose every pass feeds the aggregator `cur` once feeds it as many
times as it has passes. -/
theorem Feed.feedFoldl {rank : Proc → Nat} {α : Type} (cur : Nat) (f : Workflow → α → Workflow)
    (hf : ∀ wf x, Wired rank wf → cur < wf.procs.length → Feed rank cur 1 wf (f wf x))
    (l : List α) (wf : Workflow) (h : Wired rank wf) (hcur : cur < wf.procs.length) :
    Feed rank cur l.length wf (l.foldl f wf) := by
  induction l generalizing wf with
  | nil => exact Feed.feedRefl h cur
  | cons x xs ih =>
    have h1 := hf wf x h hcur
    have h2 := ih (f wf x) h1.wired (lt_of_lt_of_le hcur h1.len)
    have := Feed.feedTrans h1 h2
    simpa [Nat.add_comm] using this

theorem Ext.extRefl {rank : Proc → Nat} {wf : Workflow} (h : Wired rank wf) (F : Nat) :
    Ext rank F wf wf :=
  ⟨h, le_refl _, fun _ _ => rfl, fun _ hp _ => Or.inl hp⟩

theorem Ext.extTrans {rank : Proc → Nat} {wf wf1 wf2 : Workflow} {F : Nat}
    (h1 : Ext rank F wf wf1) (h2 : Ext rank F wf1 wf2) : Ext rank F wf wf2 := by
  refine ⟨h2.wired, le_trans h1.len h2.len, ?_, ?_⟩
  · intro pid hpid
    rw [h2.old pid (lt_of_lt_of_le hpid h1.len), h1.old pid hpid]
  · intro p hp hk
    rcases h2.new p hp hk with hp1 | hF
    · rcases h1.new p hp1 hk with hp0 | hF
      · exact Or.inl hp0
      · right
        rw [h2.old p.id (h1.wired.idBound p hp1), hF]
    · exact Or.inr hF

theorem Ext.extFoldl {rank : Proc → Nat} {α : Type} (F : Nat) (f : Workflow → α → Workflow)
    (hf : ∀ wf x, Wired rank wf → Ext rank F wf (f wf x))
    (l : List α) (wf : Workflow) (h : Wired rank wf) :
    Ext rank F wf (l.foldl f wf) := by
  induction l generalizing wf with
  | nil => exact Ext.extRefl h F
  | cons x xs ih =>
    have h1 := hf wf x h
    exact Ext.extTrans h1 (ih (f wf x) h1.wired)

theorem Ext.thenFoldl {rank : Proc → Nat} {α : Type} {F : Nat} {wf wf1 : Workflow}
    (h1 : Ext rank F wf wf1) (f : Workflow → α → Workflow)
    (hf : ∀ wf x, Wired rank wf → Ext rank F wf (f wf x)) (l : List α) :
    Ext rank F wf (l.foldl f wf1) :=
  Ext.extTrans h1 (Ext.extFoldl F f hf l wf1 h1.wired)

/-- A loop pass that feeds no aggregator continues the workflow. -/
theorem Feed.toExt {rank : Proc → Nat} {wf wf2 : Workflow} {cur : Nat} (F : Nat)
    (h : Feed rank cur 0 wf wf2) : Ext rank F wf wf2 := by
  refine ⟨h.wired, h.len, ?_, fun p hp hk => Or.inl (h.new p hp hk)⟩
  intro pid hpid
  by_cases hc : pid = cur
  · subst hc; simpa using h.fed
  · exact h.old pid hpid hc

theorem countP_key_of_nodup (l : List Conn) (hnd : (l.map Workflow.key).Nodup) (c : Conn)
    (hc : c ∈ l) : l.countP (fun d => Workflow.key d = Workflow.key c) = 1 := by
  induction l with
  | nil => cases hc
  | cons d ds ih =>
    simp only [List.map_cons, List.nodup_cons, List.mem_map, not_exists, not_and] at hnd
    rcases List.mem_cons.1 hc with rfl | hcd
    · have h0 : ds.countP (fun d => Workflow.key d = Workflow.key c) = 0 := by
        simp only [List.countP_eq_zero, decide_eq_true_eq]
        intro x hx hkx
        exact hnd.1 x hx hkx
      simp [List.countP_cons, h0]
    · have hne : Workflow.key d ≠ Workflow.key c := fun he => hnd.1 c hcd he.symm
      simp [List.countP_cons, hne, ih hnd.2 hcd]

/-- In a wired workflow an in-port that is not an aggregator's has exactly
one upstream connection. -/
theorem Wired.fanIn_eq_one {rank : Proc → Nat} {wf : Workflow} (h : Wired rank wf)
    (c : Conn) (hc : c ∈ wf.conns) (hk : c.dst.kind.isAggregator = false) :
    wf.fanIn c.dst.id c.dstPort c.isParam = 1 := by
  have hport : c.dstPort ≠ "in" := by
    intro hp
    have := (h.aggPort c hc).2 hp
    rw [hk] at this; cases this
  have hsplit : wf.conns.countP (fun d => Workflow.key d = Workflow.key c)
      = (wf.conns.filter (fun c => !c.dst.kind.isAggregator)).countP
          (fun d => Workflow.key d = Workflow.key c) := by
    have hagg := h.aggPort
    generalize wf.conns = l at hagg
    induction l with
    | nil => rfl
    | cons d ds ih =>
      have ihd := ih (fun x hx => hagg x (List.mem_cons_of_mem _ hx))
      have hd := hagg d (List.mem_cons_self _ _)
      by_cases hdk : d.dst.kind.isAggregator = true
      · have hne : Workflow.key d ≠ Workflow.key c := by
          intro he
          simp only [Workflow.key, Prod.mk.injEq] at he
          exact hport (he.2.1 ▸ hd.1 hdk)
        simp [List.filter_cons, hdk, List.countP_cons, hne, ihd]
      · simp only [Bool.not_eq_true] at hdk
        simp [List.filter_cons, hdk, List.countP_cons, ihd]
  have hmem : c ∈ wf.conns.filter (fun c => !c.dst.kind.isAggregator) :=
    List.mem_filter.2 ⟨hc, by simp [hk]⟩
  have := countP_key_of_nodup _ h.nodup c hmem
  rw [← hsplit] at this
  exact this

/-- A workflow whose connections all go up in some rank has no directed
cycle. -/
theorem acyclic_of_ranked (rank : Proc → Nat) (wf : Workflow)
    (h : ∀ c ∈ wf.conns, ∀ s port, c.src = .out s port → rank s < rank c.dst) :
    wf.Acyclic := by
  have key : ∀ p q, Relation.TransGen wf.edge p q → rank p < rank q := by
    intro p q hpq
    induction hpq with
    | single hab =>
      obtain ⟨c, hc, port, hs, hd⟩ := hab
      exact hd ▸ h c hc _ port hs
    | tail _ hbc ih =>
      obtain ⟨c, hc, port, hs, hd⟩ := hbc
      exact lt_trans ih (hd ▸ h c hc _ port hs)
  intro p hpp
  exact lt_irrefl _ (key p p hpp)

end SciPipe

namespace SciPipe

theorem Wired.addProc {rank : Proc → Nat} {wf : Workflow} (h : Wired rank wf) (name : String)
    (kind : ProcKind) :
    Wired rank ⟨wf.name, wf.maxTasks, wf.procs ++ [⟨wf.procs.length, name, kind⟩], wf.conns,
      wf.pathFuncs⟩ := by
  constructor
  · intro c hc
    have := h.dstBound c hc
    simp only [List.length_append, List.length_singleton]
    omega
  · intro p hp
    simp only [List.mem_append, List.mem_singleton, List.length_append,
      List.length_singleton] at hp ⊢
    rcases hp with hp | rfl
    · have := h.idBound p hp; omega
    · simp
  · exact h.aggPort
  · exact h.nodup
  · exact h.ranked

/-- A new aggregator that the following passes feed `F` times continues the
workflow. -/
theorem Ext.of_feed_new_aggregator {rank : Proc → Nat} {wf wf3 : Workflow} {F : Nat}
    (hw : Wired rank wf) (name : String)
    (h : Feed rank wf.procs.length F
      ⟨wf.name, wf.maxTasks, wf.procs ++ [⟨wf.procs.length, name, .streamToSubStream⟩],
        wf.conns, wf.pathFuncs⟩ wf3) :
    Ext rank F wf wf3 := by
  have hlen := h.len
  simp only [List.length_append, List.length_singleton] at hlen
  refine ⟨h.wired, by omega, ?_, ?_⟩
  · intro pid hpid
    rw [h.old pid (by simp only [List.length_append, List.length_singleton]; omega)
      (by omega)]
    rfl
  · intro p hp hk
    have := h.new p hp hk
    simp only [List.mem_append, List.mem_singleton] at this
    rcases this with hp0 | rfl
    · exact Or.inl hp0
    · right
      have hf := h.fed
      have h0 : wf.fanIn wf.procs.length "in" false = 0 :=
        hw.fanIn_fresh _ (le_refl _) _ _
      have h1 : Workflow.fanIn ⟨wf.name, wf.maxTasks,
          wf.procs ++ [⟨wf.procs.length, name, .streamToSubStream⟩], wf.conns, wf.pathFuncs⟩
          wf.procs.length "in" false = wf.fanIn wf.procs.length "in" false := rfl
      rw [h1, h0] at hf
      simpa using hf

theorem Feed.cast {rank : Proc → Nat} {wf wf2 : Workflow} {cur k k2 : Nat}
    (h : Feed rank cur k wf wf2) (hk : k = k2) : Feed rank cur k2 wf wf2 :=
  hk ▸ h

end SciPipe

namespace Mm

/-- The stage of a process made by a component constructor or by `NewProc`
depends only on the constructor or the command. -/
theorem rank_made (i : Nat) (n : String) :
    rank ⟨i, n, .component "GenSignFilterSubst"⟩ = 1
      ∧ rank ⟨i, n, .component "SampleTrainAndTest"⟩ = 3
      ∧ rank ⟨i, n, .component "CreateSparseTrain"⟩ = 4
      ∧ rank ⟨i, n, .component "CountLines"⟩ = 6
      ∧ rank ⟨i, n, .component "GenRandBytes"⟩ = 6
      ∧ rank ⟨i, n, .component "ShuffleLines"⟩ = 7
      ∧ rank ⟨i, n, .component "CreateFolds"⟩ = 8
      ∧ rank ⟨i, n, .component "TrainLibLinear"⟩ = 9
      ∧ rank ⟨i, n, .component "PredictLibLinear"⟩ = 10
      ∧ rank ⟨i, n, .component "AssessLibLinear"⟩ = 11
      ∧ rank ⟨i, n, .shell "zcat {i:orig} > {o:ungzipped}"⟩ = 5
      ∧ rank ⟨i, n, .shell "cp {i:orig} {o:copy} # {p:runid}"⟩ = 2
      ∧ rank ⟨i, n, .shell "cp {i:orig} {o:copy} # {p:replid}"⟩ = 2
      ∧ rank ⟨i, n, .shell
        "cat {i:rmsdcost|join: } | awk '{ c += $1; n++ } END { print c / n }' > {o:avgrmsd}"⟩ = 13
      ∧ rank ⟨i, n, .streamToSubStream⟩ = 12 :=
  ⟨rfl, rfl, rfl, rfl, rfl, rfl, rfl, rfl, rfl, rfl, rfl, rfl, rfl, rfl, rfl⟩

theorem rank_aggregator (p : Proc) (h : p.kind = .streamToSubStream) : rank p = 12 := by
  simp [rank, h]

theorem foldBody_feed (shufTrain cntTrainData cur : Proc) (u : String) (wf : Workflow)
    (idx : Int) (hw : Wired rank wf) (hsh : rank shufTrain = 7) (hcnt : rank cntTrainData = 6)
    (hcur : cur.kind = .streamToSubStream) (hid : cur.id < wf.procs.length) :
    Feed rank cur.id 1 wf (foldBody shufTrain cntTrainData cur u wf idx) := by
  have hr := rank_aggregator cur hcur
  simp only [foldBody, NewComponent, Workflow.addProc, Workflow.Connect, List.length_append,
    List.length_singleton, List.length_cons, List.length_nil, List.append_assoc,
    List.singleton_append, List.cons_append, List.nil_append]
  refine Feed.cast (Feed.of_block hw cur.id _ _ _ ?_ ?_ ?_ ?_ ?_ ?_ ?_ ?_) ?_
  · simp
  · simp [ProcKind.isAggregator]
  · simp; omega
  · simp [ProcKind.isAggregator, hcur]
  · simp [ProcKind.isAggregator, hcur]
  · simp [ProcKind.isAggregator, hcur]
  · simp [ProcKind.isAggregator, hcur, Workflow.key]
  · simp [hsh, hcnt, hr, rank_made]
  · simp [Workflow.key]

theorem length_foldIdxs (n : Int) : (foldIdxs n).length = n.toNat := by
  simp [foldIdxs]

theorem costBody_ext (params : CrossValidateWorkflowParams) (shufTrain cntTrainData : Proc)
    (u : String) (wf : Workflow) (cost : Float64) (hw : Wired rank wf)
    (hsh : rank shufTrain = 7) (hcnt : rank cntTrainData = 6) :
    Ext rank params.FoldsCount.toNat wf (costBody params shufTrain cntTrainData u wf cost) := by
  simp only [costBody, Workflow.NewStreamToSubStream, Workflow.NewProc, Workflow.addProc,
    Workflow.Connect, Workflow.FromFloat, Workflow.SetOut, Workflow.setPathFunc, List.append_assoc,
    List.singleton_append, List.cons_append, List.nil_append]
  refine Ext.of_feed_new_aggregator hw ("cost_substr" ++ (u ++ fs "_c%f" [.float cost])) ?_
  have hw1 := hw.addProc ("cost_substr" ++ (u ++ fs "_c%f" [.float cost])) .streamToSubStream
  have hfold := @Feed.feedFoldl rank _ wf.procs.length
    (foldBody shufTrain cntTrainData
      ⟨wf.procs.length, "cost_substr" ++ (u ++ fs "_c%f" [.float cost]), .streamToSubStream⟩
      (u ++ fs "_c%f" [.float cost]))
    (fun wf2 x h2 hlt => foldBody_feed shufTrain cntTrainData
      ⟨wf.procs.length, "cost_substr" ++ (u ++ fs "_c%f" [.float cost]), .streamToSubStream⟩
      (u ++ fs "_c%f" [.float cost]) wf2 x h2 hsh hcnt rfl hlt)
    (foldIdxs params.FoldsCount) _ hw1 (by simp)
  rw [length_foldIdxs] at hfold
  refine Feed.cast (Feed.feedTrans hfold (Feed.of_block hfold.wired wf.procs.length _ _ _
    ?_ ?_ ?_ ?_ ?_ ?_ ?_ ?_)) ?_
  · simp
  · simp [ProcKind.isAggregator]
  · simp
  · simp [ProcKind.isAggregator]
  · simp [ProcKind.isAggregator]
  · simp [ProcKind.isAggregator]
  · simp [ProcKind.isAggregator, Workflow.key]
  · simp [rank_made]
  · simp [Workflow.key]

theorem trainSizeBody_ext (params : CrossValidateWorkflowParams) (createReplCopy : Proc)
    (replID u : String) (wf : Workflow) (trainSize : Int) (hw : Wired rank wf)
    (hrc : rank createReplCopy = 2) :
    Ext rank params.FoldsCount.toNat wf
      (trainSizeBody params createReplCopy replID u wf trainSize) := by
  simp only [trainSizeBody, NewComponent, Workflow.NewProc, Workflow.addProc,
    Workflow.Connect, Workflow.SetOut, Workflow.setPathFunc, List.length_append, List.length_singleton,
    List.length_cons, List.length_nil, List.append_assoc, List.singleton_append,
    List.cons_append, List.nil_append]
  refine Ext.thenFoldl (Feed.toExt _ (Feed.cast (Feed.of_block hw 0 _ _ _
    ?_ ?_ ?_ ?_ ?_ ?_ ?_ ?_) ?_)) _
    (fun wf2 x h2 => costBody_ext params _ _ _ wf2 x h2 (by rfl) (by rfl)) _
  · simp
  · simp [ProcKind.isAggregator]
  · simp
  · simp [ProcKind.isAggregator]
  · simp [ProcKind.isAggregator]
  · simp [ProcKind.isAggregator]
  · simp [ProcKind.isAggregator, Workflow.key]
  · simp [rank_made, hrc]
  · simp [Workflow.key]

theorem replBody_ext (fp : FilePath) (params : CrossValidateWorkflowParams) (mmTestData : Proc)
    (wf : Workflow) (replID : String) (hw : Wired rank wf) (hsrc : rank mmTestData = 0) :
    Ext rank params.FoldsCount.toNat wf (replBody fp params mmTestData wf replID) := by
  simp only [replBody, NewComponent, Workflow.NewProc, Workflow.addProc, Workflow.Connect,
    Workflow.setPathFunc, Workflow.SetOut, Workflow.SetOutFunc, Workflow.FromStr, List.length_append,
    List.length_singleton, List.length_cons, List.length_nil, List.append_assoc,
    List.singleton_append, List.cons_append, List.nil_append]
  refine Ext.thenFoldl (Feed.toExt _ (Feed.cast (Feed.of_block hw 0 _ _ _
    ?_ ?_ ?_ ?_ ?_ ?_ ?_ ?_) ?_)) _
    (fun wf2 x h2 => trainSizeBody_ext params _ _ _ wf2 x h2 (by rfl)) _
  · simp
  · simp [ProcKind.isAggregator]
  · simp
  · simp [ProcKind.isAggregator]
  · simp [ProcKind.isAggregator]
  · simp [ProcKind.isAggregator]
  · simp [ProcKind.isAggregator, Workflow.key]
  · simp [rank_made, hsrc]
  · simp [Workflow.key]

/-- The cross-validation workflow is wired for every value of its
parameters, and each of its aggregators has a fan-in of `FoldsCount`. -/
theorem newCrossValidateWorkflow_ext (fp : FilePath) (maxTasks : Int)
    (params : CrossValidateWorkflowParams) :
    Ext rank params.FoldsCount.toNat
      ⟨"cross_validate", maxTasks,
        [⟨0, "mmTestData", .fileSource [fs "data/%s.smi" [.str params.DatasetName]]⟩], [], []⟩
      (NewCrossValidateWorkflow fp maxTasks params) := by
  have hw := (Wired.empty rank "cross_validate" maxTasks).addProc "mmTestData"
    (.fileSource [fs "data/%s.smi" [.str params.DatasetName]])
  simp only [NewCrossValidateWorkflow, Workflow.NewFileSource, Workflow.addProc,
    Workflow.NewWorkflow, List.length_nil, List.nil_append] at hw ⊢
  exact Ext.extFoldl _ _ (fun wf2 x h2 => replBody_ext fp params _ wf2 x h2 (by rfl)) _ _ hw

end Mm

/-! ## Process names -/

namespace SciPipe

theorem increasing_chain (l : List Nat) (h : Mm.increasing l = true) : l.Chain' (· < ·) := by
  induction l with
  | nil => exact List.chain'_nil
  | cons a l ih =>
    cases l with
    | nil => exact List.chain'_singleton a
    | cons b rest =>
      simp only [Mm.increasing, Bool.and_eq_true, decide_eq_true_eq] at h
      exact List.chain'_cons.2 ⟨h.1, ih h.2⟩

/-- A list on which some number grows strictly from each element to the next
has no repeated element. -/
theorem nodup_of_increasing {α : Type} (g : α → Nat) (l : List α)
    (h : Mm.increasing (l.map g) = true) : l.Nodup := by
  have hp : (l.map g).Pairwise (· < ·) := List.chain'_iff_pairwise.1 (increasing_chain _ h)
  have hn : (l.map g).Nodup := hp.imp (fun hlt => Nat.ne_of_lt hlt)
  exact List.Nodup.of_map g hn

/-- A loop whose every pass registers the processes named `N x` registers,
over the list `l`, those of all passes in order. -/
theorem foldl_names {α : Type} (f : Workflow → α → Workflow) (N : α → List String)
    (h : ∀ wf x, (f wf x).procs.map (fun p => p.name) = wf.procs.map (fun p => p.name) ++ N x)
    (l : List α) (wf : Workflow) :
    (l.foldl f wf).procs.map (fun p => p.name)
      = wf.procs.map (fun p => p.name) ++ l.flatMap N := by
  induction l generalizing wf with
  | nil => simp
  | cons x xs ih =>
    simp only [List.foldl_cons, List.flatMap_cons]
    rw [ih, h, List.append_assoc]

end SciPipe

namespace Mm

theorem foldBody_names (shufTrain cntTrainData cur : Proc) (u : String) (wf : Workflow)
    (idx : Int) :
    (foldBody shufTrain cntTrainData cur u wf idx).procs.map (fun p => p.name)
      = wf.procs.map (fun p => p.name) ++ foldNames u idx := by
  simp [foldBody, NewComponent, Workflow.addProc, Workflow.Connect, foldNames]

theorem costBody_names (params : CrossValidateWorkflowParams) (shufTrain cntTrainData : Proc)
    (u : String) (wf : Workflow) (cost : Float64) :
    (costBody params shufTrain cntTrainData u wf cost).procs.map (fun p => p.name)
      = wf.procs.map (fun p => p.name) ++ costNames params u cost := by
  simp only [costBody, Workflow.NewStreamToSubStream, Workflow.NewProc, Workflow.addProc,
    Workflow.Connect, Workflow.FromFloat, Workflow.SetOut, Workflow.setPathFunc, List.map_append]
  rw [foldl_names _ _ (fun wf x => foldBody_names _ _ _ _ wf x)]
  simp [costNames]

theorem trainSizeBody_names (params : CrossValidateWorkflowParams) (createReplCopy : Proc)
    (replID u : String) (wf : Workflow) (trainSize : Int) :
    (trainSizeBody params createReplCopy replID u wf trainSize).procs.map (fun p => p.name)
      = wf.procs.map (fun p => p.name) ++ trainSizeNames params replID u trainSize := by
  simp only [trainSizeBody, NewComponent, Workflow.NewProc, Workflow.addProc,
    Workflow.Connect, Workflow.SetOut, Workflow.setPathFunc]
  rw [foldl_names _ _ (fun wf x => costBody_names params _ _ _ wf x)]
  simp [trainSizeNames]

theorem replBody_names (fp : FilePath) (params : CrossValidateWorkflowParams) (mmTestData : Proc)
    (wf : Workflow) (replID : String) :
    (replBody fp params mmTestData wf replID).procs.map (fun p => p.name)
      = wf.procs.map (fun p => p.name) ++ replNames params replID := by
  simp only [replBody, NewComponent, Workflow.NewProc, Workflow.addProc, Workflow.Connect,
    Workflow.setPathFunc, Workflow.SetOut, Workflow.SetOutFunc, Workflow.FromStr]
  rw [foldl_names _ _ (fun wf x => trainSizeBody_names params _ _ _ wf x)]
  simp [replNames]

/-- The names of the processes of the cross-validation workflow, for every
value of the parameters. -/
theorem newCrossValidateWorkflow_names (fp : FilePath) (maxTasks : Int)
    (params : CrossValidateWorkflowParams) :
    (NewCrossValidateWorkflow fp maxTasks params).procs.map (fun p => p.name)
      = crossValNames params := by
  simp only [NewCrossValidateWorkflow, Workflow.NewFileSource, Workflow.addProc,
    Workflow.NewWorkflow]
  rw [foldl_names _ _ (fun wf x => replBody_names fp params _ wf x)]
  simp [crossValNames]

set_option maxRecDepth 10000000 in
theorem crossValNames_increasing :
    increasing ((crossValNames mainParams).map orderKey) = true := by
  decide!

end Mm

/-! ## C1: fan-in of the in-ports -/

namespace SciPipe

/-- The fan-in of an in-port read off the list of in-port keys of the
connections. -/
theorem fanIn_eq_countP_keys (wf : Workflow) (g : Conn → Bool) (pid : Nat) (port : String)
    (b : Bool) :
    wf.fanIn pid port b
      = (wf.conns.map (fun c => (Workflow.key c, g c))).countP (fun x => x.1 = (pid, port, b)) := by
  simp only [Workflow.fanIn, List.countP_map]
  rfl

theorem rnaseqpre_keys (maxTasks : Int) :
    (Rnaseqpre.build maxTasks).conns.map (fun c => (Workflow.key c, c.dst.kind.isAggregator))
      = [((1, "tgz", false), false), ((4, "reads", false), false),
          ((4, "untardone", false), false), ((2, "in", false), true),
          ((6, "reads", false), false), ((6, "untardone", false), false),
          ((2, "in", false), true), ((9, "reads1", false), false),
          ((9, "reads2", false), false), ((9, "fastqc", false), false)] :=
  rfl

theorem rnaseqpre_aggregators (maxTasks : Int) :
    (Rnaseqpre.build maxTasks).procs.map (fun p => (p.id, p.kind.isAggregator))
      = [(0, false), (1, false), (2, true), (3, false), (4, false), (5, false), (6, false),
          (7, false), (8, false), (9, false)] :=
  rfl

/-- C1, as stated, fails: in the graph built by rnaseqpre the in-port of
`collect_substream_SRR3222409` is the end of two connections (one from each
`fastqc_sample` process), so the single-producer invariant does not hold of
that graph. -/
theorem rnaseqpre_not_single_producer :
    (Rnaseqpre.build 4).fanIn 2 "in" false = 2 ∧ ¬ (Rnaseqpre.build 4).SingleProducer := by
  have h2 : (Rnaseqpre.build 4).fanIn 2 "in" false = 2 := by
    rw [fanIn_eq_countP_keys _ (fun c => c.dst.kind.isAggregator), rnaseqpre_keys]
    decide
  refine ⟨h2, fun hsp => ?_⟩
  have h := hsp.2
  have hc : (⟨.out ⟨4, "fastqc_sample_SRR3222409_1", .shell
      ("../" ++ Rnaseqpre.appsDir ++ "/FastQC-0.11.5/fastqc {i:reads} -o " ++ Rnaseqpre.tmpDir ++
        "/rnaseqpre/fastqc && echo fastqc_done > {o:done} # {i:untardone}")⟩ "done",
      ⟨2, "collect_substream_SRR3222409", .streamToSubStream⟩, "in", false⟩ : Conn)
      ∈ (Rnaseqpre.build 4).conns := by
    decide
  have := h _ hc
  rw [h2] at this
  cases this

end SciPipe

/-! ## C3: the graphs are acyclic; C10: process names are unique -/

namespace SciPipe

theorem acyclic_of_ranksUp (r : Nat → Nat) (wf : Workflow)
    (h : Workflow.ranksUp r (wf.conns.map (fun c => (c.src.procId, c.dst.id))) = true) :
    wf.Acyclic := by
  refine acyclic_of_ranked (fun p => r p.id) wf ?_
  intro c hc s port hs
  simp only [Workflow.ranksUp, List.all_eq_true, List.mem_map, forall_exists_index, and_imp,
    forall_apply_eq_imp_iff₂] at h
  have := h c hc
  simpa [Source.procId, hs] using this

theorem rnaseqpre_edges (maxTasks : Int) :
    (Rnaseqpre.build maxTasks).conns.map (fun c => (c.src.procId, c.dst.id))
      = [(some 0, 1), (some 3, 4), (some 1, 4), (some 4, 2), (some 5, 6), (some 1, 6),
          (some 6, 2), (some 7, 9), (some 8, 9), (some 2, 9)] :=
  rfl

theorem rnaseqpre_names (maxTasks : Int) :
    (Rnaseqpre.build maxTasks).procs.map (fun p => p.name)
      = ["download_apps", "untgz_apps", "collect_substream_SRR3222409",
          "fastqFile_fastqc_SRR3222409_1", "fastqc_sample_SRR3222409_1",
          "fastqFile_fastqc_SRR3222409_2", "fastqc_sample_SRR3222409_2",
          "fastqFile_align_SRR3222409_1.chr11.fq.gz", "fastqFile_align_SRR3222409_2.chr11.fq.gz",
          "align_samples_SRR3222409"] :=
  rfl

set_option maxRecDepth 100000 in
/-- C3: the producer-process to consumer-process connections made by cawpre
`main`, by rnaseqpre `main` (for every `--maxtasks`) and by
`NewCrossValidateWorkflow` (for every value of its parameters) contain no
directed cycle. -/
theorem graphs_acyclic :
    (∃ wf, Cawpre.main = some wf ∧ wf.Acyclic)
    ∧ (∀ maxTasks : Int, (Rnaseqpre.build maxTasks).Acyclic)
    ∧ (∀ (fp : Mm.FilePath) (maxTasks : Int) (params : Mm.CrossValidateWorkflowParams),
        (Mm.NewCrossValidateWorkflow fp maxTasks params).Acyclic) := by
  refine ⟨⟨_, rfl, acyclic_of_ranksUp id _ ?_⟩, ?_, ?_⟩
  · decide
  · intro maxTasks
    refine acyclic_of_ranksUp (fun i => if i = 2 then 13 else 2 * i) _ ?_
    rw [rnaseqpre_edges]
    decide
  · intro fp maxTasks params
    exact acyclic_of_ranked Mm.rank _
      (Mm.newCrossValidateWorkflow_ext fp maxTasks params).wired.ranked

set_option maxRecDepth 100000 in
/-- C10: the names given to the processes are pairwise distinct in each
workflow the programs build as their `main` configures them:
caw-preprocessing, rnaseqpre (for every `--maxtasks`), download_jars, and
cross_validate with the parameters of mm `main`. -/
theorem process_names_distinct :
    (∃ wf, Cawpre.main = some wf ∧ (wf.procs.map (fun p => p.name)).Nodup)
    ∧ (∀ maxTasks : Int, ((Rnaseqpre.build maxTasks).procs.map (fun p => p.name)).Nodup)
    ∧ (Mm.dlWf.procs.map (fun p => p.name)).Nodup
    ∧ (∀ fp : Mm.FilePath, ((Mm.crossValWF fp).procs.map (fun p => p.name)).Nodup) := by
  refine ⟨⟨_, rfl, ?_⟩, ?_, ?_, ?_⟩
  · decide
  · intro maxTasks
    rw [rnaseqpre_names]
    decide
  · decide
  · intro fp
    rw [Mm.crossValWF, Mm.newCrossValidateWorkflow_names]
    exact nodup_of_increasing Mm.orderKey _ Mm.crossValNames_increasing

end SciPipe

/-! ## C4: running up to "align.*" on the cawpre graph -/

namespace SciPipe

set_option maxRecDepth 100000 in
theorem cawpre_main_graph : Cawpre.main = some Cawpre.graph := by
  have h : Cawpre.main.isSome = true := by decide!
  unfold Cawpre.graph
  cases hm : Cawpre.main with
  | none => rw [hm] at h; cases h
  | some wf => rfl

set_option maxRecDepth 100000 in
/-- C4, as stated, fails: on the graph built by cawpre `main`, whichever way
names are matched, the run up to "align.*" executes more than five processes;
among them are `index_src_normal`, an upstream process of
`align_samples_normal` outside the chain of the claim, and
`align_samples_tumor`, which matches the pattern too. -/
theorem runToRegex_align_not_chain :
    Cawpre.main = some Cawpre.graph ∧
      (∃ run, Cawpre.graph.runNames .whole "align.*" = some run ∧ run.length = 11 ∧
        "index_src_normal" ∈ run ∧ "align_samples_tumor" ∈ run) ∧
      (∃ run, Cawpre.graph.runNames .search "align.*" = some run ∧ run.length = 19 ∧
        "index_src_normal" ∈ run ∧ "align_samples_tumor" ∈ run) := by
  refine ⟨cawpre_main_graph, ⟨(Cawpre.graph.runNames .whole "align.*").getD [], ?_⟩,
    ⟨(Cawpre.graph.runNames .search "align.*").getD [], ?_⟩⟩
  · decide!
  · decide!

set_option maxRecDepth 100000 in
/-- C4 (amended): on the graph built by cawpre `main` the dependency closure
of `align_samples_normal` is seven processes (the chain `download_apps`,
`unzip_apps`, `untar_apps`, the three generators `index_src_normal`,
`reads_fastq1_normal`, `reads_fastq2_normal`, and `align_samples_normal`
itself); the run up to "align.*" executes the closure of all matching
processes: matched against whole names these are `align_samples_normal` and
`align_samples_tumor` and the run is eleven processes without
`merge_bams_normal`; searched for inside names the pattern also matches
`realign_create_targets` and `realign_indels` and the run is nineteen
processes, `merge_bams_normal` among them. -/
theorem runToRegex_align_closure :
    Cawpre.main = some Cawpre.graph ∧
      Cawpre.graph.closureNames "align_samples_normal"
        = ["download_apps", "unzip_apps", "untar_apps", "index_src_normal",
            "reads_fastq1_normal", "reads_fastq2_normal", "align_samples_normal"] ∧
      Cawpre.graph.runNames .whole "align.*"
        = some ["download_apps", "unzip_apps", "untar_apps", "index_src_normal",
            "reads_fastq1_normal", "reads_fastq2_normal", "align_samples_normal",
            "index_src_tumor", "reads_fastq1_tumor", "reads_fastq2_tumor",
            "align_samples_tumor"] ∧
      Cawpre.graph.runNames .search "align.*"
        = some ["download_apps", "unzip_apps", "untar_apps", "index_src_normal",
            "reads_fastq1_normal", "reads_fastq2_normal", "align_samples_normal",
            "stream_to_substream_normal", "merge_bams_normal", "mark_dupes_normal",
            "index_src_tumor", "reads_fastq1_tumor", "reads_fastq2_tumor",
            "align_samples_tumor", "stream_to_substream_tumor", "merge_bams_tumor",
            "mark_dupes_tumor", "realign_create_targets", "realign_indels"] := by
  refine ⟨cawpre_main_graph, ?_, ?_, ?_⟩
  · decide!
  · decide!
  · decide!

end SciPipe

/-! ## C5 and C9: what rnaseqpre does once the workflow is built -/

namespace Rnaseqpre

theorem sorted_names (maxTasks : Int) :
    sortStrings ((build maxTasks).procs.map (fun p => p.name))
      = ["align_samples_SRR3222409", "collect_substream_SRR3222409", "download_apps",
          "fastqFile_align_SRR3222409_1.chr11.fq.gz", "fastqFile_align_SRR3222409_2.chr11.fq.gz",
          "fastqFile_fastqc_SRR3222409_1", "fastqFile_fastqc_SRR3222409_2",
          "fastqc_sample_SRR3222409_1", "fastqc_sample_SRR3222409_2", "untgz_apps"] := by
  rw [SciPipe.rnaseqpre_names]
  decide

/-- The message printed before the exit with code 1: the process names, one
per line, in sorted order. -/
theorem main_empty (plot : Bool) (maxTasks : Int) :
    main plot maxTasks ""
      = [.errorPrintln ("You must specify a process name pattern. You can specify one of:" ++
            "\n".intercalate
              ["align_samples_SRR3222409", "collect_substream_SRR3222409", "download_apps",
                "fastqFile_align_SRR3222409_1.chr11.fq.gz",
                "fastqFile_align_SRR3222409_2.chr11.fq.gz", "fastqFile_fastqc_SRR3222409_1",
                "fastqFile_fastqc_SRR3222409_2", "fastqc_sample_SRR3222409_1",
                "fastqc_sample_SRR3222409_2", "untgz_apps"]),
          .printDefaults, .exit 1] := by
  simp only [main, if_true, sorted_names]

theorem main_nonempty (plot : Bool) (maxTasks : Int) (procsRegex : String)
    (h : procsRegex ≠ "") :
    main plot maxTasks procsRegex
      = if plot then [.plotGraph "rnaseqpre.dot"] else [.runToRegex procsRegex] := by
  simp only [main, if_neg h]

set_option maxRecDepth 100000 in
/-- C5, as stated, fails: with `--procs zzz` no process name of the workflow
matches the pattern (matched against whole names or searched for inside
them), yet `main` prints no usage message and calls no `os.Exit(1)`: it
falls through to `RunToRegex("zzz")`. -/
theorem rnaseqpre_no_match_runs :
    main false 4 "zzz" = [.runToRegex "zzz"]
      ∧ SciPipe.parsePattern "zzz".data
          = some [.one (some 'z'), .one (some 'z'), .one (some 'z')]
      ∧ (∀ p ∈ (build 4).procs,
          SciPipe.nameMatches .whole [.one (some 'z'), .one (some 'z'), .one (some 'z')] p.name
            = false
          ∧ SciPipe.nameMatches .search [.one (some 'z'), .one (some 'z'), .one (some 'z')]
            p.name = false) := by
  refine ⟨by decide, by decide, ?_⟩
  intro p hp
  have hmem : p.name ∈ (build 4).procs.map (fun p => p.name) := List.mem_map.2 ⟨p, hp, rfl⟩
  rw [SciPipe.rnaseqpre_names] at hmem
  have hall : ∀ n ∈ ["download_apps", "untgz_apps", "collect_substream_SRR3222409",
      "fastqFile_fastqc_SRR3222409_1", "fastqc_sample_SRR3222409_1",
      "fastqFile_fastqc_SRR3222409_2", "fastqc_sample_SRR3222409_2",
      "fastqFile_align_SRR3222409_1.chr11.fq.gz", "fastqFile_align_SRR3222409_2.chr11.fq.gz",
      "align_samples_SRR3222409"],
      SciPipe.nameMatches .whole [.one (some 'z'), .one (some 'z'), .one (some 'z')] n = false
      ∧ SciPipe.nameMatches .search [.one (some 'z'), .one (some 'z'), .one (some 'z')] n
        = false := by
    decide!
  exact hall _ hmem

/-- C5 (amended): `main` of rnaseqpre prints the usage message that lists the
process names and exits with code 1 exactly when the value of `--procs` is
the empty string, before it plots or runs anything. For every other value
`main` prints no usage message and calls no exit of its own: with `--plot`
it plots the graph, otherwise it calls `RunToRegex` with that pattern, also
when no process name matches it; the run is then refused by `RunToRegex`
itself, as the configuration error of a pattern that matches no process. -/
theorem rnaseqpre_exit_iff_empty (plot : Bool) (maxTasks : Int) (procsRegex : String) :
    (Effect.exit 1 ∈ main plot maxTasks procsRegex ↔ procsRegex = "")
      ∧ (procsRegex = "" →
          main plot maxTasks procsRegex
            = [.errorPrintln ("You must specify a process name pattern. You can specify one of:"
                  ++ "\n".intercalate
                    ["align_samples_SRR3222409", "collect_substream_SRR3222409",
                      "download_apps", "fastqFile_align_SRR3222409_1.chr11.fq.gz",
                      "fastqFile_align_SRR3222409_2.chr11.fq.gz",
                      "fastqFile_fastqc_SRR3222409_1", "fastqFile_fastqc_SRR3222409_2",
                      "fastqc_sample_SRR3222409_1", "fastqc_sample_SRR3222409_2",
                      "untgz_apps"]),
                .printDefaults, .exit 1])
      ∧ (procsRegex ≠ "" →
          main plot maxTasks procsRegex
            = if plot then [.plotGraph "rnaseqpre.dot"] else [.runToRegex procsRegex])
      ∧ (∀ (mode : SciPipe.Matching) (items : List SciPipe.RxItem),
          SciPipe.parsePattern procsRegex.data = some items →
          (∀ p ∈ (build maxTasks).procs, SciPipe.nameMatches mode items p.name = false) →
          (build maxTasks).RunToRegex mode procsRegex
            = .error "no process name matches the pattern") := by
  refine ⟨?_, ?_, main_nonempty plot maxTasks procsRegex, ?_⟩
  · constructor
    · intro h
      by_contra hne
      rw [main_nonempty plot maxTasks procsRegex hne] at h
      cases plot <;> simp at h
    · intro h
      rw [h, main_empty]
      simp
  · intro h
    rw [h, main_empty]
  · intro mode items hparse hno
    have hnil : (build maxTasks).procs.filter (fun p => SciPipe.nameMatches mode items p.name)
        = [] := by
      rw [List.filter_eq_nil_iff]
      intro p hp
      rw [hno p hp]
      exact Bool.false_ne_true
    simp only [Workflow.RunToRegex, hparse, hnil, List.map_nil, if_true]

set_option maxRecDepth 100000 in
/-- C5 (amended), at the values `--procs ""` and `--procs zzz`. -/
theorem rnaseqpre_exit_iff_empty_witness :
    Effect.exit 1 ∈ main false 4 "" ∧ main false 4 "zzz" = [.runToRegex "zzz"]
      ∧ (build 4).RunToRegex .whole "zzz" = .error "no process name matches the pattern"
      ∧ (build 4).RunToRegex .search "zzz" = .error "no process name matches the pattern" :=
  ⟨((rnaseqpre_exit_iff_empty false 4 "").1).2 rfl,
    by simpa using (rnaseqpre_exit_iff_empty false 4 "zzz").2.2.1 (by decide),
    (rnaseqpre_exit_iff_empty false 4 "zzz").2.2.2 .whole
      [.one (some 'z'), .one (some 'z'), .one (some 'z')] (by decide) (by decide!),
    (rnaseqpre_exit_iff_empty false 4 "zzz").2.2.2 .search
      [.one (some 'z'), .one (some 'z'), .one (some 'z')] (by decide) (by decide!)⟩

/-- C9: with `--plot` set, for every value of the other flags, rnaseqpre
never calls `RunToRegex`, and whenever the `--procs` pattern is not empty all
it does is render the graph to "rnaseqpre.dot". -/
theorem rnaseqpre_plot_only (maxTasks : Int) (procsRegex : String) :
    (∀ pattern, Effect.runToRegex pattern ∉ main true maxTasks procsRegex)
      ∧ (procsRegex ≠ "" → main true maxTasks procsRegex = [.plotGraph "rnaseqpre.dot"]) := by
  constructor
  · intro pattern h
    by_cases he : procsRegex = ""
    · rw [he, main_empty] at h
      simp at h
    · rw [main_nonempty true maxTasks procsRegex he] at h
      simp at h
  · intro he
    rw [main_nonempty true maxTasks procsRegex he]
    rfl

/-- C9, at the default pattern "align.*". -/
theorem rnaseqpre_plot_only_witness :
    main true 4 "align.*" = [.plotGraph "rnaseqpre.dot"] :=
  (rnaseqpre_plot_only 4 "align.*").2 (by decide)

end Rnaseqpre

/-! ## C6, C7, C8: path rules and the aggregators of cawpre -/

namespace Cawpre

set_option maxRecDepth 100000 in
/-- C6: in cawpre the in-ports `bamnormal` and `bamtumor` of `realign_indels`
are fed by the out-port `bam` of `mark_dupes_normal` and of
`mark_dupes_tumor`, which declare the paths "tmp/normal_0.md.bam" and
"tmp/tumor_1.md.bam"; on these paths the rules
`SetPathReplace("bamnormal","realbamnormal",".bam",".real.bam")` and
`SetPathReplace("bamtumor","realbamtumor",".bam",".real.bam")` resolve to
"tmp/normal_0.md.real.bam" and "tmp/tumor_1.md.real.bam". -/
theorem realign_paths :
    main = some graph
      ∧ (∀ t, graph.outPath "mark_dupes_normal" "bam" t = some "tmp/normal_0.md.bam")
      ∧ (∀ t, graph.outPath "mark_dupes_tumor" "bam" t = some "tmp/tumor_1.md.bam")
      ∧ ((graph.proc "realign_indels").map (fun p => graph.upstream p.id "bamnormal" false))
          = (graph.proc "mark_dupes_normal").map (fun p => [.out p "bam"])
      ∧ ((graph.proc "realign_indels").map (fun p => graph.upstream p.id "bamtumor" false))
          = (graph.proc "mark_dupes_tumor").map (fun p => [.out p "bam"])
      ∧ (∀ t : Task, t.InPath "bamnormal" = "tmp/normal_0.md.bam" →
          graph.outPath "realign_indels" "realbamnormal" t = some "tmp/normal_0.md.real.bam")
      ∧ (∀ t : Task, t.InPath "bamtumor" = "tmp/tumor_1.md.bam" →
          graph.outPath "realign_indels" "realbamtumor" t = some "tmp/tumor_1.md.real.bam") := by
  have hN : ∀ t : Task, graph.outPath "realign_indels" "realbamnormal" t
      = some (strReplace (t.InPath "bamnormal") ".bam" ".real.bam") := fun _ => rfl
  have hT : ∀ t : Task, graph.outPath "realign_indels" "realbamtumor" t
      = some (strReplace (t.InPath "bamtumor") ".bam" ".real.bam") := fun _ => rfl
  refine ⟨SciPipe.cawpre_main_graph, fun _ => rfl, fun _ => rfl, by decide!, by decide!, ?_, ?_⟩
  · intro t ht
    rw [hN, ht]
    decide
  · intro t ht
    rw [hT, ht]
    decide

/-- C6, on a task whose inputs are at the paths the two `mark_dupes`
processes declare. -/
theorem realign_paths_witness :
    graph.outPath "realign_indels" "realbamnormal"
        ⟨fun port => if port = "bamnormal" then "tmp/normal_0.md.bam" else "tmp/tumor_1.md.bam",
          fun _ => ""⟩ = some "tmp/normal_0.md.real.bam"
      ∧ graph.outPath "realign_indels" "realbamtumor"
        ⟨fun port => if port = "bamnormal" then "tmp/normal_0.md.bam" else "tmp/tumor_1.md.bam",
          fun _ => ""⟩ = some "tmp/tumor_1.md.real.bam" :=
  ⟨realign_paths.2.2.2.2.2.1 _ (by decide), realign_paths.2.2.2.2.2.2 _ (by decide)⟩

/-- C7: the path function of out-port `bam` of `align_samples_normal` gives,
for every task, "tmp/normal_" ++ p ++ ".bam" with `p` the task's value of the
parameter `index`, and that of `align_samples_tumor` gives
"tmp/tumor_" ++ p ++ ".bam": each closure holds the sample type of its own
loop pass. -/
theorem align_bam_paths (t : Task) :
    main = some graph
      ∧ graph.outPath "align_samples_normal" "bam" t
          = some ("tmp/normal_" ++ t.Param "index" ++ ".bam")
      ∧ graph.outPath "align_samples_tumor" "bam" t
          = some ("tmp/tumor_" ++ t.Param "index" ++ ".bam") :=
  ⟨SciPipe.cawpre_main_graph, rfl, rfl⟩

end Cawpre

namespace SciPipe

theorem collect_eq (buffer input : List IP) :
    StreamToSubStream.collect buffer input = buffer ++ input := by
  induction input generalizing buffer with
  | nil => simp [StreamToSubStream.collect]
  | cons ip rest ih => simp [StreamToSubStream.collect, ih]

theorem streamToSubStream_run (input : List IP) :
    StreamToSubStream.Run input = .ok ⟨[.batch input], true⟩ := by
  simp [StreamToSubStream.Run, Chan.Send, Chan.empty, Chan.Close, collect_eq]

end SciPipe

namespace SciPipe

theorem step_aggregator (wf : Workflow) (s : Sent) (p : Proc)
    (hk : p.kind = .streamToSubStream) :
    wf.step s p = s ++ [((p.id, "substream"), [.batch (wf.delivered s p.id "in" false)])] := by
  simp only [Workflow.step, hk, streamToSubStream_run]

end SciPipe

namespace Cawpre

/-- C8, as stated, fails: in a run of the cawpre workflow
`align_samples_normal` receives five packets on `index`, `reads1` and
`reads2` but a single one on `appsdir` (`untar_apps` runs once), so it runs
one task and sends one bam path; the one batch `merge_bams_normal` receives
on `bams` holds that one path, not five. -/
theorem merge_batch_not_five :
    (alignReceives graph "normal" "index" true).length = 5
      ∧ (alignReceives graph "normal" "reads1" false).length = 5
      ∧ (alignReceives graph "normal" "reads2" false).length = 5
      ∧ alignReceives graph "normal" "appsdir" false = [.file "data/apps"]
      ∧ alignSends graph "normal" = [.file "tmp/normal_1.bam"]
      ∧ mergeReceives graph "normal" = some [.batch [.file "tmp/normal_1.bam"]]
      ∧ ¬ ∃ items, mergeReceives graph "normal" = some [.batch items] ∧ items.length = 5 := by
  have hm : mergeReceives graph "normal" = some [.batch [.file "tmp/normal_1.bam"]] := rfl
  refine ⟨rfl, rfl, rfl, rfl, rfl, hm, ?_⟩
  rintro ⟨items, hi, hlen⟩
  rw [hm] at hi
  simp only [Option.some.injEq, List.cons.injEq, IP.batch.injEq, and_true] at hi
  rw [← hi] at hlen
  cases hlen

/-- C8 (amended): a `StreamToSubStream` fed any sequence of packets and then
the closure of its in-port ends with exactly one batch packet on its
out-port, holding all the packets in arrival order, and with the out-port
closed (for the empty sequence too); in a run of any workflow it sends that
one batch of what its in-port received. In a run of the cawpre workflow,
whose connections all lead to a process created later, `merge_bams_<type>`
receives on `bams` exactly one batch holding every bam path
`align_samples_<type>` sent, in order; that is the one path
"tmp/<type>_1.bam", since `align_samples_<type>` receives one packet on
`appsdir` next to the five or six of `index`, `reads1` and `reads2`. -/
theorem aggregator_one_batch (input : List IP) :
    StreamToSubStream.Run input = .ok ⟨[.batch input], true⟩
      ∧ StreamToSubStream.Run [] = .ok ⟨[.batch []], true⟩
      ∧ (∀ (wf : Workflow) (s : Sent) (p : Proc), p.kind = .streamToSubStream →
          wf.step s p
            = s ++ [((p.id, "substream"), [.batch (wf.delivered s p.id "in" false)])])
      ∧ main = some graph
      ∧ (∀ c ∈ graph.conns, ∀ i, c.src.procId = some i → i < c.dst.id)
      ∧ mergeReceives graph "normal" = some [.batch (alignSends graph "normal")]
      ∧ mergeReceives graph "tumor" = some [.batch (alignSends graph "tumor")]
      ∧ alignSends graph "normal" = [.file "tmp/normal_1.bam"]
      ∧ alignSends graph "tumor" = [.file "tmp/tumor_1.bam"]
      ∧ alignReceives graph "normal" "appsdir" false = [.file "data/apps"]
      ∧ alignReceives graph "tumor" "appsdir" false = [.file "data/apps"]
      ∧ alignReceives graph "normal" "index" true
          = (paramsOf graph "index_src_normal").map IP.param
      ∧ alignReceives graph "tumor" "index" true
          = (paramsOf graph "index_src_tumor").map IP.param
      ∧ alignReceives graph "normal" "reads1" false
          = (filePathsOf graph "reads_fastq1_normal").map IP.file
      ∧ alignReceives graph "normal" "reads2" false
          = (filePathsOf graph "reads_fastq2_normal").map IP.file
      ∧ alignReceives graph "tumor" "reads1" false
          = (filePathsOf graph "reads_fastq1_tumor").map IP.file
      ∧ alignReceives graph "tumor" "reads2" false
          = (filePathsOf graph "reads_fastq2_tumor").map IP.file := by
  refine ⟨SciPipe.streamToSubStream_run input, SciPipe.streamToSubStream_run [],
    SciPipe.step_aggregator, SciPipe.cawpre_main_graph, ?_, rfl, rfl, rfl, rfl, rfl, rfl, rfl,
    rfl, rfl, rfl, rfl, rfl⟩
  decide!

end Cawpre

/-! ## C11: no unresolved placeholder -/

namespace SciPipe

theorem digitChar_ne_brace : ∀ k : Nat, Nat.digitChar k ≠ Char.ofNat 123
  | 0 | 1 | 2 | 3 | 4 | 5 | 6 | 7 | 8 | 9 | 10 | 11 | 12 | 13 | 14 | 15 => by decide
  | k + 16 => by
    have h : Nat.digitChar (k + 16) = '*' := by simp [Nat.digitChar]
    rw [h]
    decide

theorem toDigitsCore_no_brace (b : Nat) (fuel n : Nat) (ds : List Char)
    (h : ∀ c ∈ ds, c ≠ Char.ofNat 123) :
    ∀ c ∈ Nat.toDigitsCore b fuel n ds, c ≠ Char.ofNat 123 := by
  induction fuel generalizing n ds with
  | zero => simpa [Nat.toDigitsCore] using h
  | succ fuel ih =>
    have hd : ∀ c ∈ Nat.digitChar (n % b) :: ds, c ≠ Char.ofNat 123 := by
      intro c hc
      rcases List.mem_cons.1 hc with rfl | hc
      · exact digitChar_ne_brace _
      · exact h c hc
    simp only [Nat.toDigitsCore]
    split_ifs
    · exact hd
    · exact ih _ _ hd

theorem int_no_brace (m : Int) : ∀ c ∈ (toString m).data, c ≠ Char.ofNat 123 := by
  cases m with
  | ofNat n =>
    exact toDigitsCore_no_brace 10 _ _ [] (by simp)
  | negSucc n =>
    intro c hc
    have hc2 : c ∈ '-' :: Nat.toDigits 10 (n + 1) := hc
    rcases List.mem_cons.1 hc2 with rfl | hc3
    · decide
    · exact toDigitsCore_no_brace 10 _ _ [] (by simp) c hc3

theorem scanHolders_skip (xs ys : List Char) (h : ∀ c ∈ xs, c ≠ Char.ofNat 123) :
    scanHolders none (xs ++ ys) = scanHolders none ys := by
  induction xs with
  | nil => rfl
  | cons c cs ih =>
    have hc : c ≠ Char.ofNat 123 := h c (List.mem_cons_self _ _)
    have := ih (fun d hd => h d (List.mem_cons_of_mem _ hd))
    simp [scanHolders, hc, this]

end SciPipe

namespace SciPipe

set_option maxRecDepth 100000 in
theorem rnaseqpre_align_holders (m : Int) :
    ∃ cmd, (Rnaseqpre.build m).procs
        = (Rnaseqpre.build 4).procs.take 9 ++ [⟨9, "align_samples_SRR3222409", .shell cmd⟩]
      ∧ placeholders cmd = [('i', "reads1"), ('i', "reads2"), ('o', "bam_aligned"),
          ('o', "bam_aligned"), ('i', "fastqc")] := by
  refine ⟨_, rfl, ?_⟩
  have h1 : ∀ rest, scanHolders none (("../" ++ Rnaseqpre.appsDir ++ "/STAR-2.5.3a/STAR \\\n" ++
      " --genomeDir ../" ++ Rnaseqpre.starIndex ++
      " --readFilesIn {i:reads1} {i:reads2} \\\n" ++ " --runThreadN ").data ++ rest)
      = [('i', "reads1"), ('i', "reads2")] ++ scanHolders none rest := fun _ => rfl
  have hs : sprintf " --runThreadN %d \\\n".data [.int m]
      = " --runThreadN ".data ++ ((toString m).data ++ " \\\n".data) := rfl
  simp only [String.data_append, List.append_assoc] at h1 hs
  simp only [placeholders, String.data_append, fs, hs, List.append_assoc]
  rw [h1, scanHolders_skip _ _ (int_no_brace m)]
  rfl

end SciPipe

namespace SciPipe

theorem rnaseqpre_ruleKeys (m : Int) :
    (Rnaseqpre.build m).ruleKeys
      = [(9, "bam_aligned"), (6, "done"), (4, "done"), (1, "done"), (0, "apps")] :=
  rfl

theorem rnaseqpre_inKeys (m : Int) :
    (Rnaseqpre.build m).conns.map Workflow.key
      = [(1, "tgz", false), (4, "reads", false), (4, "untardone", false), (2, "in", false),
          (6, "reads", false), (6, "untardone", false), (2, "in", false),
          (9, "reads1", false), (9, "reads2", false), (9, "fastqc", false)] :=
  rfl

set_option maxRecDepth 100000 in
theorem rnaseqpre_resolved (m : Int) :
    ∀ p ∈ (Rnaseqpre.build m).procs, (Rnaseqpre.build m).resolvedProc p = true := by
  obtain ⟨cmd, hprocs, hph⟩ := rnaseqpre_align_holders m
  have h9 : ∀ p ∈ (Rnaseqpre.build 4).procs.take 9,
      (match p.kind with
        | .shell c => resolvedWith
            [(9, "bam_aligned"), (6, "done"), (4, "done"), (1, "done"), (0, "apps")]
            [(1, "tgz", false), (4, "reads", false), (4, "untardone", false), (2, "in", false),
              (6, "reads", false), (6, "untardone", false), (2, "in", false),
              (9, "reads1", false), (9, "reads2", false), (9, "fastqc", false)]
            p.id (placeholders c)
        | _ => true) = true := by
    decide!
  intro p hp
  rw [hprocs] at hp
  rcases List.mem_append.1 hp with hp | hp
  · simpa only [Workflow.resolvedProc, rnaseqpre_ruleKeys, rnaseqpre_inKeys] using h9 p hp
  · rw [List.mem_singleton.1 hp]
    simp only [Workflow.resolvedProc, rnaseqpre_ruleKeys, rnaseqpre_inKeys, hph]
    decide

set_option maxRecDepth 100000 in
theorem cawpre_resolved : ∀ p ∈ Cawpre.graph.procs, Cawpre.graph.resolvedProc p = true := by
  decide!

set_option maxRecDepth 100000 in
theorem dlWf_resolved : ∀ p ∈ Mm.dlWf.procs, Mm.dlWf.resolvedProc p = true := by
  decide!

end SciPipe

namespace SciPipe

theorem resolvedWith_mono {rk rk2 : List (Nat × String)} {ik ik2 : List (Nat × String × Bool)}
    {pid : Nat} {hs : List (Char × String)} (h : resolvedWith rk ik pid hs = true)
    (h1 : ∀ k ∈ rk, k ∈ rk2) (h2 : ∀ k ∈ rk2, k ∈ rk ∨ k.1 ≠ pid) (h3 : ∀ k ∈ ik, k ∈ ik2) :
    resolvedWith rk2 ik2 pid hs = true := by
  simp only [resolvedWith, Bool.and_eq_true, List.all_eq_true, decide_eq_true_eq] at h ⊢
  obtain ⟨ha, hb⟩ := h
  refine ⟨fun x hx => ?_, fun k hk hpid => ?_⟩
  · have := ha x hx
    split_ifs at this ⊢
    · exact decide_eq_true (h1 _ (of_decide_eq_true this))
    · exact decide_eq_true (h3 _ (of_decide_eq_true this))
    · exact decide_eq_true (h3 _ (of_decide_eq_true this))
  · rcases h2 k hk with hk2 | hk2
    · exact hb k hk2 hpid
    · exact absurd hpid hk2

theorem find_append_old {α : Type} (q : α → Bool) (l1 l2 : List α)
    (h : ∀ e ∈ l1, q e = false) : (l1 ++ l2).find? q = l2.find? q := by
  induction l1 with
  | nil => rfl
  | cons a l ih =>
    have ha := h a (List.mem_cons_self _ _)
    simp only [List.cons_append, List.find?, ha]
    exact ih (fun e he => h e (List.mem_cons_of_mem _ he))

theorem find_append_new {α : Type} (q : α → Bool) (l1 l2 : List α) (x : α)
    (h : l1.find? q = some x) : (l1 ++ l2).find? q = some x := by
  induction l1 with
  | nil => cases h
  | cons a l ih =>
    by_cases ha : q a = true
    · simp only [List.find?, ha] at h
      simp only [List.cons_append, List.find?, ha, h]
    · have ha2 : q a = false := by simpa using ha
      simp only [List.find?, ha2] at h
      simp only [List.cons_append, List.find?, ha2]
      exact ih h

end SciPipe

namespace SciPipe

theorem Ruled.ruledEmpty (expect : Proc → String → Option (Task → String)) (name : String)
    (maxTasks : Int) : Ruled expect (Workflow.NewWorkflow name maxTasks) := by
  refine ⟨?_, ?_, ?_, ?_, ?_⟩ <;> simp [Workflow.NewWorkflow, Workflow.ruleKeys]

/-- A block of fresh processes with the connections and path rules made for
them: connections end in registered processes, path rules are set for the
fresh processes only, and within the block every fresh process is fully
wired and has the rules expected of it. -/
theorem RuledExt.ruledBlock {expect : Proc → String → Option (Task → String)} {wf : Workflow}
    (h : Ruled expect wf) (ps : List Proc) (cs : List Conn)
    (pfNew : List ((Nat × String) × (Task → String)))
    (hps : ∀ p ∈ ps, wf.procs.length ≤ p.id ∧ p.id < wf.procs.length + ps.length)
    (hcs : ∀ c ∈ cs, c.dst.id < wf.procs.length + ps.length)
    (hpf : ∀ e ∈ pfNew, wf.procs.length ≤ e.1.1 ∧ e.1.1 < wf.procs.length + ps.length)
    (hres : ∀ p ∈ ps, ∀ cmd, p.kind = .shell cmd →
      resolvedWith (pfNew.map (fun e => e.1)) (cs.map Workflow.key) p.id (placeholders cmd)
        = true)
    (hexp : ∀ p ∈ ps, ∀ port f, expect p port = some f →
      (pfNew.find? (fun e => e.1 = (p.id, port))).map (fun e => e.2) = some f) :
    RuledExt expect wf
      ⟨wf.name, wf.maxTasks, wf.procs ++ ps, wf.conns ++ cs, pfNew ++ wf.pathFuncs⟩ := by
  refine ⟨⟨?_, ?_, ?_, ?_, ?_⟩, by simp, fun p hp => List.mem_append_left _ hp⟩
  · intro k hk
    simp only [Workflow.ruleKeys, List.map_append, List.mem_append, List.length_append] at hk ⊢
    rcases hk with hk | hk
    · obtain ⟨e, he, rfl⟩ := List.mem_map.1 hk
      exact (hpf e he).2
    · have := h.ruleBound k hk
      omega
  · intro c hc
    simp only [List.mem_append, List.length_append] at hc ⊢
    rcases hc with hc | hc
    · have := h.dstBound c hc
      omega
    · exact hcs c hc
  · intro p hp
    simp only [List.mem_append, List.length_append] at hp ⊢
    rcases hp with hp | hp
    · have := h.idBound p hp
      omega
    · exact (hps p hp).2
  · intro p hp
    simp only [List.mem_append] at hp
    rcases hp with hp | hp
    · have hold := h.resolved p hp
      have hid := h.idBound p hp
      unfold Workflow.resolvedProc at hold ⊢
      cases hk : p.kind <;> simp only [hk] at hold ⊢
      refine resolvedWith_mono hold ?_ ?_ ?_
      · intro k hk2
        simp only [Workflow.ruleKeys, List.map_append, List.mem_append]
        exact Or.inr hk2
      · intro k hk2
        simp only [Workflow.ruleKeys, List.map_append, List.mem_append] at hk2
        rcases hk2 with hk2 | hk2
        · obtain ⟨e, he, rfl⟩ := List.mem_map.1 hk2
          have := (hpf e he).1
          exact Or.inr (by omega)
        · exact Or.inl hk2
      · intro k hk2
        simp only [List.map_append, List.mem_append]
        exact Or.inl hk2
    · have hnew := hres p hp
      have hid := (hps p hp).1
      unfold Workflow.resolvedProc
      cases hk : p.kind <;> simp only
      refine resolvedWith_mono (hnew _ hk) ?_ ?_ ?_
      · intro k hk2
        simp only [Workflow.ruleKeys, List.map_append, List.mem_append]
        exact Or.inl hk2
      · intro k hk2
        simp only [Workflow.ruleKeys, List.map_append, List.mem_append] at hk2
        rcases hk2 with hk2 | hk2
        · exact Or.inl hk2
        · have := h.ruleBound k hk2
          exact Or.inr (by omega)
      · intro k hk2
        simp only [List.map_append, List.mem_append]
        exact Or.inr hk2
  · intro p hp port f hf
    simp only [List.mem_append] at hp
    unfold Workflow.pathFunc
    rcases hp with hp | hp
    · have hold := h.rules p hp port f hf
      have hid := h.idBound p hp
      unfold Workflow.pathFunc at hold
      rw [find_append_old, hold]
      intro e he
      have := (hpf e he).1
      simp only [decide_eq_false_iff_not]
      intro heq
      rw [heq] at this
      simp only at this
      omega
    · have hnew := hexp p hp port f hf
      cases hfind : pfNew.find? (fun e => e.1 = (p.id, port)) with
      | none => simp [hfind] at hnew
      | some x =>
        rw [find_append_new _ _ _ _ hfind]
        simpa [hfind] using hnew

theorem RuledExt.ruledRefl {expect : Proc → String → Option (Task → String)} {wf : Workflow}
    (h : Ruled expect wf) : RuledExt expect wf wf :=
  ⟨h, le_refl _, fun _ hp => hp⟩

theorem RuledExt.ruledTrans {expect : Proc → String → Option (Task → String)}
    {wf wf1 wf2 : Workflow} (h1 : RuledExt expect wf wf1) (h2 : RuledExt expect wf1 wf2) :
    RuledExt expect wf wf2 :=
  ⟨h2.ruled, le_trans h1.len h2.len, fun p hp => h2.keep p (h1.keep p hp)⟩

theorem RuledExt.ruledFoldl {expect : Proc → String → Option (Task → String)} {α : Type}
    (n : Nat) (f : Workflow → α → Workflow)
    (hf : ∀ wf x, Ruled expect wf → n ≤ wf.procs.length → RuledExt expect wf (f wf x))
    (l : List α) (wf : Workflow) (h : Ruled expect wf) (hn : n ≤ wf.procs.length) :
    RuledExt expect wf (l.foldl f wf) := by
  induction l generalizing wf with
  | nil => exact RuledExt.ruledRefl h
  | cons x xs ih =>
    have h1 := hf wf x h hn
    exact RuledExt.ruledTrans h1 (ih (f wf x) h1.ruled (le_trans hn h1.len))

theorem RuledExt.ruledThenFoldl {expect : Proc → String → Option (Task → String)} {α : Type}
    {wf wf1 : Workflow} (h0 : RuledExt expect wf wf1) (n : Nat) (f : Workflow → α → Workflow)
    (hf : ∀ wf x, Ruled expect wf → n ≤ wf.procs.length → RuledExt expect wf (f wf x))
    (l : List α) (hn : n ≤ wf1.procs.length) :
    RuledExt expect wf (l.foldl f wf1) :=
  RuledExt.ruledTrans h0 (RuledExt.ruledFoldl n f hf l wf1 h0.ruled hn)

end SciPipe

namespace Mm
open SciPipe

theorem foldBody_ruled (fp : FilePath) (shufTrain cntTrainData cur : Proc) (u : String)
    (wf : Workflow) (idx : Int) (hw : Ruled (copyRule fp) wf) (hid : cur.id < wf.procs.length) :
    RuledExt (copyRule fp) wf (foldBody shufTrain cntTrainData cur u wf idx) := by
  simp only [foldBody, NewComponent, Workflow.addProc, Workflow.Connect, List.length_append,
    List.length_singleton, List.length_cons, List.length_nil, List.append_assoc,
    List.singleton_append, List.cons_append, List.nil_append]
  refine RuledExt.ruledBlock hw _ _ [] ?_ ?_ ?_ ?_ ?_
  · simp
  · simp; omega
  · simp
  · simp
  · simp [copyRule]

theorem holders_avg :
    placeholders "cat {i:rmsdcost|join: } | awk '{ c += $1; n++ } END { print c / n }' > {o:avgrmsd}"
      = [('i', "rmsdcost"), ('o', "avgrmsd")] := by
  decide

theorem holders_gunzip :
    placeholders "zcat {i:orig} > {o:ungzipped}" = [('i', "orig"), ('o', "ungzipped")] := by
  decide

theorem holders_runcopy :
    placeholders "cp {i:orig} {o:copy} # {p:runid}"
      = [('i', "orig"), ('o', "copy"), ('p', "runid")] := by
  decide

theorem holders_replcopy :
    placeholders "cp {i:orig} {o:copy} # {p:replid}"
      = [('i', "orig"), ('o', "copy"), ('p', "replid")] := by
  decide

theorem costBody_ruled (fp : FilePath) (params : CrossValidateWorkflowParams)
    (shufTrain cntTrainData : Proc) (u : String) (wf : Workflow) (cost : Float64)
    (hw : Ruled (copyRule fp) wf) :
    RuledExt (copyRule fp) wf (costBody params shufTrain cntTrainData u wf cost) := by
  simp only [costBody, Workflow.NewStreamToSubStream, Workflow.NewProc, Workflow.addProc,
    Workflow.Connect, Workflow.FromFloat, Workflow.SetOut, Workflow.setPathFunc, List.append_assoc,
    List.singleton_append, List.cons_append, List.nil_append]
  have h1 : RuledExt (copyRule fp) wf
      ⟨wf.name, wf.maxTasks, wf.procs ++ [⟨wf.procs.length,
        "cost_substr" ++ (u ++ fs "_c%f" [.float cost]), .streamToSubStream⟩], wf.conns ++ [],
        [] ++ wf.pathFuncs⟩ := by
    refine RuledExt.ruledBlock hw _ _ [] ?_ ?_ ?_ ?_ ?_
    · simp
    · simp
    · simp
    · simp
    · simp [copyRule]
  simp only [List.append_nil, List.nil_append] at h1
  have h2 := RuledExt.ruledFoldl (wf.procs.length + 1)
    (foldBody shufTrain cntTrainData
      ⟨wf.procs.length, "cost_substr" ++ (u ++ fs "_c%f" [.float cost]), .streamToSubStream⟩
      (u ++ fs "_c%f" [.float cost]))
    (fun wf2 x h2 hlt => foldBody_ruled fp shufTrain cntTrainData
      ⟨wf.procs.length, "cost_substr" ++ (u ++ fs "_c%f" [.float cost]), .streamToSubStream⟩
      (u ++ fs "_c%f" [.float cost]) wf2 x h2 hlt)
    (foldIdxs params.FoldsCount) _ h1.ruled (by simp)
  refine RuledExt.ruledTrans h1 (RuledExt.ruledTrans h2 ?_)
  have hlen := h2.len
  simp only [List.length_append, List.length_singleton] at hlen
  refine RuledExt.ruledBlock h2.ruled _ _ [_] ?_ ?_ ?_ ?_ ?_
  · simp
  · simp
  · simp
  · simp only [List.mem_singleton, forall_eq, ProcKind.shell.injEq, forall_eq', holders_avg,
      resolvedWith, List.all_cons, List.all_nil, List.map_cons, List.map_nil, Workflow.key]
    simp
  · simp [copyRule]

theorem trainSizeBody_ruled (fp : FilePath) (params : CrossValidateWorkflowParams)
    (createReplCopy : Proc) (replID u : String) (wf : Workflow) (trainSize : Int)
    (hw : Ruled (copyRule fp) wf) :
    RuledExt (copyRule fp) wf (trainSizeBody params createReplCopy replID u wf trainSize) := by
  simp only [trainSizeBody, NewComponent, Workflow.NewProc, Workflow.addProc,
    Workflow.Connect, Workflow.SetOut, Workflow.setPathFunc, List.length_append, List.length_singleton,
    List.length_cons, List.length_nil, List.append_assoc, List.singleton_append,
    List.cons_append, List.nil_append]
  refine RuledExt.ruledThenFoldl (RuledExt.ruledBlock hw _ _ [_] ?_ ?_ ?_ ?_ ?_) 0 _
    (fun wf2 x h2 _ => costBody_ruled fp params _ _ _ wf2 x h2) _ (Nat.zero_le _)
  · simp
  · simp
  · simp
  · simp only [List.mem_cons, List.mem_singleton, forall_eq_or_imp, forall_eq,
      ProcKind.shell.injEq, forall_eq', holders_gunzip, resolvedWith, List.all_cons,
      List.all_nil, List.map_cons, List.map_nil, Workflow.key]
    simp
  · simp [copyRule]

theorem replBody_ruled (fp : FilePath) (params : CrossValidateWorkflowParams) (mmTestData : Proc)
    (wf : Workflow) (replID : String) (hw : Ruled (copyRule fp) wf) :
    RuledExt (copyRule fp) wf (replBody fp params mmTestData wf replID) := by
  simp only [replBody, NewComponent, Workflow.NewProc, Workflow.addProc, Workflow.Connect,
    Workflow.FromStr, Workflow.SetOut, Workflow.SetOutFunc, Workflow.setPathFunc,
    List.length_append, List.length_singleton, List.length_cons, List.length_nil,
    List.append_assoc, List.singleton_append, List.cons_append, List.nil_append]
  refine RuledExt.ruledThenFoldl (RuledExt.ruledBlock hw _ _ [_, _, _] ?_ ?_ ?_ ?_ ?_) 0 _
    (fun wf2 x h2 _ => trainSizeBody_ruled fp params _ _ _ wf2 x h2) _ (Nat.zero_le _)
  · simp
  · simp
  · simp
  · simp only [List.mem_cons, List.mem_singleton, forall_eq_or_imp, forall_eq,
      ProcKind.shell.injEq, forall_eq', holders_runcopy, holders_replcopy, resolvedWith,
      List.all_cons, List.all_nil, List.map_cons, List.map_nil, Workflow.key]
    simp
  · simp [copyRule]
    exact ⟨rfl, rfl⟩

theorem newCrossValidateWorkflow_ruled (fp : FilePath) (maxTasks : Int)
    (params : CrossValidateWorkflowParams) :
    Ruled (copyRule fp) (NewCrossValidateWorkflow fp maxTasks params) := by
  simp only [NewCrossValidateWorkflow, Workflow.NewFileSource, Workflow.addProc]
  have h0 := Ruled.ruledEmpty (copyRule fp) "cross_validate" maxTasks
  refine (RuledExt.ruledThenFoldl (RuledExt.ruledBlock h0 _ _ [] ?_ ?_ ?_ ?_ ?_) 0 _
    (fun wf2 x h2 _ => replBody_ruled fp params _ wf2 x h2) _ (Nat.zero_le _)).ruled
  · simp [Workflow.NewWorkflow]
  · simp
  · simp
  · simp
  · simp [copyRule]

end Mm

namespace SciPipe

set_option maxRecDepth 100000 in
/-- C11: no process made with `NewProc` in the three programs has an
unresolved placeholder. In the graph built by cawpre `main`, in the graph
built by rnaseqpre `main` (for every `--maxtasks`), in the workflow
`download_jars` of mm `main` and in the workflow made by
`NewCrossValidateWorkflow` (for every value of its parameters), for every
process with a command template: each `o` placeholder of the template has a
path rule set for its name, every path rule set for the process names an `o`
placeholder of the template, each `i` placeholder has a connection made on
the data in-port of its name, and each `p` placeholder a connection made on
the parameter in-port of its name. -/
theorem no_unresolved_placeholder :
    Cawpre.main = some Cawpre.graph
      ∧ (∀ p ∈ Cawpre.graph.procs, Cawpre.graph.resolvedProc p = true)
      ∧ (∀ maxTasks : Int, ∀ p ∈ (Rnaseqpre.build maxTasks).procs,
          (Rnaseqpre.build maxTasks).resolvedProc p = true)
      ∧ (∀ p ∈ Mm.dlWf.procs, Mm.dlWf.resolvedProc p = true)
      ∧ (∀ (fp : Mm.FilePath) (maxTasks : Int) (params : Mm.CrossValidateWorkflowParams),
          ∀ p ∈ (Mm.NewCrossValidateWorkflow fp maxTasks params).procs,
            (Mm.NewCrossValidateWorkflow fp maxTasks params).resolvedProc p = true) :=
  ⟨cawpre_main_graph, cawpre_resolved, rnaseqpre_resolved, dlWf_resolved,
    fun fp maxTasks params => (Mm.newCrossValidateWorkflow_ruled fp maxTasks params).resolved⟩

set_option maxRecDepth 100000 in
theorem no_unresolved_placeholder_witness :
    (⟨8, "merge_bams_normal", .shell "samtools merge -f {o:mergedbam} {i:bams:r: }"⟩ : Proc)
        ∈ Cawpre.graph.procs
      ∧ placeholders "samtools merge -f {o:mergedbam} {i:bams:r: }"
          = [('o', "mergedbam"), ('i', "bams")]
      ∧ resolvedWith [] [(8, "bams", false)] 8 [('o', "mergedbam"), ('i', "bams")] = false
      ∧ resolvedWith [(8, "mergedbam")] [] 8 [('o', "mergedbam"), ('i', "bams")] = false
      ∧ resolvedWith [(8, "mergedbam"), (8, "bam")] [(8, "bams", false)] 8
          [('o', "mergedbam"), ('i', "bams")] = false
      ∧ Cawpre.graph.resolvedProc
          ⟨8, "merge_bams_normal", .shell "samtools merge -f {o:mergedbam} {i:bams:r: }"⟩
          = true :=
  ⟨by decide!, by decide, by decide, by decide, by decide,
    no_unresolved_placeholder.2.1 _ (by decide!)⟩

end SciPipe

/-! ## C12: the unique copies per run and per replicate -/

namespace SciPipe

theorem foldl_keeps {α : Type} (f : Workflow → α → Workflow)
    (hf : ∀ wf x, ∀ p ∈ wf.procs, p ∈ (f wf x).procs) (l : List α) (wf : Workflow) :
    ∀ p ∈ wf.procs, p ∈ (l.foldl f wf).procs := by
  induction l generalizing wf with
  | nil => exact fun _ hp => hp
  | cons x xs ih => exact fun p hp => ih (f wf x) p (hf wf x p hp)

theorem foldl_made {α : Type} (Q : α → Proc → Prop) (f : Workflow → α → Workflow)
    (hf : ∀ wf x, ∀ p ∈ wf.procs, p ∈ (f wf x).procs)
    (hQ : ∀ wf x, ∃ p ∈ (f wf x).procs, Q x p) (l : List α) (wf : Workflow) :
    ∀ x ∈ l, ∃ p ∈ (l.foldl f wf).procs, Q x p := by
  induction l generalizing wf with
  | nil => intro x hx; cases hx
  | cons y ys ih =>
    intro x hx
    rcases List.mem_cons.1 hx with rfl | hx
    · obtain ⟨p, hp, hq⟩ := hQ wf x
      exact ⟨p, foldl_keeps f hf ys _ p hp, hq⟩
    · exact ih (f wf y) x hx

theorem append_slash_cancel (a b x y : String)
    (h : a ++ "/" ++ x ++ "/" ++ b = a ++ "/" ++ y ++ "/" ++ b) : x = y := by
  have h2 := congrArg String.data h
  simp only [String.data_append, List.append_assoc, List.append_cancel_left_eq] at h2
  exact String.ext (List.append_cancel_right h2)

end SciPipe

namespace Mm
open SciPipe

theorem foldBody_keeps (shufTrain cntTrainData cur : Proc) (u : String) (wf : Workflow)
    (idx : Int) : ∀ p ∈ wf.procs, p ∈ (foldBody shufTrain cntTrainData cur u wf idx).procs := by
  intro p hp
  simp [foldBody, NewComponent, Workflow.addProc, Workflow.Connect, hp]

theorem costBody_keeps (params : CrossValidateWorkflowParams) (shufTrain cntTrainData : Proc)
    (u : String) (wf : Workflow) (cost : Float64) :
    ∀ p ∈ wf.procs, p ∈ (costBody params shufTrain cntTrainData u wf cost).procs := by
  intro p hp
  simp only [costBody, Workflow.NewStreamToSubStream, Workflow.NewProc, Workflow.addProc,
    Workflow.Connect, Workflow.FromFloat, Workflow.SetOut, Workflow.setPathFunc,
    List.mem_append]
  exact Or.inl (foldl_keeps _ (foldBody_keeps _ _ _ _) _ _ p (List.mem_append_left _ hp))

theorem trainSizeBody_keeps (params : CrossValidateWorkflowParams) (createReplCopy : Proc)
    (replID u : String) (wf : Workflow) (trainSize : Int) :
    ∀ p ∈ wf.procs, p ∈ (trainSizeBody params createReplCopy replID u wf trainSize).procs := by
  intro p hp
  simp only [trainSizeBody, NewComponent, Workflow.NewProc, Workflow.addProc,
    Workflow.Connect, Workflow.SetOut, Workflow.setPathFunc]
  exact foldl_keeps _ (costBody_keeps params _ _ _) _ _ p (by simp [hp])

theorem replBody_keeps (fp : FilePath) (params : CrossValidateWorkflowParams) (mmTestData : Proc)
    (wf : Workflow) (replID : String) :
    ∀ p ∈ wf.procs, p ∈ (replBody fp params mmTestData wf replID).procs := by
  intro p hp
  simp only [replBody, NewComponent, Workflow.NewProc, Workflow.addProc, Workflow.Connect,
    Workflow.FromStr, Workflow.SetOut, Workflow.SetOutFunc, Workflow.setPathFunc]
  exact foldl_keeps _ (trainSizeBody_keeps params _ _ _) _ _ p (by simp [hp])

theorem replBody_made (fp : FilePath) (params : CrossValidateWorkflowParams) (mmTestData : Proc)
    (wf : Workflow) (replID : String) :
    ∃ p ∈ (replBody fp params mmTestData wf replID).procs,
      p.name = "create_runcopy" ++ fs "_%s" [.str replID]
        ∧ p.kind = .shell "cp {i:orig} {o:copy} # {p:runid}" := by
  simp only [replBody, NewComponent, Workflow.NewProc, Workflow.addProc, Workflow.Connect,
    Workflow.FromStr, Workflow.SetOut, Workflow.SetOutFunc, Workflow.setPathFunc]
  exact ⟨_, foldl_keeps _ (trainSizeBody_keeps params _ _ _) _ _ _
    (List.mem_append_left _ (List.mem_append_right _ (List.mem_singleton_self _))), rfl, rfl⟩

theorem replBody_made_repl (fp : FilePath) (params : CrossValidateWorkflowParams)
    (mmTestData : Proc) (wf : Workflow) (replID : String) :
    ∃ p ∈ (replBody fp params mmTestData wf replID).procs,
      p.name = "create_replcopy_" ++ fs "_%s" [.str replID]
        ∧ p.kind = .shell "cp {i:orig} {o:copy} # {p:replid}" := by
  simp only [replBody, NewComponent, Workflow.NewProc, Workflow.addProc, Workflow.Connect,
    Workflow.FromStr, Workflow.SetOut, Workflow.SetOutFunc, Workflow.setPathFunc]
  exact ⟨_, foldl_keeps _ (trainSizeBody_keeps params _ _ _) _ _ _
    (List.mem_append_right _ (List.mem_singleton_self _)), rfl, rfl⟩

end Mm

namespace Mm
open SciPipe

/-- C12: in the workflow made by `NewCrossValidateWorkflow`, for every value
of its parameters, the path rule in force for out-port `copy` of every
process made with the command of `create_runcopy` is
`filepath.Dir(orig) + "/" + id + "/" + filepath.Base(orig)` with `orig` the
path on in-port `orig` and `id` the value of the parameter `runid`, and that
of every process made with the command of `create_replcopy` is the same with
the parameter `replid`; for each replicate id the two processes
`create_runcopy_<id>` and `create_replcopy__<id>` are in the workflow; and
for a fixed `orig` two tasks with the same copy path have the same id, so
two different ids give two different copy paths. -/
theorem copy_path_per_id (fp : FilePath) (maxTasks : Int)
    (params : CrossValidateWorkflowParams) :
    (∀ p ∈ (NewCrossValidateWorkflow fp maxTasks params).procs,
        (p.kind = .shell "cp {i:orig} {o:copy} # {p:runid}" →
          (NewCrossValidateWorkflow fp maxTasks params).pathFunc p "copy"
            = some (copyPath fp "runid"))
        ∧ (p.kind = .shell "cp {i:orig} {o:copy} # {p:replid}" →
          (NewCrossValidateWorkflow fp maxTasks params).pathFunc p "copy"
            = some (copyPath fp "replid")))
      ∧ (∀ replID ∈ (if params.ReplicateID ≠ "" then [params.ReplicateID]
            else params.ReplicateIDs),
          (∃ p ∈ (NewCrossValidateWorkflow fp maxTasks params).procs,
            p.name = "create_runcopy" ++ fs "_%s" [.str replID]
              ∧ p.kind = .shell "cp {i:orig} {o:copy} # {p:runid}")
          ∧ ∃ p ∈ (NewCrossValidateWorkflow fp maxTasks params).procs,
            p.name = "create_replcopy_" ++ fs "_%s" [.str replID]
              ∧ p.kind = .shell "cp {i:orig} {o:copy} # {p:replid}")
      ∧ (∀ (idParam : String) (t : Task), copyPath fp idParam t
          = fp.Dir (t.InPath "orig") ++ "/" ++ t.Param idParam ++ "/"
              ++ fp.Base (t.InPath "orig"))
      ∧ (∀ (idParam : String) (t1 t2 : Task), t1.InPath "orig" = t2.InPath "orig" →
          copyPath fp idParam t1 = copyPath fp idParam t2 →
          t1.Param idParam = t2.Param idParam) := by
  refine ⟨fun p hp => ⟨fun hk => ?_, fun hk => ?_⟩, ?_, fun _ _ => rfl, ?_⟩
  · exact (newCrossValidateWorkflow_ruled fp maxTasks params).rules p hp "copy" _
      (by simp [copyRule, hk])
  · exact (newCrossValidateWorkflow_ruled fp maxTasks params).rules p hp "copy" _
      (by simp [copyRule, hk])
  · simp only [NewCrossValidateWorkflow, Workflow.NewFileSource, Workflow.addProc]
    intro replID hr
    exact ⟨foldl_made
        (fun replID p => p.name = "create_runcopy" ++ fs "_%s" [.str replID]
          ∧ p.kind = .shell "cp {i:orig} {o:copy} # {p:runid}") _
        (replBody_keeps fp params _) (replBody_made fp params _) _ _ replID hr,
      foldl_made
        (fun replID p => p.name = "create_replcopy_" ++ fs "_%s" [.str replID]
          ∧ p.kind = .shell "cp {i:orig} {o:copy} # {p:replid}") _
        (replBody_keeps fp params _) (replBody_made_repl fp params _) _ _ replID hr⟩
  · intro idParam t1 t2 horig h
    simp only [copyPath, horig] at h
    exact append_slash_cancel _ _ _ _ h

theorem copy_path_per_id_witness :
    ∃ p ∈ (crossValWF ⟨fun _ => "data", fun _ => "sign.tsv"⟩).procs,
      p.name = "create_runcopy_r1"
        ∧ (crossValWF ⟨fun _ => "data", fun _ => "sign.tsv"⟩).pathFunc p "copy"
            = some (copyPath ⟨fun _ => "data", fun _ => "sign.tsv"⟩ "runid")
        ∧ copyPath ⟨fun _ => "data", fun _ => "sign.tsv"⟩ "runid"
            ⟨fun _ => "data/sign.tsv", fun _ => "testrun"⟩ = "data/testrun/sign.tsv" := by
  obtain ⟨p, hp, hn, hk⟩ :=
    ((copy_path_per_id ⟨fun _ => "data", fun _ => "sign.tsv"⟩ 4 mainParams).2.1 "r1"
      (by decide)).1
  exact ⟨p, hp, hn,
    ((copy_path_per_id ⟨fun _ => "data", fun _ => "sign.tsv"⟩ 4 mainParams).1 p hp).1 hk,
    by decide⟩

end Mm

/-! ## C13: the sequences the generators of cawpre hold -/

namespace Cawpre

set_option maxRecDepth 100000 in
/-- C13: in the graph built by cawpre `main`, for each sample type the three
generators connected to `align_samples_<type>` (`index_src_<type>` on the
parameter port `index`, `reads_fastq1_<type>` on `reads1`,
`reads_fastq2_<type>` on `reads2`) hold sequences of the same length, 5 for
normal and 6 for tumor; the k-th path of `reads_fastq1_<type>` is
origDataDir ++ "/tiny_" ++ type ++ "_L00" ++ idx ++ "_R1.fastq.gz" with `idx`
the k-th value of `index_src_<type>`, that of `reads_fastq2_<type>` the same
with "_R2"; no path held for normal is among the paths held for tumor. -/
theorem generator_sequences :
    main = some graph
      ∧ (∀ T ∈ ["normal", "tumor"],
          (graph.proc ("align_samples_" ++ T)).isSome
          ∧ (graph.proc ("align_samples_" ++ T)).map (fun a =>
                ((graph.upstream a.id "index" true).map Source.procId,
                  (graph.upstream a.id "reads1" false).map Source.procId,
                  (graph.upstream a.id "reads2" false).map Source.procId))
              = some ([(graph.proc ("index_src_" ++ T)).map (fun p => p.id)],
                  [(graph.proc ("reads_fastq1_" ++ T)).map (fun p => p.id)],
                  [(graph.proc ("reads_fastq2_" ++ T)).map (fun p => p.id)])
          ∧ some (paramsOf graph ("index_src_" ++ T)) = indexes.get T
          ∧ filePathsOf graph ("reads_fastq1_" ++ T)
              = (paramsOf graph ("index_src_" ++ T)).map (fun idx =>
                  origDataDir ++ "/tiny_" ++ T ++ "_L00" ++ idx ++ "_R1.fastq.gz")
          ∧ filePathsOf graph ("reads_fastq2_" ++ T)
              = (paramsOf graph ("index_src_" ++ T)).map (fun idx =>
                  origDataDir ++ "/tiny_" ++ T ++ "_L00" ++ idx ++ "_R2.fastq.gz"))
      ∧ paramsOf graph "index_src_normal" = ["1", "2", "4", "7", "8"]
      ∧ paramsOf graph "index_src_tumor" = ["1", "2", "3", "5", "6", "7"]
      ∧ (filePathsOf graph "reads_fastq1_normal").length = 5
      ∧ (filePathsOf graph "reads_fastq2_normal").length = 5
      ∧ (filePathsOf graph "reads_fastq1_tumor").length = 6
      ∧ (filePathsOf graph "reads_fastq2_tumor").length = 6
      ∧ (∀ x ∈ filePathsOf graph "reads_fastq1_normal" ++ filePathsOf graph "reads_fastq2_normal",
          x ∉ filePathsOf graph "reads_fastq1_tumor" ++ filePathsOf graph "reads_fastq2_tumor") := by
  refine ⟨SciPipe.cawpre_main_graph, ?_, ?_, ?_, ?_, ?_, ?_, ?_, ?_⟩ <;> decide!

end Cawpre

/-! ## C14: the run of rnaseqpre up to its default pattern -/

namespace SciPipe

theorem upstreamStep_edges (wf : Workflow) (ids : List Nat) :
    wf.upstreamStep ids
      = (ids ++ ((wf.conns.map (fun c => (c.src.procId, c.dst.id))).filter
          (fun e => decide (e.2 ∈ ids))).filterMap (fun e => e.1)).dedup := by
  simp [Workflow.upstreamStep, List.filter_map, List.filterMap_map, Function.comp_def]

theorem closure_congr (wf wf2 : Workflow)
    (hp : wf.procs.map (fun p => (p.id, p.name)) = wf2.procs.map (fun p => (p.id, p.name)))
    (hc : wf.conns.map (fun c => (c.src.procId, c.dst.id))
      = wf2.conns.map (fun c => (c.src.procId, c.dst.id))) (ids : List Nat) :
    wf.closure ids = wf2.closure ids := by
  have hstep : wf.upstreamStep = wf2.upstreamStep := by
    funext l
    rw [upstreamStep_edges, upstreamStep_edges, hc]
  have hlen : wf.procs.length = wf2.procs.length := by
    simpa using congrArg List.length hp
  simp only [Workflow.closure, hstep, hlen]

theorem filter_names (procs : List Proc) (q : Nat → Bool) :
    (procs.filter (fun p => q p.id)).map (fun p => p.name)
      = ((procs.map (fun p => (p.id, p.name))).filter (fun e => q e.1)).map (fun e => e.2) := by
  simp [List.filter_map, Function.comp_def]

theorem filter_ids (procs : List Proc) (q : String → Bool) :
    (procs.filter (fun p => q p.name)).map (fun p => p.id)
      = ((procs.map (fun p => (p.id, p.name))).filter (fun e => q e.2)).map (fun e => e.1) := by
  simp [List.filter_map, Function.comp_def]

theorem runNames_congr (mode : Matching) (wf wf2 : Workflow) (pattern : String)
    (hp : wf.procs.map (fun p => (p.id, p.name)) = wf2.procs.map (fun p => (p.id, p.name)))
    (hc : wf.conns.map (fun c => (c.src.procId, c.dst.id))
      = wf2.conns.map (fun c => (c.src.procId, c.dst.id))) :
    wf.runNames mode pattern = wf2.runNames mode pattern := by
  unfold Workflow.runNames Workflow.RunToRegex
  cases parsePattern pattern.data with
  | none => rfl
  | some items =>
    have ht := filter_ids wf.procs (fun n => nameMatches mode items n)
    have ht2 := filter_ids wf2.procs (fun n => nameMatches mode items n)
    simp only at ht ht2 ⊢
    rw [ht, ht2, hp]
    split_ifs with h
    · rfl
    · have hn := fun ids => filter_names wf.procs (fun i => decide (i ∈ wf.closure ids))
      have hn2 := fun ids => filter_names wf2.procs (fun i => decide (i ∈ wf2.closure ids))
      simp only at hn hn2 ⊢
      rw [hn, hn2, hp, closure_congr wf wf2 hp hc]

end SciPipe

namespace SciPipe

theorem closureNames_congr (wf wf2 : Workflow) (procName : String)
    (hp : wf.procs.map (fun p => (p.id, p.name)) = wf2.procs.map (fun p => (p.id, p.name)))
    (hc : wf.conns.map (fun c => (c.src.procId, c.dst.id))
      = wf2.conns.map (fun c => (c.src.procId, c.dst.id))) :
    wf.closureNames procName = wf2.closureNames procName := by
  have hfind : ∀ procs : List Proc,
      (procs.find? (fun p => decide (p.name = procName))).map (fun p => p.id)
        = ((procs.map (fun p => (p.id, p.name))).find? (fun e => decide (e.2 = procName))).map
            (fun e => e.1) := by
    intro procs
    induction procs with
    | nil => rfl
    | cons p rest ih =>
      by_cases h : p.name = procName
      · simp [List.find?, h]
      · simpa [List.find?, h] using ih
  have hid : (wf.proc procName).map (fun p => p.id) = (wf2.proc procName).map (fun p => p.id) := by
    simp only [Workflow.proc, hfind, hp]
  have hn := fun ids => filter_names wf.procs (fun i => decide (i ∈ wf.closure ids))
  have hn2 := fun ids => filter_names wf2.procs (fun i => decide (i ∈ wf2.closure ids))
  simp only at hn hn2
  unfold Workflow.closureNames
  cases h1 : wf.proc procName with
  | none =>
    cases h2 : wf2.proc procName with
    | none => rfl
    | some q => simp [h1, h2] at hid
  | some p =>
    cases h2 : wf2.proc procName with
    | none => simp [h1, h2] at hid
    | some q =>
      simp only [h1, h2, Option.map_some', Option.some.injEq] at hid
      show (wf.procs.filter (fun r => decide (r.id ∈ wf.closure [p.id]))).map (fun r => r.name)
        = (wf2.procs.filter (fun r => decide (r.id ∈ wf2.closure [q.id]))).map (fun r => r.name)
      rw [hn, hn2, hp, closure_congr wf wf2 hp hc, hid]

theorem rnaseqpre_ids_names (maxTasks : Int) :
    (Rnaseqpre.build maxTasks).procs.map (fun p => (p.id, p.name))
      = (Rnaseqpre.build 4).procs.map (fun p => (p.id, p.name)) :=
  rfl

theorem rnaseqpre_edges_fixed (maxTasks : Int) :
    (Rnaseqpre.build maxTasks).conns.map (fun c => (c.src.procId, c.dst.id))
      = (Rnaseqpre.build 4).conns.map (fun c => (c.src.procId, c.dst.id)) :=
  rfl

end SciPipe

namespace Rnaseqpre

set_option maxRecDepth 100000 in
/-- C14: in the graph built by rnaseqpre `main` (for every `--maxtasks`) the
dependency closure of `align_samples_SRR3222409` is all ten processes of the
workflow; with the default `--procs` pattern "align.*" `main` calls
`RunToRegex("align.*")`, and that run executes all ten processes, whether
the pattern is matched against whole names or searched for inside them. -/
theorem default_run_is_whole_graph (maxTasks : Int) :
    main false maxTasks "align.*" = [.runToRegex "align.*"]
      ∧ (build maxTasks).procs.map (fun p => p.name)
          = ["download_apps", "untgz_apps", "collect_substream_SRR3222409",
              "fastqFile_fastqc_SRR3222409_1", "fastqc_sample_SRR3222409_1",
              "fastqFile_fastqc_SRR3222409_2", "fastqc_sample_SRR3222409_2",
              "fastqFile_align_SRR3222409_1.chr11.fq.gz",
              "fastqFile_align_SRR3222409_2.chr11.fq.gz", "align_samples_SRR3222409"]
      ∧ (build maxTasks).closureNames "align_samples_SRR3222409"
          = (build maxTasks).procs.map (fun p => p.name)
      ∧ (build maxTasks).runNames .whole "align.*"
          = some ((build maxTasks).procs.map (fun p => p.name))
      ∧ (build maxTasks).runNames .search "align.*"
          = some ((build maxTasks).procs.map (fun p => p.name)) := by
  have hn : (build maxTasks).procs.map (fun p => p.name)
      = (build 4).procs.map (fun p => p.name) := rfl
  rw [SciPipe.closureNames_congr _ (build 4) _ (SciPipe.rnaseqpre_ids_names maxTasks)
      (SciPipe.rnaseqpre_edges_fixed maxTasks),
    SciPipe.runNames_congr .whole _ (build 4) _ (SciPipe.rnaseqpre_ids_names maxTasks)
      (SciPipe.rnaseqpre_edges_fixed maxTasks),
    SciPipe.runNames_congr .search _ (build 4) _ (SciPipe.rnaseqpre_ids_names maxTasks)
      (SciPipe.rnaseqpre_edges_fixed maxTasks), hn]
  refine ⟨?_, ?_, ?_, ?_, ?_⟩
  · simp [main]
  · decide!
  · decide!
  · decide!
  · decide!

end Rnaseqpre

/-! ## C15: the output path of the two fastqc processes -/

namespace Rnaseqpre

/-- C15: in rnaseqpre the path function set for out-port `done` of
`fastqc_sample_<sample>_<j>` is constant: whatever the workflow, the sample
prefix and `j`, the loop body sets for the process it has just made a rule
that gives "tmp/rnaseqpre/fastqc/done.flag" for every task; so in the graph
that `main` builds the out-port `done` of `fastqc_sample_SRR3222409_1` and of
`fastqc_sample_SRR3222409_2` resolve to that same path for every task. -/
theorem fastqc_done_constant (maxTasks : Int) :
    (∀ (unTgzApps collect : Proc) (samplePrefix : String) (wf : Workflow) (j : Nat),
        ∃ f : Task → String,
          (fastqcBody unTgzApps collect samplePrefix wf j).pathFuncs
              = ((wf.procs.length + 1, "done"), f) :: wf.pathFuncs
            ∧ ((fastqcBody unTgzApps collect samplePrefix wf j).procs.map (fun p => (p.id, p.name)))
              = wf.procs.map (fun p => (p.id, p.name))
                ++ [(wf.procs.length, "fastqFile_fastqc_" ++ samplePrefix ++ "_" ++ toString j),
                    (wf.procs.length + 1, "fastqc_sample_" ++ samplePrefix ++ "_" ++ toString j)]
            ∧ ∀ t, f t = "tmp/rnaseqpre/fastqc/done.flag")
      ∧ (∀ t, (build maxTasks).outPath "fastqc_sample_SRR3222409_1" "done" t
          = some "tmp/rnaseqpre/fastqc/done.flag")
      ∧ (∀ t, (build maxTasks).outPath "fastqc_sample_SRR3222409_2" "done" t
          = some "tmp/rnaseqpre/fastqc/done.flag") := by
  refine ⟨fun unTgzApps collect samplePrefix wf j =>
      ⟨fun _ => tmpDir ++ "/rnaseqpre/fastqc/done.flag", ?_, ?_, fun _ => rfl⟩,
    fun _ => rfl, fun _ => rfl⟩
  · simp [fastqcBody, Workflow.NewFileSource, Workflow.NewProc, Workflow.addProc,
      Workflow.Connect, Workflow.SetOutFunc, Workflow.setPathFunc]
  · simp [fastqcBody, Workflow.NewFileSource, Workflow.NewProc, Workflow.addProc,
      Workflow.Connect, Workflow.SetOutFunc, Workflow.setPathFunc]

end Rnaseqpre

/-! ## C1 (amended): one upstream connection per in-port, aggregators apart -/

namespace SciPipe

theorem Fed.fedEmpty (name : String) (maxTasks : Int) :
    Fed (Workflow.NewWorkflow name maxTasks) := by
  intro p hp
  simp [Workflow.NewWorkflow] at hp

theorem Fed.fedBlock {wf : Workflow} (h : Fed wf) (ps : List Proc) (cs : List Conn)
    (pf : List ((Nat × String) × (Task → String)))
    (hnew : ∀ p ∈ ps, p.kind.isAggregator = false → ∀ port ∈ p.inPorts,
      port.1 ≠ "in" ∧ (p.id, port.1, port.2) ∈ cs.map Workflow.key) :
    Fed ⟨wf.name, wf.maxTasks, wf.procs ++ ps, wf.conns ++ cs, pf⟩ := by
  intro p hp hk port hport
  simp only [List.mem_append] at hp
  simp only [List.map_append, List.mem_append]
  rcases hp with hp | hp
  · exact ⟨(h p hp hk port hport).1, Or.inl (h p hp hk port hport).2⟩
  · exact ⟨(hnew p hp hk port hport).1, Or.inr (hnew p hp hk port hport).2⟩

theorem Fed.fedFoldl {α : Type} (f : Workflow → α → Workflow)
    (hf : ∀ wf x, Fed wf → Fed (f wf x)) (l : List α) (wf : Workflow) (h : Fed wf) :
    Fed (l.foldl f wf) := by
  induction l generalizing wf with
  | nil => exact h
  | cons x xs ih => exact ih (f wf x) (hf wf x h)

theorem inPorts_aggregator (p : Proc) (hk : p.kind.isAggregator = true) :
    p.inPorts = [("in", false)] := by
  unfold Proc.inPorts
  cases hkind : p.kind <;> simp [hkind, ProcKind.isAggregator] at hk ⊢

/-- In a wired workflow whose in-ports are all fed, every in-port of a
process that is no aggregator has exactly one upstream connection. -/
theorem Fed.fed_one {rank : Proc → Nat} {wf : Workflow} (hf : Fed wf)
    (hw : Wired rank wf) (p : Proc) (hp : p ∈ wf.procs) (hk : p.kind.isAggregator = false)
    (port : String × Bool) (hport : port ∈ p.inPorts) :
    wf.fanIn p.id port.1 port.2 = 1 := by
  obtain ⟨hne, hmem⟩ := hf p hp hk port hport
  obtain ⟨c, hc, hkey⟩ := List.mem_map.1 hmem
  simp only [Workflow.key, Prod.mk.injEq] at hkey
  have hcagg : c.dst.kind.isAggregator = false := by
    cases hagg : c.dst.kind.isAggregator
    · rfl
    · exact absurd (hkey.2.1 ▸ (hw.aggPort c hc).1 hagg) hne
  have := hw.fanIn_eq_one c hc hcagg
  rw [hkey.1, hkey.2.1, hkey.2.2] at this
  exact this

end SciPipe

namespace Mm
open SciPipe

theorem foldBody_fed (shufTrain cntTrainData cur : Proc) (u : String) (wf : Workflow)
    (idx : Int) (hw : Fed wf) : Fed (foldBody shufTrain cntTrainData cur u wf idx) := by
  simp only [foldBody, NewComponent, Workflow.addProc, Workflow.Connect, List.length_append,
    List.length_singleton, List.length_cons, List.length_nil, List.append_assoc,
    List.singleton_append, List.cons_append, List.nil_append]
  refine Fed.fedBlock hw _ _ _ ?_
  simp [Proc.inPorts, componentInPorts, Workflow.key]

theorem costBody_fed (params : CrossValidateWorkflowParams) (shufTrain cntTrainData : Proc)
    (u : String) (wf : Workflow) (cost : Float64) (hw : Fed wf) :
    Fed (costBody params shufTrain cntTrainData u wf cost) := by
  simp only [costBody, Workflow.NewStreamToSubStream, Workflow.NewProc, Workflow.addProc,
    Workflow.Connect, Workflow.FromFloat, Workflow.SetOut, Workflow.setPathFunc, List.append_assoc,
    List.singleton_append, List.cons_append, List.nil_append]
  have h1 : Fed ⟨wf.name, wf.maxTasks, wf.procs ++ [⟨wf.procs.length,
      "cost_substr" ++ (u ++ fs "_c%f" [.float cost]), .streamToSubStream⟩], wf.conns ++ [],
      wf.pathFuncs⟩ :=
    Fed.fedBlock hw _ _ _ (by simp [ProcKind.isAggregator])
  simp only [List.append_nil] at h1
  have h2 := Fed.fedFoldl
    (foldBody shufTrain cntTrainData
      ⟨wf.procs.length, "cost_substr" ++ (u ++ fs "_c%f" [.float cost]), .streamToSubStream⟩
      (u ++ fs "_c%f" [.float cost]))
    (fun wf2 x h2 => foldBody_fed shufTrain cntTrainData _ _ wf2 x h2)
    (foldIdxs params.FoldsCount) _ h1
  refine Fed.fedBlock h2 _ _ _ ?_
  simp [Proc.inPorts, holders_avg, Workflow.key]

theorem trainSizeBody_fed (params : CrossValidateWorkflowParams) (createReplCopy : Proc)
    (replID u : String) (wf : Workflow) (trainSize : Int) (hw : Fed wf) :
    Fed (trainSizeBody params createReplCopy replID u wf trainSize) := by
  simp only [trainSizeBody, NewComponent, Workflow.NewProc, Workflow.addProc,
    Workflow.Connect, Workflow.SetOut, Workflow.setPathFunc, List.length_append, List.length_singleton,
    List.length_cons, List.length_nil, List.append_assoc, List.singleton_append,
    List.cons_append, List.nil_append]
  refine Fed.fedFoldl _ (fun wf2 x h2 => costBody_fed params _ _ _ wf2 x h2) _ _
    (Fed.fedBlock hw _ _ _ ?_)
  simp [Proc.inPorts, componentInPorts, holders_gunzip, Workflow.key]

theorem replBody_fed (fp : FilePath) (params : CrossValidateWorkflowParams) (mmTestData : Proc)
    (wf : Workflow) (replID : String) (hw : Fed wf) :
    Fed (replBody fp params mmTestData wf replID) := by
  simp only [replBody, NewComponent, Workflow.NewProc, Workflow.addProc, Workflow.Connect,
    Workflow.FromStr, Workflow.SetOut, Workflow.SetOutFunc, Workflow.setPathFunc,
    List.length_append, List.length_singleton, List.length_cons, List.length_nil,
    List.append_assoc, List.singleton_append, List.cons_append, List.nil_append]
  refine Fed.fedFoldl _ (fun wf2 x h2 => trainSizeBody_fed params _ _ _ wf2 x h2) _ _
    (Fed.fedBlock hw _ _ _ ?_)
  simp [Proc.inPorts, componentInPorts, holders_runcopy, holders_replcopy, Workflow.key]
  refine ⟨fun _ a => ⟨?_, ?_⟩, fun _ a => ⟨?_, ?_⟩⟩ <;> rintro rfl <;> decide

theorem newCrossValidateWorkflow_fed (fp : FilePath) (maxTasks : Int)
    (params : CrossValidateWorkflowParams) :
    Fed (NewCrossValidateWorkflow fp maxTasks params) := by
  simp only [NewCrossValidateWorkflow, Workflow.NewFileSource, Workflow.addProc]
  refine Fed.fedFoldl _ (fun wf2 x h2 => replBody_fed fp params _ wf2 x h2) _ _
    (Fed.fedBlock (Fed.fedEmpty "cross_validate" maxTasks) _ [] _ ?_)
  simp [Proc.inPorts]

end Mm

namespace SciPipe

theorem rnaseqpre_inPorts (m : Int) :
    ∀ p ∈ (Rnaseqpre.build m).procs, ∀ port ∈ p.inPorts,
      (Rnaseqpre.build m).fanIn p.id port.1 port.2 = if p.kind.isAggregator then 2 else 1 := by
  obtain ⟨cmd, hprocs, hph⟩ := rnaseqpre_align_holders m
  have h9 : ∀ p ∈ (Rnaseqpre.build 4).procs.take 9, ∀ port ∈ p.inPorts,
      List.countP (fun x : (Nat × String × Bool) × Bool => x.1 = (p.id, port.1, port.2))
        [((1, "tgz", false), false), ((4, "reads", false), false),
          ((4, "untardone", false), false), ((2, "in", false), true),
          ((6, "reads", false), false), ((6, "untardone", false), false),
          ((2, "in", false), true), ((9, "reads1", false), false),
          ((9, "reads2", false), false), ((9, "fastqc", false), false)]
        = if p.kind.isAggregator then 2 else 1 := by
    decide!
  have halign : ∀ port ∈ List.filterMap
        (fun h : Char × String => if h.1 = 'i' then some (h.2, false)
          else if h.1 = 'p' then some (h.2, true) else none)
        [('i', "reads1"), ('i', "reads2"), ('o', "bam_aligned"), ('o', "bam_aligned"),
          ('i', "fastqc")],
      List.countP (fun x : (Nat × String × Bool) × Bool => x.1 = (9, port.1, port.2))
        [((1, "tgz", false), false), ((4, "reads", false), false),
          ((4, "untardone", false), false), ((2, "in", false), true),
          ((6, "reads", false), false), ((6, "untardone", false), false),
          ((2, "in", false), true), ((9, "reads1", false), false),
          ((9, "reads2", false), false), ((9, "fastqc", false), false)] = 1 := by
    decide
  intro p hp port hport
  rw [fanIn_eq_countP_keys _ (fun c => c.dst.kind.isAggregator), rnaseqpre_keys]
  rw [hprocs] at hp
  rcases List.mem_append.1 hp with hp | hp
  · exact h9 p hp port hport
  · rw [List.mem_singleton.1 hp] at hport ⊢
    simp only [Proc.inPorts, hph] at hport
    simp only [ProcKind.isAggregator, Bool.false_eq_true, if_false]
    exact halign port hport

end SciPipe

namespace SciPipe

set_option maxRecDepth 100000 in
/-- C1 (amended): in the graph built by cawpre `main` every in-port of every
process, the in-port of `stream_to_substream_<type>` included, has exactly
one upstream connection, and so has every in-port a connection ends in. In
the graph built by rnaseqpre `main` (for every `--maxtasks`) and in the
workflow made by `NewCrossValidateWorkflow` (for every parameter value)
every in-port of every process that is no `StreamToSubStream` has exactly
one upstream connection, and so has every such in-port a connection ends
in; the in-port of `collect_substream_<sample>` has two upstream
connections and the in-port of every `cost_substr<...>` has `FoldsCount` of
them (none when that is not positive). The in-ports of a process are those
of `Proc.inPorts`. -/
theorem single_producer_but_aggregators :
    (Cawpre.main = some Cawpre.graph ∧ Cawpre.graph.SingleProducer
      ∧ ∀ p ∈ Cawpre.graph.procs, p.kind.isAggregator = true →
          Cawpre.graph.fanIn p.id "in" false = 1)
    ∧ (∀ maxTasks : Int,
        (∀ p ∈ (Rnaseqpre.build maxTasks).procs, ∀ port ∈ p.inPorts,
          (Rnaseqpre.build maxTasks).fanIn p.id port.1 port.2
            = if p.kind.isAggregator then 2 else 1)
        ∧ (∀ c ∈ (Rnaseqpre.build maxTasks).conns, c.dst.kind.isAggregator = false →
          (Rnaseqpre.build maxTasks).fanIn c.dst.id c.dstPort c.isParam = 1)
        ∧ (∀ p ∈ (Rnaseqpre.build maxTasks).procs, p.kind.isAggregator = true →
          (Rnaseqpre.build maxTasks).fanIn p.id "in" false = 2))
    ∧ (∀ (fp : Mm.FilePath) (maxTasks : Int) (params : Mm.CrossValidateWorkflowParams),
        (∀ p ∈ (Mm.NewCrossValidateWorkflow fp maxTasks params).procs, ∀ port ∈ p.inPorts,
          (Mm.NewCrossValidateWorkflow fp maxTasks params).fanIn p.id port.1 port.2
            = if p.kind.isAggregator then params.FoldsCount.toNat else 1)
        ∧ (∀ c ∈ (Mm.NewCrossValidateWorkflow fp maxTasks params).conns,
          c.dst.kind.isAggregator = false →
          (Mm.NewCrossValidateWorkflow fp maxTasks params).fanIn c.dst.id c.dstPort c.isParam = 1)
        ∧ (∀ p ∈ (Mm.NewCrossValidateWorkflow fp maxTasks params).procs,
          p.kind.isAggregator = true →
          (Mm.NewCrossValidateWorkflow fp maxTasks params).fanIn p.id "in" false
            = params.FoldsCount.toNat)) := by
  refine ⟨⟨cawpre_main_graph, ?_, ?_⟩, ?_, ?_⟩
  · unfold Workflow.SingleProducer
    decide!
  · decide!
  · intro maxTasks
    refine ⟨rnaseqpre_inPorts maxTasks, ?_, ?_⟩
    · intro c hc hk
      rw [fanIn_eq_countP_keys _ (fun c => c.dst.kind.isAggregator)]
      have hmem : (Workflow.key c, c.dst.kind.isAggregator) ∈
          (Rnaseqpre.build maxTasks).conns.map
            (fun c => (Workflow.key c, c.dst.kind.isAggregator)) :=
        List.mem_map.2 ⟨c, hc, rfl⟩
      rw [rnaseqpre_keys] at hmem ⊢
      rw [hk] at hmem
      have hall : ∀ x ∈ [((1, "tgz", false), false), ((4, "reads", false), false),
          ((4, "untardone", false), false), ((2, "in", false), true),
          ((6, "reads", false), false), ((6, "untardone", false), false),
          ((2, "in", false), true), ((9, "reads1", false), false),
          ((9, "reads2", false), false), ((9, "fastqc", false), false)],
          x.2 = false → List.countP (fun y : (Nat × String × Bool) × Bool => y.1 = x.1)
            [((1, "tgz", false), false), ((4, "reads", false), false),
              ((4, "untardone", false), false), ((2, "in", false), true),
              ((6, "reads", false), false), ((6, "untardone", false), false),
              ((2, "in", false), true), ((9, "reads1", false), false),
              ((9, "reads2", false), false), ((9, "fastqc", false), false)] = 1 := by
        decide
      exact hall _ hmem rfl
    · intro p hp hk
      have := rnaseqpre_inPorts maxTasks p hp ("in", false)
        (by rw [inPorts_aggregator p hk]; exact List.mem_singleton_self _)
      simpa [hk] using this
  · intro fp maxTasks params
    have hext := Mm.newCrossValidateWorkflow_ext fp maxTasks params
    have hagg : ∀ p ∈ (Mm.NewCrossValidateWorkflow fp maxTasks params).procs,
        p.kind.isAggregator = true →
        (Mm.NewCrossValidateWorkflow fp maxTasks params).fanIn p.id "in" false
          = params.FoldsCount.toNat := by
      intro p hp hk
      rcases hext.new p hp hk with h0 | hF
      · simp only [List.mem_singleton] at h0
        subst h0
        cases hk
      · exact hF
    refine ⟨?_, fun c hc hk => hext.wired.fanIn_eq_one c hc hk, hagg⟩
    intro p hp port hport
    cases hk : p.kind.isAggregator
    · simpa using (Mm.newCrossValidateWorkflow_fed fp maxTasks params).fed_one hext.wired
        p hp hk port hport
    · rw [inPorts_aggregator p hk, List.mem_singleton] at hport
      subst hport
      simpa using hagg p hp hk

set_option maxRecDepth 100000 in
/-- C1 (amended), at the aggregators of cawpre and of rnaseqpre, at
`align_samples_normal` of cawpre, and at the first aggregator of a
cross-validation workflow with one train size, one cost and two folds. -/
theorem single_producer_but_aggregators_witness :
    Cawpre.graph.fanIn 7 "in" false = 1
      ∧ (Cawpre.graph.procs.filter (fun p => p.id = 6)).map Proc.inPorts
          = [[("index", true), ("reads1", false), ("reads2", false), ("appsdir", false)]]
      ∧ Cawpre.graph.fanIn 6 "appsdir" false = 1
      ∧ (Rnaseqpre.build 4).fanIn 2 "in" false = 2
      ∧ (Mm.NewCrossValidateWorkflow ⟨id, id⟩ 4
          { Mm.mainParams with TrainSizes := [500], CostVals := [⟨1, 4⟩], FoldsCount := 2 }).fanIn
          10 "in" false = 2 :=
  ⟨single_producer_but_aggregators.1.2.2
      ⟨7, "stream_to_substream_normal", .streamToSubStream⟩ (by decide!) rfl,
    by decide!, by decide!,
    (single_producer_but_aggregators.2.1 4).2.2
      ⟨2, "collect_substream_SRR3222409", .streamToSubStream⟩ (by decide) rfl,
    (single_producer_but_aggregators.2.2 ⟨id, id⟩ 4
        { Mm.mainParams with TrainSizes := [500], CostVals := [⟨1, 4⟩], FoldsCount := 2 }).2.2
      ⟨10, "cost_substr_r1_tr500_c0.000100", .streamToSubStream⟩ (by decide!) rfl⟩

end SciPipe
